import Mathlib

/-!
ClassifyFissureParticles, ACILAssistantBase and EditAirwayParticles: a shallow embedding

Embedding of `CommandLineTools/ClassifyFissureParticles/ClassifyFissureParticles.cxx`, of
the functions `LabelLungThirds`, `LabelLeftLungRightLung`, `PaintLabelMapSlice` and
`EraseLabelMapSlice` of `InteractiveTools/ACILAssistant/ACILAssistantBase.cxx`, and of
`InteractiveTools/EditAirwayParticles/EditAirwayParticles.cxx`.

Conventions of the embedding.

* In the decision rule of `ClassifyParticles` and in the tally, a C++ `double` is a value of
  `Dbl α`: either a number `num r` of an ordered field `α` (exact arithmetic, unbounded
  range; `α = ℚ` for evaluation, `α = ℝ` where `sqrt` and `acos` are involved) or `nan`, the
  not-a-number outcome of `0.0/0.0` and of the square root of a negative number.  `nan`
  propagates through `*` and `+`, and every ordered comparison with `nan` is false, as IEEE
  arithmetic has it.
* Where the result depends on rounding, the arithmetic is IEEE 754: in the geometry helpers
  `GetVectorMagnitude` and `GetAngleBetweenVectors` and in the projection scores of the
  end-to-end scenario a `double` is a value of `Double α` (a binary64 number, an infinity or
  not-a-number), every operation rounding its exact result to nearest, ties to even, with
  gradual underflow and overflow to infinity; the values that `WriteParticlesToFile` and
  `GetLabeledAirwayParticles` store in a `vtkFloatArray` or in a `vtkPoints` are converted
  to binary32 (`toFloat`).  The functions `pow` and `acos` of the C math library, whose
  rounding the C standard leaves open, are a parameter (`MathLibrary`).
* `std::vector` is `List`; an access out of range makes the enclosing function return
  `none`.
* `std::map< unsigned int, PARTICLEINFO >` is a list of (key, value) pairs in iteration
  order.
* Loop counters are natural numbers (the particle count is assumed below `2^32`, so the
  `unsigned int` counters never wrap).  The `unsigned int` accumulators of the assistant
  (voxel counts, extents) wrap at `2^32`.
* What the sources use but do not contain (VTK, ITK, TCLAP, the `cip` headers) is a
  parameter or a structure of the embedding, as its doc comment says.
-/

namespace CIP

/-! ## Data model -/

/-- Value of a `double` expression: a number, or not-a-number. -/
inductive Dbl (α : Type) where
  | num (r : α)
  | nan
deriving DecidableEq

namespace Dbl

variable {α : Type}

/-- Product of two doubles: `a * b`. -/
def mul [Mul α] : Dbl α → Dbl α → Dbl α
  | num a, num b => num (a * b)
  | _, _ => nan

/-- Sum of two doubles: `a + b`. -/
def add [Add α] : Dbl α → Dbl α → Dbl α
  | num a, num b => num (a + b)
  | _, _ => nan

/-- Comparison `a > b`; false when either side is not a number. -/
def gt [LinearOrder α] : Dbl α → Dbl α → Bool
  | num a, num b => decide (a > b)
  | _, _ => false

/-- Comparison `a >= b`; false when either side is not a number. -/
def ge [LinearOrder α] : Dbl α → Dbl α → Bool
  | num a, num b => decide (a ≥ b)
  | _, _ => false

end Dbl

/-- Modelled from the spec: the classification labels, the enumerators `cip::UNDEFINEDTYPE`,
`cip::OBLIQUEFISSURE` and `cip::HORIZONTALFISSURE` of `cip::ChestType` (`cipConventions.h` is
not among the sources).  The spec lists them as three distinct labels; the cast to
`unsigned char` is taken to keep them distinct. -/
inductive ChestType where
  | UNDEFINEDTYPE
  | OBLIQUEFISSURE
  | HORIZONTALFISSURE
deriving DecidableEq

/-- The record `struct PARTICLEINFO`.  The struct has no initialiser for `cipType`:
`none` is the label that has not been assigned yet. -/
structure PARTICLEINFO (α : Type) where
  distance : List (Dbl α)
  angle : List (Dbl α)
  cipType : Option ChestType
deriving DecidableEq

/-- The map `std::map< unsigned int, PARTICLEINFO >`, as its entries in iteration order. -/
abbrev InfoMap (α : Type) := List (Nat × PARTICLEINFO α)

/-! ## Classification (`ClassifyParticles`) -/

section Classify

variable {α : Type} [LinearOrderedField α]

/-- The projection score of one (distance, angle) pair, the expression
`distanceWeight*distance[i] + angleWeight*angle[i]` of line 455. -/
def projectionEntry (distanceWeight angleWeight distance angle : Dbl α) : Dbl α :=
  Dbl.add (Dbl.mul distanceWeight distance) (Dbl.mul angleWeight angle)

/-- The inner loop of `ClassifyParticles`:
`for i < distance.size(): projection.push_back( distanceWeight*distance[i] + angleWeight*angle[i] )`.
The two lists are walked in step; `angle[i]` out of range gives `none`. -/
def projectionOf (distanceWeight angleWeight : Dbl α) :
    List (Dbl α) → List (Dbl α) → Option (List (Dbl α))
  | [], _ => some []
  | _ :: _, [] => none
  | d :: ds, a :: as =>
    match projectionOf distanceWeight angleWeight ds as with
    | some rest => some (projectionEntry distanceWeight angleWeight d a :: rest)
    | none => none

/-- The decision of `ClassifyParticles` on the vector `projection` (lines 458-496).
With no entry at all, `projection[0]` is out of range (`none`). -/
def decideType (projection : List (Dbl α)) (threshold : Dbl α) : Option ChestType :=
  if projection.length = 1 then
    match projection with
    | p0 :: _ =>
      if Dbl.gt p0 threshold then some ChestType.OBLIQUEFISSURE
      else some ChestType.UNDEFINEDTYPE
    | [] => none
  else
    match projection with
    | p0 :: p1 :: _ =>
      if Dbl.ge p0 p1 then
        if Dbl.gt p0 threshold then some ChestType.OBLIQUEFISSURE
        else some ChestType.UNDEFINEDTYPE
      else
        if Dbl.gt p1 threshold then some ChestType.HORIZONTALFISSURE
        else some ChestType.UNDEFINEDTYPE
    | _ => none

/-- The body of the `while` loop of `ClassifyParticles` for one map entry: compute the
projections, decide, and store the label in `cipType`. -/
def classifyEntry (info : PARTICLEINFO α) (distanceWeight angleWeight threshold : Dbl α) :
    Option (PARTICLEINFO α) :=
  match projectionOf distanceWeight angleWeight info.distance info.angle with
  | none => none
  | some projection =>
    match decideType projection threshold with
    | none => none
    | some t => some { info with cipType := some t }

/-- The function `ClassifyParticles`: the iterator runs over the map from `begin()` to `end()`
and each entry is updated in place.  `tpsVec` is a parameter of the source function that its
body does not read. -/
def ClassifyParticles {S : Type} (particleToInfoMap : InfoMap α) (tpsVec : List S)
    (distanceWeight angleWeight threshold : Dbl α) : Option (InfoMap α) :=
  match particleToInfoMap with
  | [] => some []
  | (k, info) :: rest =>
    match classifyEntry info distanceWeight angleWeight threshold with
    | none => none
    | some info1 =>
      match ClassifyParticles rest tpsVec distanceWeight angleWeight threshold with
      | none => none
      | some rest1 => some ((k, info1) :: rest1)

end Classify

/-! ### Scenarios of the specification -/

/-- The left-lung scenario: three particles with (distance, angle) = (10, 5), (50, 40),
(80, 10), not yet labelled. -/
def scenarioLeft : InfoMap ℚ :=
  [(0, ⟨[Dbl.num 10], [Dbl.num 5], none⟩),
   (1, ⟨[Dbl.num 50], [Dbl.num 40], none⟩),
   (2, ⟨[Dbl.num 80], [Dbl.num 10], none⟩)]

/-- The right-lung scenario: one particle whose oblique score is -20 and whose horizontal
score is -25 under the weights (-1, 0). -/
def scenarioRight : InfoMap ℚ :=
  [(0, ⟨[Dbl.num 20, Dbl.num 25], [Dbl.num 0, Dbl.num 0], none⟩)]

/-- A map that agrees with `scenarioLeft` on the distance and angle of particle 0 and on
nothing else. -/
def scenarioOther : InfoMap ℚ :=
  [(0, ⟨[Dbl.num 10], [Dbl.num 5], some ChestType.HORIZONTALFISSURE⟩),
   (7, ⟨[Dbl.num 1, Dbl.num 2], [Dbl.num 3, Dbl.num 4], none⟩)]

/-- A right-lung particle whose angle to the horizontal surface is not a number (what the
measurement stores for a zero orientation vector): distances 3 and 5, angles 0 and NaN. -/
def scenarioNanScore : InfoMap ℚ :=
  [(0, ⟨[Dbl.num 3, Dbl.num 5], [Dbl.num 0, Dbl.nan], none⟩)]

end CIP

/-! ## Binary floating-point arithmetic -/

namespace CIP

/-- A binary floating-point format of IEEE 754: the number of bits of the significand and the
least and greatest exponents of a normal number. -/
structure Format where
  prec : Nat
  emin : Int
  emax : Int

/-- The format of a C++ `double`. -/
def binary64 : Format := ⟨53, -1022, 1023⟩

/-- The format of a C++ `float`. -/
def binary32 : Format := ⟨24, -126, 127⟩

section Rounding

variable {α : Type} [LinearOrderedField α] [FloorRing α]

/-- The integer nearest to `t`, the even one of the two when `t` lies half-way. -/
def roundHalfEven (t : α) : Int :=
  if Int.fract t < 1 / 2 then ⌊t⌋
  else if 1 / 2 < Int.fract t then ⌊t⌋ + 1
  else if ⌊t⌋ % 2 = 0 then ⌊t⌋ else ⌊t⌋ + 1

/-- The exponent of the spacing of the format around `x`: with `2^e ≤ |x| < 2^(e+1)` it is
`e - (prec - 1)`, and the one of the least normal binade below the normal range. -/
def Format.quantum (f : Format) (x : α) : Int :=
  max (Int.log 2 |x|) f.emin - ((f.prec : Int) - 1)

/-- Rounding to the nearest number of the format, ties to even (the rounding of every IEEE
operation in the default mode), before the test for overflow. -/
def Format.round (f : Format) (x : α) : α :=
  (roundHalfEven (x / (2 : α) ^ f.quantum x) : α) * (2 : α) ^ f.quantum x

/-- The conversion `static_cast<float>( x )` of a `double` that a `vtkFloatArray` and a
`vtkPoints` of the default (float) data type apply to every component stored into them.
A value beyond the range of `float` has no defined conversion; nothing is said about it. -/
def toFloat (x : α) : α := binary32.round x

/-- Value of a `double` expression in binary64 arithmetic: a finite number, an infinity, or
not-a-number.  The sign of a zero is not modelled; it matters only as the sign of a zero
denominator, and the one denominator of the program is a product of two square roots, a zero
of positive sign. -/
inductive Double (α : Type) where
  | fin (x : α)
  | inf (negative : Bool)
  | nan
deriving DecidableEq

namespace Double

/-- The `double` that an operation with the exact result `x` delivers: `x` rounded to nearest,
an infinity when the rounded value is beyond the greatest finite `double`. -/
def ofExact (x : α) : Double α :=
  if (2 : α) ^ (1024 : Int) ≤ |binary64.round x| then inf (decide (x < 0))
  else fin (binary64.round x)

/-- The negation `-a`. -/
def neg : Double α → Double α
  | fin x => fin (-x)
  | inf s => inf (!s)
  | nan => nan

/-- The absolute value `abs( a )`. -/
def abs : Double α → Double α
  | fin x => fin |x|
  | inf _ => inf false
  | nan => nan

/-- The sum `a + b`. -/
def add : Double α → Double α → Double α
  | fin x, fin y => ofExact (x + y)
  | fin _, inf s => inf s
  | inf s, fin _ => inf s
  | inf s, inf t => if s = t then inf s else nan
  | _, _ => nan

/-- The difference `a - b`. -/
def sub (a b : Double α) : Double α := add a (neg b)

/-- The product `a * b`. -/
def mul : Double α → Double α → Double α
  | fin x, fin y => ofExact (x * y)
  | fin x, inf s => if x = 0 then nan else inf (xor (decide (x < 0)) s)
  | inf s, fin y => if y = 0 then nan else inf (xor s (decide (y < 0)))
  | inf s, inf t => inf (xor s t)
  | _, _ => nan

/-- The quotient `a / b`, a zero denominator being a zero of positive sign. -/
def div : Double α → Double α → Double α
  | fin x, fin y =>
    if y = 0 then (if x = 0 then nan else inf (decide (x < 0))) else ofExact (x / y)
  | fin _, inf _ => fin 0
  | inf s, fin y => inf (xor s (decide (y < 0)))
  | _, _ => nan

/-- The comparison `a > b`; false when either side is not a number. -/
def gt : Double α → Double α → Bool
  | fin x, fin y => decide (x > y)
  | fin _, inf s => s
  | inf s, fin _ => !s
  | inf s, inf t => !s && t
  | _, _ => false

end Double

/-- The score `distanceWeight*distance + angleWeight*angle` of line 455 as binary64
arithmetic carries it out: two rounded products and their rounded sum. -/
def projectionDouble (distanceWeight angleWeight distance angle : Double α) : Double α :=
  Double.add (Double.mul distanceWeight distance) (Double.mul angleWeight angle)

end Rounding

end CIP

/-! ## Geometry helpers (`GetVectorMagnitude`, `GetAngleBetweenVectors`) -/

namespace CIP

noncomputable section Geometry

/-- The functions of the C math library that the geometry helpers call and that IEEE 754 does
not pin down to the last bit: `std::pow` and `acos`, each on a finite argument.  (The square
root is an IEEE operation and is below.) -/
structure MathLibrary where
  pow : ℝ → ℝ → Double ℝ
  acos : ℝ → Double ℝ

/-- The `double` nearest to π, 3.141592653589793 (the value of the literal
`3.14159265358979323846` and of `acos( -1.0 )`). -/
def piDouble : ℝ := 884279719003555 * (2 : ℝ) ^ (-48 : Int)

/-- The `double` 57.29577951308232, the value of `180.0/3.14159265358979323846`. -/
def degreesPerRadian : ℝ := 1007958012753983 * (2 : ℝ) ^ (-44 : Int)

/-- What the embedding takes from the C standard and the common practice of its libraries:
a power that is a `double` is returned exactly, `pow( -x, 2 )` is `pow( x, 2 )`, `acos` of a
number of [-1, 1] is a number of [0, π], `acos( 1 )` is 0 and `acos( -1 )` is the `double`
nearest to π. -/
structure MathLibrary.Conforming (libm : MathLibrary) : Prop where
  pow_exact : ∀ x : ℝ, Double.ofExact (x ^ 2) = Double.fin (x ^ 2) →
    libm.pow x 2 = Double.fin (x ^ 2)
  pow_neg : ∀ x : ℝ, libm.pow (-x) 2 = libm.pow x 2
  acos_range : ∀ x : ℝ, -1 ≤ x → x ≤ 1 →
    ∃ a, libm.acos x = Double.fin a ∧ 0 ≤ a ∧ a ≤ piDouble
  acos_one : libm.acos 1 = Double.fin 0
  acos_neg_one : libm.acos (-1) = Double.fin piDouble

/-- A library whose `pow( x, 2 )` and `acos` are correctly rounded. -/
def referenceLibrary : MathLibrary :=
  ⟨fun x _ => Double.ofExact (x ^ 2), fun x => Double.ofExact (Real.arccos x)⟩

/-- The square root `vcl_sqrt( a )`, an IEEE operation: correctly rounded, not a number on a
negative argument. -/
def Double.sqrt : Double ℝ → Double ℝ
  | Double.fin x => if x < 0 then Double.nan else Double.ofExact (Real.sqrt x)
  | Double.inf s => if s then Double.nan else Double.inf false
  | Double.nan => Double.nan

/-- The call `acos( a )`: the library function on a finite argument, not a number otherwise. -/
def Double.acos (libm : MathLibrary) : Double ℝ → Double ℝ
  | Double.fin x => libm.acos x
  | _ => Double.nan

/-- The function `GetVectorMagnitude`:
`vcl_sqrt( std::pow( v[0], 2 ) + std::pow( v[1], 2 ) + std::pow( v[2], 2 ) )`, the two sums
rounded from left to right.  The components are finite numbers. -/
def GetVectorMagnitude (libm : MathLibrary) (vector : Fin 3 → ℝ) : Double ℝ :=
  Double.sqrt (Double.add (Double.add (libm.pow (vector 0) 2) (libm.pow (vector 1) 2))
    (libm.pow (vector 2) 2))

/-- The function `GetAngleBetweenVectors`, every operation in binary64 arithmetic.

* The quotient `arg` can be not a number (`0.0/0.0` when a magnitude is zero and the dot
  product too), an infinity, or a number outside [-1, 1] by rounding.
* `abs` is read as the absolute value of a `double`; the branch sets `arg` to `1.0` whatever
  its sign.
* The factor `180.0/3.14159265358979323846` is a quotient of two literals, each the `double`
  nearest to the decimal written. -/
def GetAngleBetweenVectors (libm : MathLibrary) (vec1 vec2 : Fin 3 → ℝ)
    (returnDegrees : Bool) : Double ℝ :=
  let vec1Mag := GetVectorMagnitude libm vec1
  let vec2Mag := GetVectorMagnitude libm vec2
  let arg := Double.div
    (Double.add
      (Double.add (Double.mul (Double.fin (vec1 0)) (Double.fin (vec2 0)))
        (Double.mul (Double.fin (vec1 1)) (Double.fin (vec2 1))))
      (Double.mul (Double.fin (vec1 2)) (Double.fin (vec2 2))))
    (Double.mul vec1Mag vec2Mag)
  let arg := if Double.gt (Double.abs arg) (Double.fin 1) then Double.fin 1 else arg
  let angle := Double.acos libm arg
  if !returnDegrees then angle
  else
    let angleInDegrees :=
      Double.mul (Double.div (Double.fin 180) (Double.ofExact 3.14159265358979323846)) angle
    if Double.gt angleInDegrees (Double.fin 90) then Double.sub (Double.fin 180) angleInDegrees
    else angleInDegrees

/-- The first axis vector. -/
def scenarioAxis : Fin 3 → ℝ := ![1, 0, 0]

/-- A vector of the `double`s 2 - 2^-25 (1.9999999701976776), 2^-25 and 0, at a small angle
to the first axis; the squares of its components are `double`s. -/
def scenarioOblique : Fin 3 → ℝ :=
  ![67108863 * (2 : ℝ) ^ (-25 : Int), (2 : ℝ) ^ (-25 : Int), 0]

end Geometry

end CIP

/-! ## Particles, surfaces and the optimizer -/

namespace CIP

/-- A field-data array of the particle set (a `vtkDataArray`): its name, its number of
components and its tuples in index order, a tuple being the list of its components. -/
structure FieldArray (V : Type) where
  name : String
  numberOfComponents : Nat
  tuples : List (List V)
deriving DecidableEq

/-- The particle set (`vtkPolyData`): the points and the field-data arrays, in index order. -/
structure PolyData (V : Type) where
  points : List (Fin 3 → V)
  fieldData : List (FieldArray V)

section PolyDataAccess

variable {V : Type}

/-- The call `GetNumberOfPoints()`. -/
def PolyData.GetNumberOfPoints (particles : PolyData V) : Nat := particles.points.length

/-- The call `GetPoint(i)`; `none` when `i` is out of range. -/
def PolyData.GetPoint (particles : PolyData V) (i : Nat) : Option (Fin 3 → V) :=
  particles.points[i]?

/-- The call `GetFieldData()->GetArray( name )`: the first array of that name, `none` (a null
pointer in the source) when there is no such array. -/
def PolyData.GetArray (particles : PolyData V) (name : String) : Option (FieldArray V) :=
  particles.fieldData.find? (fun a => a.name == name)

/-- The call `GetTuple(i)`; `none` when `i` is out of range. -/
def FieldArray.GetTuple (a : FieldArray V) (i : Nat) : Option (List V) := a.tuples[i]?

/-- The call `InsertTuple(i, tuple)` of the VTK array: tuple `i` is overwritten, or appended
when `i` is the number of tuples.  An index further out would leave unset tuples behind it
and is not covered (`none`). -/
def FieldArray.InsertTuple (a : FieldArray V) (i : Nat) (tuple : List V) :
    Option (FieldArray V) :=
  if i < a.tuples.length then some { a with tuples := a.tuples.set i tuple }
  else if i = a.tuples.length then some { a with tuples := a.tuples ++ [tuple] }
  else none

end PolyDataAccess

/-- Modelled from the spec: the class `cipThinPlateSplineSurface`, whose header is not among
the sources; "a capability interface {heightAt(x,y) -> z, normalAt(u,v) -> vector3, ...}",
a black box supplied fully formed. -/
structure cipThinPlateSplineSurface where
  GetSurfaceHeight : ℝ → ℝ → ℝ
  GetSurfaceNormal : ℝ → ℝ → (Fin 3 → ℝ)

/-- Modelled from the spec: the class `cipNewtonOptimizer< 2 >` with the particle-to-surface
metric, whose headers are not among the sources; "minimize(objective, initialGuess) ->
optimalParams".  A run is determined by the surface, the particle position set on the metric
and the initial parameters; it yields the optimal parameters and the optimal value. -/
structure cipNewtonOptimizer where
  GetOptimalParameters : cipThinPlateSplineSurface → (Fin 3 → ℝ) → (Fin 2 → ℝ) → (Fin 2 → ℝ)
  GetOptimalValue : cipThinPlateSplineSurface → (Fin 3 → ℝ) → (Fin 2 → ℝ) → ℝ

/-! ## Measurement and tally (`GetParticleDistanceAndAngle`, `TallyParticleInfo`) -/

noncomputable section Tally

/-- The call `vcl_sqrt( x )` on a number: not a number when `x` is negative. -/
def Dbl.sqrt (x : ℝ) : Dbl ℝ := if x < 0 then Dbl.nan else Dbl.num (Real.sqrt x)

/-- The value a tally record holds for a `double`: a number, or not-a-number.  An infinity
has no place in the record; the angle stored is never one when `acos` stays within [0, π]
(`GetAngleBetweenVectors_mem`), and the embedding records it as not-a-number. -/
def Double.toDbl : Double ℝ → Dbl ℝ
  | Double.fin x => Dbl.num x
  | _ => Dbl.nan

/-- The function `GetParticleDistanceAndAngle`; the pair returned is (`*distance`, `*angle`).
The result is `none` when the point, the array `hevec2` or one of the first three components
of its tuple is missing. -/
def GetParticleDistanceAndAngle (libm : MathLibrary) (newtonOptimizer : cipNewtonOptimizer)
    (particles : PolyData ℝ) (whichParticle : Nat) (tps : cipThinPlateSplineSurface) :
    Option (Dbl ℝ × Dbl ℝ) :=
  match particles.GetPoint whichParticle, particles.GetArray "hevec2" with
  | some position, some hevec2 =>
    match hevec2.GetTuple whichParticle with
    | some (o0 :: o1 :: o2 :: _) =>
      let orientation : Fin 3 → ℝ := ![o0, o1, o2]
      let domainParams : Fin 2 → ℝ := ![position 0, position 1]
      let optimalParams := newtonOptimizer.GetOptimalParameters tps position domainParams
      let distance := Dbl.sqrt (newtonOptimizer.GetOptimalValue tps position domainParams)
      let normal := tps.GetSurfaceNormal (optimalParams 0) (optimalParams 1)
      let angle := GetAngleBetweenVectors libm normal orientation true
      some (distance, angle.toDbl)
    | _ => none
  | _, _ => none

/-- The assignment `(*particleToInfoMap)[k] = v`: the entry of key `k` is replaced, or a new
entry is inserted at its place in key order. -/
def InfoMap.assign {α : Type} (m : InfoMap α) (k : Nat) (v : PARTICLEINFO α) : InfoMap α :=
  match m with
  | [] => [(k, v)]
  | (k0, v0) :: rest =>
    if k < k0 then (k, v) :: (k0, v0) :: rest
    else if k = k0 then (k, v) :: rest
    else (k0, v0) :: InfoMap.assign rest k v

/-- The body of the left-lung loop (lines 389-397): the record built for particle `i`. -/
def tallyLeft (libm : MathLibrary) (newtonOptimizer : cipNewtonOptimizer)
    (particles : PolyData ℝ)
    (tps0 : cipThinPlateSplineSurface) (i : Nat) : Option (PARTICLEINFO ℝ) :=
  match GetParticleDistanceAndAngle libm newtonOptimizer particles i tps0 with
  | some (distance, angle) => some ⟨[distance], [angle], none⟩
  | none => none

/-- The body of the right-lung loop (lines 408-438): the record built for particle `i`. -/
def tallyRight (libm : MathLibrary) (newtonOptimizer : cipNewtonOptimizer)
    (particles : PolyData ℝ)
    (tpsVec : List cipThinPlateSplineSurface) (i : Nat) : Option (PARTICLEINFO ℝ) :=
  match tpsVec[0]?, tpsVec[1]?, particles.GetPoint i with
  | some tps0, some tps1, some point =>
    let roSurfaceHeight := tps0.GetSurfaceHeight (point 0) (point 1)
    let rhSurfaceHeight := tps1.GetSurfaceHeight (point 0) (point 1)
    if roSurfaceHeight > rhSurfaceHeight then
      match GetParticleDistanceAndAngle libm newtonOptimizer particles i tps0 with
      | some (distance, angle) => some ⟨[distance], [angle], none⟩
      | none => none
    else
      match GetParticleDistanceAndAngle libm newtonOptimizer particles i tps0,
          GetParticleDistanceAndAngle libm newtonOptimizer particles i tps1 with
      | some (roDistance, roAngle), some (rhDistance, rhAngle) =>
        some ⟨[roDistance, rhDistance], [roAngle, rhAngle], none⟩
      | _, _ => none
  | _, _, _ => none

/-- A loop `for i ...: (*particleToInfoMap)[i] = pInfo` over the given indices. -/
def tallyLoop (body : Nat → Option (PARTICLEINFO ℝ)) :
    List Nat → InfoMap ℝ → Option (InfoMap ℝ)
  | [], m => some m
  | i :: is, m =>
    match body i with
    | some pInfo => tallyLoop body is (InfoMap.assign m i pInfo)
    | none => none

/-- The function `TallyParticleInfo`; the map returned is `*particleToInfoMap` after the
call. -/
def TallyParticleInfo (libm : MathLibrary) (newtonOptimizer : cipNewtonOptimizer)
    (particles : PolyData ℝ)
    (tpsVec : List cipThinPlateSplineSurface) (particleToInfoMap : InfoMap ℝ) :
    Option (InfoMap ℝ) :=
  if tpsVec.length = 1 then
    match tpsVec with
    | tps0 :: _ =>
      tallyLoop (tallyLeft libm newtonOptimizer particles tps0)
        (List.range particles.GetNumberOfPoints) particleToInfoMap
    | [] => none
  else
    tallyLoop (tallyRight libm newtonOptimizer particles tpsVec)
      (List.range particles.GetNumberOfPoints) particleToInfoMap

/-- Every particle carries an orientation: the array `hevec2` exists and holds, for every
point index, a tuple with at least three components. -/
def HasOrientations (particles : PolyData ℝ) : Prop :=
  ∃ hevec2, particles.GetArray "hevec2" = some hevec2 ∧
    ∀ i, i < particles.GetNumberOfPoints →
      ∃ o0 o1 o2 rest, hevec2.GetTuple i = some (o0 :: o1 :: o2 :: rest)

/-- A horizontal plane at height `h`, with the upward normal. -/
def planeSurface (h : ℝ) : cipThinPlateSplineSurface :=
  ⟨fun _ _ => h, fun _ _ => ![0, 0, 1]⟩

/-- An optimizer that is exact on horizontal planes: it stays at the initial parameters and
reports the squared vertical distance. -/
def planeOptimizer : cipNewtonOptimizer :=
  ⟨fun _ _ domainParams => domainParams,
   fun tps position domainParams =>
     (position 2 - tps.GetSurfaceHeight (domainParams 0) (domainParams 1)) ^ 2⟩

/-- Two particles with the orientation array `hevec2` and a scalar array `scale`. -/
def scenarioParticles : PolyData ℝ :=
  ⟨[![0, 0, 3], ![1, 1, 5]],
   [⟨"scale", 1, [[1], [2]]⟩, ⟨"hevec2", 3, [[0, 0, 1], [1, 0, 0]]⟩]⟩

/-- One particle at height 3 whose stored orientation is the zero vector. -/
def scenarioZeroOrientation : PolyData ℝ :=
  ⟨[![0, 0, 3]], [⟨"hevec2", 3, [[0, 0, 0]]⟩]⟩

end Tally

/-! ## Output partition (`WriteParticlesToFile`) -/

section Narrowing

variable {V : Type} [LinearOrderedField V] [FloorRing V]

/-- The point as `InsertNextPoint` stores it in a `vtkPoints` of the default (float) data
type: every coordinate converted to `float`. -/
def floatPoint (point : Fin 3 → V) : Fin 3 → V := fun k => toFloat (point k)

/-- The array with every component converted to `float`. -/
def FieldArray.narrowed (a : FieldArray V) : FieldArray V :=
  { a with
    tuples := a.tuples.map (List.map toFloat) }

/-- The point set as a float `vtkPoints` and `vtkFloatArray`s hold it: every coordinate and
every component converted to `float`. -/
def PolyData.narrowed (particles : PolyData V) : PolyData V :=
  ⟨particles.points.map floatPoint, particles.fieldData.map FieldArray.narrowed⟩

end Narrowing

section Write

variable {V α : Type} [LinearOrderedField V] [FloorRing V]

/-- The inner loop of `WriteParticlesToFile` (lines 528-531):
`arrayVec[k]->InsertTuple( inc, GetArray(k)->GetTuple(i) )` for every `k`, the output arrays
and the input arrays walked in step.  The output arrays are `vtkFloatArray`s: every
component of the tuple is converted to `float` as it is stored. -/
def insertTuples (inc i : Nat) :
    List (FieldArray V) → List (FieldArray V) → Option (List (FieldArray V))
  | [], _ => some []
  | _ :: _, [] => none
  | out :: outs, a :: as =>
    match a.GetTuple i with
    | none => none
    | some tuple =>
      match out.InsertTuple inc (tuple.map toFloat), insertTuples inc i outs as with
      | some out1, some outs1 => some (out1 :: outs1)
      | _, _ => none

/-- The loop of `WriteParticlesToFile` over the point indices (lines 522-534); the state is
(`outputPoints`, `arrayVec`, `inc`).  The result is `none` when the label read for an index
is not in the map or was never assigned, or when a tuple is out of range. -/
def writeLoop (particles : PolyData V) (particleToInfoMap : InfoMap α) (cipType : ChestType) :
    List Nat → List (Fin 3 → V) × List (FieldArray V) × Nat →
      Option (List (Fin 3 → V) × List (FieldArray V) × Nat)
  | [], st => some st
  | i :: is, (outputPoints, arrayVec, inc) =>
    match (particleToInfoMap.lookup i).bind (fun info => info.cipType) with
    | none => none
    | some t =>
      if t = cipType then
        match particles.GetPoint i, insertTuples inc i arrayVec particles.fieldData with
        | some point, some arrayVec1 =>
          writeLoop particles particleToInfoMap cipType is
            (outputPoints ++ [floatPoint point], arrayVec1, inc + 1)
        | _, _ => none
      else
        writeLoop particles particleToInfoMap cipType is (outputPoints, arrayVec, inc)

/-- The function `WriteParticlesToFile`; the value returned is the file written: its name
`fileName` and its content `outputParticles`, the point set handed to the writer.  The
output points are a `vtkPoints` of the default data type and the output arrays are
`vtkFloatArray`s (lines 508-520). -/
def WriteParticlesToFile (particles : PolyData V) (particleToInfoMap : InfoMap α)
    (fileName : String) (cipType : ChestType) : Option (String × PolyData V) :=
  let arrayVec : List (FieldArray V) :=
    particles.fieldData.map (fun a => ⟨a.name, a.numberOfComponents, []⟩)
  match writeLoop particles particleToInfoMap cipType
      (List.range particles.GetNumberOfPoints) ([], arrayVec, 0) with
  | some (outputPoints, arrayVec1, _) => some (fileName, ⟨outputPoints, arrayVec1⟩)
  | none => none

end Write

section WriteSpec

variable {V α : Type}

/-- The indices, in increasing order, of the particles whose assigned label equals `L`. -/
def matchingIndices (particles : PolyData V) (particleToInfoMap : InfoMap α) (L : ChestType) :
    List Nat :=
  (List.range particles.GetNumberOfPoints).filter
    (fun i => (particleToInfoMap.lookup i).bind (fun info => info.cipType) = some L)

/-- The output partition as the specification words it (section 4.5): the particles whose
assigned label equals `L`, in original order, with the position and the tuple of every named
attribute array carried forward unchanged. -/
def OutputPartition_spec (particles : PolyData V) (particleToInfoMap : InfoMap α)
    (L : ChestType) : PolyData V :=
  ⟨(matchingIndices particles particleToInfoMap L).filterMap (fun i => particles.points[i]?),
   particles.fieldData.map (fun a =>
     ⟨a.name, a.numberOfComponents,
      (matchingIndices particles particleToInfoMap L).filterMap (fun i => a.tuples[i]?)⟩)⟩

end WriteSpec

end CIP

/-! ## The program (`main`) -/

namespace CIP

noncomputable section Main

/-- What the command line supplies for each argument of the usage text: the required
particles file name, and for every optional argument the value given, `none` when the
argument is not given. -/
structure CommandLine where
  particles : String
  loModel : Option String
  roModel : Option String
  rhModel : Option String
  loClassified : Option String
  roClassified : Option String
  rhClassified : Option String
  dist : Option ℝ
  angle : Option ℝ
  thresh : Option ℝ

/-- The call `getValue()` of a `TCLAP::ValueArg` declared with a default value: the value
given on the command line, or the default. -/
def getValue {T : Type} (defaultValue : T) (given : Option T) : T := given.getD defaultValue

/-- The collaborators of `main` that are not among the sources: the particle reader
(`vtkPolyDataReader`), the shape-model reader followed by `SetSurfacePoints`
(`cipLobeBoundaryShapeModelIO`, `cipThinPlateSplineSurface`), the optimizer, and the C math
library. -/
structure Collaborators where
  readParticles : String → PolyData ℝ
  readShapeModel : String → cipThinPlateSplineSurface
  newtonOptimizer : cipNewtonOptimizer
  mathLibrary : MathLibrary

/-- A call made by `main`, with its scalar arguments. -/
inductive Call where
  | TallyParticleInfo (numberOfSurfaces : Nat)
  | ClassifyParticles (distanceWeight angleWeight threshold : Dbl ℝ)
  | WriteParticlesToFile (fileName : String) (cipType : ChestType)

/-- The outcome of a run of `main`: the exit status, the calls made to `TallyParticleInfo`,
`ClassifyParticles` and `WriteParticlesToFile` in order, and the files written. -/
structure MainResult where
  status : Int
  calls : List Call
  written : List (String × PolyData ℝ)

/-- One of the three blocks of lines 272-286: when the file name is not `"NA"`, the particles
labelled `cipType` are written to it. -/
def writeClassified (particles : PolyData ℝ) (particleToInfoMap : InfoMap ℝ)
    (fileName : String) (cipType : ChestType) (sofar : List Call × List (String × PolyData ℝ)) :
    Option (List Call × List (String × PolyData ℝ)) :=
  if fileName ≠ "NA" then
    match WriteParticlesToFile particles particleToInfoMap fileName cipType with
    | some file =>
      some (sofar.1 ++ [Call.WriteParticlesToFile fileName cipType], sofar.2 ++ [file])
    | none => none
  else some sofar

/-- Lines 255-290 of `main`: tally, classify, write, return 0. -/
def mainPipeline (c : Collaborators) (particles : PolyData ℝ)
    (tpsVec : List cipThinPlateSplineSurface)
    (loClassifiedFileName roClassifiedFileName rhClassifiedFileName : String)
    (distanceWeight angleWeight threshold : ℝ) : Option MainResult :=
  match TallyParticleInfo c.mathLibrary c.newtonOptimizer particles tpsVec [] with
  | none => none
  | some tallied =>
    match ClassifyParticles tallied tpsVec (Dbl.num distanceWeight) (Dbl.num angleWeight)
        (Dbl.num threshold) with
    | none => none
    | some particleToInfoMap =>
      let calls := [Call.TallyParticleInfo tpsVec.length,
        Call.ClassifyParticles (Dbl.num distanceWeight) (Dbl.num angleWeight)
          (Dbl.num threshold)]
      match writeClassified particles particleToInfoMap loClassifiedFileName
          ChestType.OBLIQUEFISSURE (calls, []) with
      | none => none
      | some lo =>
        match writeClassified particles particleToInfoMap roClassifiedFileName
            ChestType.OBLIQUEFISSURE lo with
        | none => none
        | some ro =>
          match writeClassified particles particleToInfoMap rhClassifiedFileName
              ChestType.HORIZONTALFISSURE ro with
          | none => none
          | some rh => some ⟨0, rh.1, rh.2⟩

/-- The function `main`.  The command line is `none` when `cl.parse` throws a
`TCLAP::ArgException`; `ARGUMENTPARSINGERROR` is the value of `cip::ARGUMENTPARSINGERROR`,
a constant of `cipConventions.h`, which is not among the sources.  The result is `none` when
one of the functions called runs out of range. -/
def main (c : Collaborators) (ARGUMENTPARSINGERROR : Int) (commandLine : Option CommandLine) :
    Option MainResult :=
  match commandLine with
  | none => some ⟨ARGUMENTPARSINGERROR, [], []⟩
  | some cl =>
    let particlesFileName := cl.particles
    let loShapeModelFileName := getValue "NA" cl.loModel
    let roShapeModelFileName := getValue "NA" cl.roModel
    let rhShapeModelFileName := getValue "NA" cl.rhModel
    let loClassifiedFileName := getValue "NA" cl.loClassified
    let roClassifiedFileName := getValue "NA" cl.roClassified
    let rhClassifiedFileName := getValue "NA" cl.rhClassified
    let distanceWeight := getValue (-0.4677) cl.dist
    let angleWeight := getValue (-0.8839) cl.angle
    let threshold := getValue (-30.0) cl.thresh
    let particles := c.readParticles particlesFileName
    if (roShapeModelFileName ≠ "NA" ∧ rhShapeModelFileName = "NA") ∨
        (roShapeModelFileName = "NA" ∧ rhShapeModelFileName ≠ "NA") then
      some ⟨ARGUMENTPARSINGERROR, [], []⟩
    else if roShapeModelFileName ≠ "NA" then
      mainPipeline c particles
        [c.readShapeModel roShapeModelFileName, c.readShapeModel rhShapeModelFileName]
        loClassifiedFileName roClassifiedFileName rhClassifiedFileName
        distanceWeight angleWeight threshold
    else if loShapeModelFileName ≠ "NA" then
      mainPipeline c particles [c.readShapeModel loShapeModelFileName]
        loClassifiedFileName roClassifiedFileName rhClassifiedFileName
        distanceWeight angleWeight threshold
    else
      some ⟨1, [], []⟩

/-- A model argument is supplied when its file name, after parsing, is not the placeholder
`"NA"` (the test `compare( "NA" ) != 0` of the source). -/
def supplied (modelArgument : Option String) : Prop := getValue "NA" modelArgument ≠ "NA"

instance (modelArgument : Option String) : Decidable (supplied modelArgument) :=
  inferInstanceAs (Decidable (getValue "NA" modelArgument ≠ "NA"))

/-- The run reached the tally and the classification. -/
def MainResult.proceeded (r : MainResult) : Prop :=
  (∃ n, Call.TallyParticleInfo n ∈ r.calls) ∧ (∃ dW aW thr, Call.ClassifyParticles dW aW thr ∈ r.calls)

/-- Every attribute array holds a tuple for every particle. -/
def HasAllTuples (particles : PolyData ℝ) : Prop :=
  ∀ a ∈ particles.fieldData, particles.GetNumberOfPoints ≤ a.tuples.length

/-- Collaborators for the scenarios: every particle file holds `scenarioParticles`, every
shape model is the plane at height 0. -/
def scenarioCollaborators : Collaborators :=
  ⟨fun _ => scenarioParticles, fun _ => planeSurface 0, planeOptimizer, referenceLibrary⟩

/-- A command line that gives the particles and the three model files, and nothing else. -/
def scenarioAllModels : CommandLine :=
  ⟨"particles.vtk", some "lo.model", some "ro.model", some "rh.model", none, none, none,
    none, none, none⟩

/-- A command line that gives the particles and the right oblique model only. -/
def scenarioOneRightModel : CommandLine :=
  ⟨"particles.vtk", none, some "ro.model", none, none, none, none, none, none, none⟩

/-- A command line that gives the left model, an output file and the three parameters. -/
def scenarioLeftModel : CommandLine :=
  ⟨"particles.vtk", some "lo.model", none, none, some "lo.vtk", none, none,
    some (-1), some (-2), some (-40)⟩

end Main

end CIP

/-! ## The label-map assistant (`ACILAssistantBase`) -/

namespace CIP

/-- The constants and functions of `cipConventions.h` (not among the sources) that the
interactive tools use, taken as parameters: the codes of the chest type and of the chest
regions named in the sources, the conversions of `ChestConventions` between a label-map value
and its (region, type) pair, the colour of a chest type (`GetChestTypeColor` fills a
`double[3]`), the chest type of a colour, and the names of regions and types. -/
structure ChestConventions where
  UNDEFINEDTYPE : Nat
  LEFTLUNG : Nat
  RIGHTLUNG : Nat
  LEFTLOWERTHIRD : Nat
  LEFTMIDDLETHIRD : Nat
  LEFTUPPERTHIRD : Nat
  RIGHTLOWERTHIRD : Nat
  RIGHTMIDDLETHIRD : Nat
  RIGHTUPPERTHIRD : Nat
  GetChestRegionFromValue : Nat → Nat
  GetValueFromChestRegionAndType : Nat → Nat → Nat
  UNDEFINEDREGION : Nat
  GetChestTypeFromValue : Nat → Nat
  GetChestTypeColor : Nat → (Fin 3 → ℚ)
  GetChestTypeFromColor : (Fin 3 → ℚ) → Nat
  GetChestRegionName : Nat → String
  GetChestTypeName : Nat → String

/-- A voxel of an image: its index and its value. -/
structure Voxel where
  index : Fin 3 → Int
  value : Nat

/-- An image of type `LabelMapType`: the size of its buffered region and its voxels in the
order in which a region iterator visits them. -/
structure LabelMapType where
  size : Fin 3 → Nat
  voxels : List Voxel

/-- An image of type `GrayscaleImageType` (pixels of type `short`): the size of its buffered
region, which starts at index 0 (`SetRegions( size )`), and the pixel at each index. -/
structure GrayscaleImageType where
  size : Fin 3 → Nat
  pixel : (Fin 3 → Int) → Int

/-- The fields of `ACILAssistantBase` that the functions below read or write. -/
structure ACILAssistantBase where
  LabelMap : LabelMapType
  HeadFirst : Bool
  FeetFirst : Bool
  Supine : Bool
  Prone : Bool
  GrayscaleImage : GrayscaleImageType
  PaintedIndices : List (Fin 3 → Int)

/-- The constructor `ACILAssistantBase::ACILAssistantBase()`: an empty label map and an empty
grayscale image, head-first and supine; the vector `PaintedIndices` starts empty. -/
def ACILAssistantBase.create : ACILAssistantBase :=
  { LabelMap := ⟨fun _ => 0, []⟩, HeadFirst := true, FeetFirst := false, Supine := true,
    Prone := false, GrayscaleImage := ⟨fun _ => 0, fun _ => 0⟩, PaintedIndices := [] }

/-- Conversion of a count to `unsigned int`. -/
def toUnsignedInt (n : Nat) : Nat := n % 4294967296

/-- Conversion of an index component (a `long`) to `unsigned int`. -/
def indexToUnsignedInt (x : Int) : Nat := (x % 4294967296).toNat

/-- The first loop of `LabelLungThirds` (lines 346-355): `totalVoxelCount++` for every
non-zero voxel. -/
def countLoop : List Voxel → Nat → Nat
  | [], totalVoxelCount => totalVoxelCount
  | v :: vs, totalVoxelCount =>
    if v.value ≠ 0 then countLoop vs (toUnsignedInt (totalVoxelCount + 1))
    else countLoop vs totalVoxelCount

/-- The second loop of `LabelLungThirds` (lines 364-411); the result is the relabelled voxels
and the final `foundLeftLung`, `foundRightLung`.  The comparisons of `double`s are exact:
`voxelCount < totalVoxelCount/3.0` and `voxelCount < 2.0*totalVoxelCount/3.0`. -/
def thirdsLoop (conventions : ChestConventions) (totalVoxelCount : Nat) :
    List Voxel → Nat → Bool → Bool → List Voxel × Bool × Bool
  | [], _, foundLeftLung, foundRightLung => ([], foundLeftLung, foundRightLung)
  | v :: vs, voxelCount, foundLeftLung, foundRightLung =>
    if v.value ≠ 0 then
      let voxelCount := toUnsignedInt (voxelCount + 1)
      let isLeft : Bool := v.value = conventions.LEFTLUNG
      let newValue :=
        if (voxelCount : ℚ) < (totalVoxelCount : ℚ) / 3 then
          (if isLeft then conventions.LEFTLOWERTHIRD else conventions.RIGHTLOWERTHIRD)
        else if (voxelCount : ℚ) < 2 * (totalVoxelCount : ℚ) / 3 then
          (if isLeft then conventions.LEFTMIDDLETHIRD else conventions.RIGHTMIDDLETHIRD)
        else
          (if isLeft then conventions.LEFTUPPERTHIRD else conventions.RIGHTUPPERTHIRD)
      let rest := thirdsLoop conventions totalVoxelCount vs voxelCount
        (foundLeftLung || isLeft) (foundRightLung || !isLeft)
      ({ v with value := newValue } :: rest.1, rest.2.1, rest.2.2)
    else
      let rest := thirdsLoop conventions totalVoxelCount vs voxelCount foundLeftLung
        foundRightLung
      (v :: rest.1, rest.2.1, rest.2.2)

/-- The function `ACILAssistantBase::LabelLungThirds`: the value returned and the object
after the call. -/
def LabelLungThirds (conventions : ChestConventions) (self : ACILAssistantBase) :
    Bool × ACILAssistantBase :=
  let totalVoxelCount := countLoop self.LabelMap.voxels 0
  let labelled := thirdsLoop conventions totalVoxelCount self.LabelMap.voxels 0 false false
  (labelled.2.1 && labelled.2.2,
    { self with LabelMap := { self.LabelMap with voxels := labelled.1 } })

/-- The ITK filters `ConnectedComponentType` and `RelabelComponentType`, which are not among
the sources, after `Update()`: the sizes of the objects (their number is the number of
objects) and the output image, which has the buffered region of the input and is given by
the component label at each index. -/
structure RelabelComponent where
  sizeOfObjectsInPixels : List Nat
  output : (Fin 3 → Int) → Nat

/-- The call `GetNumberOfObjects()`. -/
def RelabelComponent.GetNumberOfObjects (relabeler : RelabelComponent) : Nat :=
  relabeler.sizeOfObjectsInPixels.length

/-- The first loop of `LabelLeftLungRightLung` (lines 435-446): every non-zero voxel gets
the value of (its chest region, `UNDEFINEDTYPE`). -/
def clearTypes (conventions : ChestConventions) (labelMap : LabelMapType) : LabelMapType :=
  { labelMap with voxels := labelMap.voxels.map (fun v =>
      if v.value ≠ 0 then
        { v with
          value := conventions.GetValueFromChestRegionAndType
            (conventions.GetChestRegionFromValue v.value) conventions.UNDEFINEDTYPE }
      else v) }

/-- The loop of lines 504-522 over the relabelled image; the state is
(`minX`, `maxX`, `smallIndexComponentLabel`, `largeIndexComponentLabel`). -/
def extentLoop (relabeler : RelabelComponent) :
    List Voxel → Nat × Nat × Nat × Nat → Nat × Nat × Nat × Nat
  | [], st => st
  | v :: vs, (minX, maxX, smallIndexComponentLabel, largeIndexComponentLabel) =>
    let r := relabeler.output v.index
    if r = 1 ∨ r = 2 then
      let st1 : Nat × Nat :=
        if v.index 0 < (minX : Int) then (indexToUnsignedInt (v.index 0), r)
        else (minX, smallIndexComponentLabel)
      let st2 : Nat × Nat :=
        if v.index 0 > (maxX : Int) then (indexToUnsignedInt (v.index 0), r)
        else (maxX, largeIndexComponentLabel)
      extentLoop relabeler vs (st1.1, st2.1, st1.2, st2.2)
    else
      extentLoop relabeler vs (minX, maxX, smallIndexComponentLabel, largeIndexComponentLabel)

/-- The function `ACILAssistantBase::LabelLeftLungRightLung`: the value returned and the
object after the call.  `relabelFilter` is the ITK pipeline of lines 449-462, and
`indeterminate` holds the values that the uninitialised `smallIndexComponentLabel` and
`largeIndexComponentLabel` happen to have.  The quotient of line 481 is exact; with a zero
`total` it is infinite or not a number, and the comparison is false. -/
def LabelLeftLungRightLung (conventions : ChestConventions)
    (relabelFilter : LabelMapType → RelabelComponent) (indeterminate : Nat × Nat)
    (self : ACILAssistantBase) : Bool × ACILAssistantBase :=
  let cleared := clearTypes conventions self.LabelMap
  let relabeler := relabelFilter cleared
  if relabeler.GetNumberOfObjects < 2 then (false, { self with LabelMap := cleared })
  else
    let total := relabeler.sizeOfObjectsInPixels.foldl (fun t s => toUnsignedInt (t + s)) 0
    if total ≠ 0 ∧ ((relabeler.sizeOfObjectsInPixels.getD 1 0 : Nat) : ℚ) / (total : ℚ) < 0.3
    then (false, { self with LabelMap := cleared })
    else
      let extent := extentLoop relabeler cleared.voxels
        (cleared.size 0, 0, indeterminate.1, indeterminate.2)
      let smallIndexComponentLabel := extent.2.2.1
      let largeIndexComponentLabel := extent.2.2.2
      let labels : Nat × Nat :=
        if (self.HeadFirst && self.Supine) || (self.FeetFirst && self.Prone) then
          (largeIndexComponentLabel, smallIndexComponentLabel)
        else (smallIndexComponentLabel, largeIndexComponentLabel)
      let leftLungComponentLabel := labels.1
      let rightLungComponentLabel := labels.2
      let labelled := cleared.voxels.map (fun v =>
        let v1 := if relabeler.output v.index = leftLungComponentLabel then
          { v with value := conventions.LEFTLUNG } else v
        if relabeler.output v.index = rightLungComponentLabel then
          { v1 with value := conventions.RIGHTLUNG } else v1)
      (true, { self with LabelMap := { cleared with voxels := labelled } })

/-! ### Painting and erasing (`PaintLabelMapSlice`, `EraseLabelMapSlice`) -/

/-- The conversion `static_cast< int >( x )` of a `long` or of an `unsigned int`. -/
def toInt (x : Int) : Int := (x + 2147483648) % 4294967296 - 2147483648

/-- The value of a sum or difference of two `int`s; it is undefined (`none`) on overflow. -/
def checkedInt (x : Int) : Option Int :=
  if -2147483648 ≤ x ∧ x ≤ 2147483647 then some x else none

/-- The values of the variable of a loop `for ( int x = start; x <= stop; x++ )`, in order.
When `stop` is the largest `int` the increment overflows (`none`). -/
def forInt (start stop : Int) : Option (List Int) :=
  if stop < 2147483647 then
    some ((List.range (stop + 1 - start).toNat).map (fun (k : Nat) => start + (k : Int)))
  else none

/-- The loop between `static_cast< int >( c ) - static_cast< int >( radius )` and
`static_cast< int >( c ) + static_cast< int >( radius )`, for the component `c` of `index`
along one in-plane axis. -/
def sliceRange (c : Int) (radius : Nat) : Option (List Int) :=
  match checkedInt (toInt c - toInt radius), checkedInt (toInt c + toInt radius) with
  | some start, some stop => forInt start stop
  | _, _ => none

/-- The indices `tempIndex` that the double loop of `PaintLabelMapSlice` and of
`EraseLabelMapSlice` visits, in order: `x` runs in the outer and `y` in the inner loop.  With
an orientation other than 0, 1, 2 the bounds are never initialised (`none`).  An inner loop
that would overflow is reported even if the outer loop is empty. -/
def sliceIndices (index : Fin 3 → Int) (radius : Nat) (orientation : Nat) :
    Option (List (Fin 3 → Int)) :=
  if orientation = 0 then
    match sliceRange (index 1) radius, sliceRange (index 2) radius with
    | some xs, some ys => some (xs.flatMap (fun x => ys.map (fun y => ![index 0, x, y])))
    | _, _ => none
  else if orientation = 1 then
    match sliceRange (index 0) radius, sliceRange (index 2) radius with
    | some xs, some ys => some (xs.flatMap (fun x => ys.map (fun y => ![x, index 1, y])))
    | _, _ => none
  else if orientation = 2 then
    match sliceRange (index 0) radius, sliceRange (index 1) radius with
    | some xs, some ys => some (xs.flatMap (fun x => ys.map (fun y => ![x, y, index 2])))
    | _, _ => none
  else none

/-- The test `GetBufferedRegion().IsInside( index )` for a region of the given size that
starts at index 0. -/
def IsInside (size : Fin 3 → Nat) (index : Fin 3 → Int) : Bool :=
  decide ((0 ≤ index 0 ∧ index 0 < (size 0 : Int)) ∧ (0 ≤ index 1 ∧ index 1 < (size 1 : Int)) ∧
    (0 ≤ index 2 ∧ index 2 < (size 2 : Int)))

/-- The call `GrayscaleImage->GetPixel( index )`; `none` outside the buffer. -/
def GrayscaleImageType.GetPixel (image : GrayscaleImageType) (index : Fin 3 → Int) :
    Option Int :=
  if IsInside image.size index then some (image.pixel index) else none

/-- The call `LabelMap->GetPixel( index )`; `none` when the buffer has no such voxel. -/
def LabelMapType.GetPixel (labelMap : LabelMapType) (index : Fin 3 → Int) : Option Nat :=
  (labelMap.voxels.find? (fun v => decide (v.index = index))).map (fun v => v.value)

/-- The call `LabelMap->SetPixel( index, value )`. -/
def LabelMapType.SetPixel (labelMap : LabelMapType) (index : Fin 3 → Int) (value : Nat) :
    LabelMapType :=
  { labelMap with
    voxels := labelMap.voxels.map (fun v =>
      if v.index = index then { v with value := value } else v) }

/-- The body of the double loop of `PaintLabelMapSlice` over the indices visited; the state
is (`LabelMap`, `PaintedIndices`). -/
def paintLoop (conventions : ChestConventions) (grayscaleImage : GrayscaleImageType)
    (cipType cipRegion : Nat) (lowerThreshold upperThreshold : Int) :
    List (Fin 3 → Int) → LabelMapType × List (Fin 3 → Int) →
      Option (LabelMapType × List (Fin 3 → Int))
  | [], st => some st
  | tempIndex :: rest, (labelMap, paintedIndices) =>
    if IsInside labelMap.size tempIndex then
      match grayscaleImage.GetPixel tempIndex with
      | none => none
      | some g =>
        if g ≥ lowerThreshold ∧ g ≤ upperThreshold then
          let newLabel := conventions.GetValueFromChestRegionAndType cipRegion cipType
          paintLoop conventions grayscaleImage cipType cipRegion lowerThreshold upperThreshold
            rest (labelMap.SetPixel tempIndex newLabel, paintedIndices ++ [tempIndex])
        else
          paintLoop conventions grayscaleImage cipType cipRegion lowerThreshold upperThreshold
            rest (labelMap, paintedIndices)
    else
      paintLoop conventions grayscaleImage cipType cipRegion lowerThreshold upperThreshold
        rest (labelMap, paintedIndices)

/-- The function `ACILAssistantBase::PaintLabelMapSlice`: the object after the call.  The
arguments come in the order of the source: `cipType` before `cipRegion`. -/
def PaintLabelMapSlice (conventions : ChestConventions) (self : ACILAssistantBase)
    (index : Fin 3 → Int) (cipType cipRegion radius : Nat)
    (lowerThreshold upperThreshold : Int) (orientation : Nat) : Option ACILAssistantBase :=
  match sliceIndices index radius orientation with
  | none => none
  | some indices =>
    match paintLoop conventions self.GrayscaleImage cipType cipRegion lowerThreshold
        upperThreshold indices (self.LabelMap, self.PaintedIndices) with
    | none => none
    | some st => some { self with LabelMap := st.1, PaintedIndices := st.2 }

/-- The label that `EraseLabelMapSlice` writes over a non-zero `currentLabel` (lines
306-327). -/
def erasedLabel (conventions : ChestConventions) (cipRegion cipType : Nat)
    (eraseSelected : Bool) (currentLabel : Nat) : Nat :=
  if eraseSelected then
    let currentRegion := conventions.GetChestRegionFromValue currentLabel
    let currentType := conventions.GetChestTypeFromValue currentLabel
    let newRegion := if currentRegion = cipRegion then 0 else currentRegion
    let newType := if currentType = cipType then 0 else currentType
    conventions.GetValueFromChestRegionAndType newRegion newType
  else 0

/-- The body of the double loop of `EraseLabelMapSlice` over the indices visited; the state
is `LabelMap`. -/
def eraseLoop (conventions : ChestConventions) (grayscaleImage : GrayscaleImageType)
    (cipRegion cipType : Nat) (lowerThreshold upperThreshold : Int) (eraseSelected : Bool) :
    List (Fin 3 → Int) → LabelMapType → Option LabelMapType
  | [], labelMap => some labelMap
  | tempIndex :: rest, labelMap =>
    if IsInside labelMap.size tempIndex then
      match grayscaleImage.GetPixel tempIndex with
      | none => none
      | some g =>
        if g ≥ lowerThreshold ∧ g ≤ upperThreshold then
          match labelMap.GetPixel tempIndex with
          | none => none
          | some currentLabel =>
            if currentLabel ≠ 0 then
              eraseLoop conventions grayscaleImage cipRegion cipType lowerThreshold
                upperThreshold eraseSelected rest
                (labelMap.SetPixel tempIndex
                  (erasedLabel conventions cipRegion cipType eraseSelected currentLabel))
            else
              eraseLoop conventions grayscaleImage cipRegion cipType lowerThreshold
                upperThreshold eraseSelected rest labelMap
        else
          eraseLoop conventions grayscaleImage cipRegion cipType lowerThreshold
            upperThreshold eraseSelected rest labelMap
    else
      eraseLoop conventions grayscaleImage cipRegion cipType lowerThreshold upperThreshold
        eraseSelected rest labelMap

/-- The function `ACILAssistantBase::EraseLabelMapSlice`: the object after the call.  The
arguments come in the order of the source: `cipRegion` before `cipType`. -/
def EraseLabelMapSlice (conventions : ChestConventions) (self : ACILAssistantBase)
    (index : Fin 3 → Int) (cipRegion cipType radius : Nat)
    (lowerThreshold upperThreshold : Int) (eraseSelected : Bool) (orientation : Nat) :
    Option ACILAssistantBase :=
  match sliceIndices index radius orientation with
  | none => none
  | some indices =>
    match eraseLoop conventions self.GrayscaleImage cipRegion cipType lowerThreshold
        upperThreshold eraseSelected indices self.LabelMap with
    | none => none
    | some labelMap => some { self with LabelMap := labelMap }

/-- The buffer of a label map holds one voxel for every index inside its region, and no two
voxels with the same index. -/
def LabelMapType.WellFormed (labelMap : LabelMapType) : Prop :=
  (labelMap.voxels.map (fun v => v.index)).Nodup ∧
    ∀ index, IsInside labelMap.size index = true → ∃ v ∈ labelMap.voxels, v.index = index

/-- The two tests of the loop bodies on an index: it is inside the buffered region of the
label map, and the grayscale value there lies between the two thresholds. -/
def passesTests (size : Fin 3 → Nat) (grayscaleImage : GrayscaleImageType)
    (lowerThreshold upperThreshold : Int) (tempIndex : Fin 3 → Int) : Bool :=
  IsInside size tempIndex &&
    decide (grayscaleImage.pixel tempIndex ≥ lowerThreshold ∧
      grayscaleImage.pixel tempIndex ≤ upperThreshold)

/-- The integers from `c - radius` to `c + radius`, in increasing order. -/
def windowRange (c : Int) (radius : Nat) : List Int :=
  (List.range (2 * radius + 1)).map (fun (k : Nat) => c - (radius : Int) + (k : Int))

/-- The loop order of the specification: the indices of the square window of the slice
through `index`, the first in-plane coordinate running in the outer loop and the second in
the inner loop, both upwards. -/
def windowIndices (index : Fin 3 → Int) (radius : Nat) (orientation : Nat) :
    List (Fin 3 → Int) :=
  if orientation = 0 then
    (windowRange (index 1) radius).flatMap (fun x =>
      (windowRange (index 2) radius).map (fun y => ![index 0, x, y]))
  else if orientation = 1 then
    (windowRange (index 0) radius).flatMap (fun x =>
      (windowRange (index 2) radius).map (fun y => ![x, index 1, y]))
  else
    (windowRange (index 0) radius).flatMap (fun x =>
      (windowRange (index 1) radius).map (fun y => ![x, y, index 2]))

/-- The indices at which `PaintLabelMapSlice` and `EraseLabelMapSlice` act, as the
specification words them: in the slice through `index` along the fixed axis, at most `radius`
away from `index` along each in-plane axis, inside the buffered region, and with a grayscale
value between the two thresholds. -/
def InSliceWindow_spec (self : ACILAssistantBase) (index : Fin 3 → Int) (radius : Nat)
    (lowerThreshold upperThreshold : Int) (orientation : Nat) (voxelIndex : Fin 3 → Int) :
    Prop :=
  (∀ d : Fin 3, (d : Nat) = orientation → voxelIndex d = index d) ∧
  (∀ d : Fin 3, (d : Nat) ≠ orientation → |voxelIndex d - index d| ≤ (radius : Int)) ∧
  IsInside self.LabelMap.size voxelIndex = true ∧
  lowerThreshold ≤ self.GrayscaleImage.pixel voxelIndex ∧
  self.GrayscaleImage.pixel voxelIndex ≤ upperThreshold

/-! ### Scenarios for the assistant -/

/-- A choice of conventions for the scenarios: value = 256 * type + region; the colour of
type `t` is (`t`, 0, 0), and a colour (1, 0, 0) or (2, 0, 0) is that of type 1 or 2, any
other colour that of type 0. -/
def scenarioConventions : ChestConventions :=
  { UNDEFINEDTYPE := 0, LEFTLUNG := 3, RIGHTLUNG := 2,
    LEFTLOWERTHIRD := 11, LEFTMIDDLETHIRD := 10, LEFTUPPERTHIRD := 9,
    RIGHTLOWERTHIRD := 14, RIGHTMIDDLETHIRD := 13, RIGHTUPPERTHIRD := 12,
    GetChestRegionFromValue := fun v => v % 256,
    GetValueFromChestRegionAndType := fun r t => 256 * t + r,
    UNDEFINEDREGION := 0,
    GetChestTypeFromValue := fun v => v / 256,
    GetChestTypeColor := fun t => ![(t : ℚ), 0, 0],
    GetChestTypeFromColor := fun color =>
      if color 0 = 1 then 1 else if color 0 = 2 then 2 else 0,
    GetChestRegionName := fun r => if r = 0 then "UNDEFINEDREGION" else "REGION",
    GetChestTypeName := fun t => if t = 0 then "UNDEFINEDTYPE" else "TYPE" }

/-- A head-first, supine scan of two voxels in a row, both lung (value 1). -/
def scenarioTwoLungs : ACILAssistantBase :=
  { ACILAssistantBase.create with
    LabelMap := ⟨![2, 1, 1], [⟨![0, 0, 0], 1⟩, ⟨![1, 0, 0], 1⟩]⟩ }

/-- The relabelling of `scenarioTwoLungs`: two objects of one voxel each, component 1 at
x-index 0 and component 2 at x-index 1. -/
def scenarioRelabel : LabelMapType → RelabelComponent :=
  fun _ => ⟨[1, 1], fun index => if index 0 = 0 then 1 else 2⟩

/-- A head-first, supine scan of three voxels in a row: lung (value 1) at x-index 0 and at
x-index 2, background (value 0) between them. -/
def scenarioSeparatedLungs : ACILAssistantBase :=
  { ACILAssistantBase.create with
    LabelMap := ⟨![3, 1, 1], [⟨![0, 0, 0], 1⟩, ⟨![1, 0, 0], 0⟩, ⟨![2, 0, 0], 1⟩]⟩ }

/-- The relabelling of `scenarioSeparatedLungs`: the two lung voxels do not touch, so they
are two objects of one voxel each, component 1 at x-index 0 and component 2 at x-index 2;
the background voxel is in no object. -/
def scenarioSeparatedRelabel : LabelMapType → RelabelComponent :=
  fun _ => ⟨[1, 1], fun index => if index 0 = 0 then 1 else if index 0 = 2 then 2 else 0⟩

/-- The two-lung scan with a grayscale image of the same size whose pixel at x-index `x` is
`100 * x`, and two voxels that carry a type: values 258 = (region 2, type 1) and
515 = (region 3, type 2). -/
def scenarioPainting : ACILAssistantBase :=
  { ACILAssistantBase.create with
    LabelMap := ⟨![2, 1, 1], [⟨![0, 0, 0], 258⟩, ⟨![1, 0, 0], 515⟩]⟩,
    GrayscaleImage := ⟨![2, 1, 1], fun index => 100 * index 0⟩ }

/-- A relabelling with a single object. -/
def scenarioOneObject : LabelMapType → RelabelComponent :=
  fun _ => ⟨[2], fun _ => 1⟩

/-- A label map of three voxels, all left lung (value 3 in `scenarioConventions`). -/
def scenarioThreeVoxels : ACILAssistantBase :=
  { ACILAssistantBase.create with
    LabelMap := ⟨![3, 1, 1], [⟨![0, 0, 0], 3⟩, ⟨![1, 0, 0], 3⟩, ⟨![2, 0, 0], 3⟩]⟩ }

end CIP

/-! ## The airway particle editor (`EditAirwayParticles`) -/

namespace CIP

/-- The call `GetFieldData()->GetArray( name )->InsertTuple( i, tuple )`, on the first array
of that name; `none` when there is no such array (a null pointer in the source). -/
def insertTupleByName {V : Type} (name : String) (i : Nat) (tuple : List V) :
    List (FieldArray V) → Option (List (FieldArray V))
  | [] => none
  | a :: as =>
    if a.name = name then (a.InsertTuple i tuple).map (fun a1 => a1 :: as)
    else (insertTupleByName name i tuple as).map (fun as1 => a :: as1)

/-- The loop of lines 381-394 of `AssertChestRegionChestTypeArrayExistence` over the particle
indices; the state is the list of field-data arrays. -/
def assertLoop (foundChestRegionArray foundChestTypeArray : Bool) (cipRegion cipType : ℚ) :
    List Nat → List (FieldArray ℚ) → Option (List (FieldArray ℚ))
  | [], arrays => some arrays
  | i :: is, arrays =>
    match (if !foundChestRegionArray then insertTupleByName "ChestRegion" i [cipRegion] arrays
        else some arrays) with
    | none => none
    | some arrays1 =>
      match (if !foundChestTypeArray then insertTupleByName "ChestType" i [cipType] arrays1
          else some arrays1) with
      | none => none
      | some arrays2 =>
        assertLoop foundChestRegionArray foundChestTypeArray cipRegion cipType is arrays2

/-- The function `AssertChestRegionChestTypeArrayExistence`: the particle set after the call.
`AddArray` is called with a name that no array carries, and appends.  The values stored are
the casts to `float` of `cip::UNDEFINEDREGION` and `cip::UNDEFINEDTYPE`. -/
def AssertChestRegionChestTypeArrayExistence (conventions : ChestConventions)
    (particles : PolyData ℚ) : Option (PolyData ℚ) :=
  let numberParticles := particles.GetNumberOfPoints
  let foundChestRegionArray := particles.fieldData.any (fun a => a.name = "ChestRegion")
  let foundChestTypeArray := particles.fieldData.any (fun a => a.name = "ChestType")
  let arrays1 :=
    if !foundChestRegionArray then particles.fieldData ++ [⟨"ChestRegion", 1, []⟩]
    else particles.fieldData
  let arrays2 :=
    if !foundChestTypeArray then arrays1 ++ [⟨"ChestType", 1, []⟩] else arrays1
  let cipRegion : ℚ := (conventions.UNDEFINEDREGION : ℚ)
  let cipType : ℚ := (conventions.UNDEFINEDTYPE : ℚ)
  if !foundChestRegionArray || !foundChestTypeArray then
    match assertLoop foundChestRegionArray foundChestTypeArray cipRegion cipType
        (List.range numberParticles) arrays2 with
    | some arrays => some { particles with fieldData := arrays }
    | none => none
  else some { particles with fieldData := arrays2 }

/-- The conversion `static_cast< unsigned short >( x )` of a `double`: the value is truncated
toward zero; the conversion is undefined (`none`) when the truncated value is not a value of
`unsigned short`. -/
def toUnsignedShort (x : ℚ) : Option Nat :=
  if -1 < x ∧ x < 65536 then some ⌊x⌋.toNat else none

/-- The conversion `static_cast< unsigned char >( x )` of a `double`. -/
def toUnsignedChar (x : ℚ) : Option Nat :=
  if -1 < x ∧ x < 256 then some ⌊x⌋.toNat else none

/-- The value `*(particles->GetFieldData()->GetArray( name )->GetTuple( i ))`: the first
component of tuple `i` of the first array of that name. -/
def PolyData.firstComponent (particles : PolyData ℚ) (name : String) (i : Nat) : Option ℚ :=
  match particles.GetArray name with
  | some a =>
    match a.GetTuple i with
    | some (x :: _) => some x
    | _ => none
  | none => none

/-- The component label of particle `i`: the conversion to `unsigned short` of the first
component of its tuple in the array `unmergedComponents`. -/
def componentOf (particles : PolyData ℚ) (i : Nat) : Option Nat :=
  (particles.firstComponent "unmergedComponents" i).bind toUnsignedShort

/-- The text that `stream << n` writes for an `unsigned short`: its decimal digits. -/
def decimal (n : Nat) : String :=
  String.mk (if n = 0 then ['0'] else (Nat.digits 10 n).reverse.map Nat.digitChar)

/-- The map `std::map< unsigned short, std::string >`, by the name stored under each key;
its entries are never iterated over. -/
abbrev NameMap := Nat → Option String

/-- The assignment `(*componentLabelToNameMap)[k] = v`. -/
def NameMap.assign (m : NameMap) (k : Nat) (v : String) : NameMap :=
  fun j => if j = k then some v else m j

/-- The read `(*componentLabelToNameMap)[k]`: the name stored under `k`; a key that is not in
the map is inserted with the empty name.  The result is the name and the map after the
read. -/
def NameMap.subscript (m : NameMap) (k : Nat) : String × NameMap :=
  match m k with
  | some v => (v, m)
  | none => ("", m.assign k "")

/-- The class `cipAirwayDataInteractor`, whose header is not among the sources, taken as a
parameter: `I` is the type of the states of an interactor, `Image` the type of a CT image,
and the fields are the member functions that the tool calls.  `GetActorColor` fills a
`double[3]`. -/
structure cipAirwayDataInteractor (I Image : Type) where
  create : I
  SetGrayscaleImage : I → Image → I
  SetPointsAsSpheres : I → PolyData ℚ → ℚ → String → I
  SetAirwayParticlesAsCylinders : I → PolyData ℚ → ℚ → String → I
  SetActorColor : I → String → ℚ → ℚ → ℚ → I
  SetActorOpacity : I → String → ℚ → I
  Render : I → I
  Exists : I → String → Bool
  GetActorColor : I → String → (Fin 3 → ℚ)

section Editor

variable {I Image : Type}

/-- The first loop of `AddComponentsToInteractor` (lines 410-438); the state is
(`componentVec`, `cipTypeVec`).  The inner loop over `componentVec` is a membership test. -/
def componentsLoop (particles : PolyData ℚ) :
    List Nat → List Nat × List Nat → Option (List Nat × List Nat)
  | [], st => some st
  | i :: is, (componentVec, cipTypeVec) =>
    match componentOf particles i,
        (particles.firstComponent "ChestType" i).bind toUnsignedChar with
    | some component, some cipType =>
      if component ∈ componentVec then componentsLoop particles is (componentVec, cipTypeVec)
      else componentsLoop particles is (componentVec ++ [component], cipTypeVec ++ [cipType])
    | _, _ => none

/-- The loop over the particles of lines 460-475: the particles of one component are copied
into a `vtkPoints` of the default data type and into `vtkFloatArray`s; the state is
(`points`, `arrayVec`, `inc`). -/
def copyLoop (particles : PolyData ℚ) (component : Nat) :
    List Nat → List (Fin 3 → ℚ) × List (FieldArray ℚ) × Nat →
      Option (List (Fin 3 → ℚ) × List (FieldArray ℚ) × Nat)
  | [], st => some st
  | p :: ps, (points, arrayVec, inc) =>
    match componentOf particles p with
    | none => none
    | some c =>
      if c = component then
        match particles.GetPoint p, insertTuples inc p arrayVec particles.fieldData with
        | some point, some arrayVec1 =>
          copyLoop particles component ps (points ++ [floatPoint point], arrayVec1, inc + 1)
        | _, _ => none
      else copyLoop particles component ps (points, arrayVec, inc)

/-- The second loop of `AddComponentsToInteractor` (lines 444-500), over the pairs
(`componentVec[c]`, `cipTypeVec[c]`); the state is the interactor and the map. -/
def addLoop (interactorClass : cipAirwayDataInteractor I Image) (conventions : ChestConventions)
    (particles : PolyData ℚ) (whichLung : String) (particleSize : ℚ) :
    List (Nat × Nat) → I × NameMap → Option (I × NameMap)
  | [], st => some st
  | (component, cipType) :: rest, (interactor, componentLabelToNameMap) =>
    let arrayVec : List (FieldArray ℚ) :=
      particles.fieldData.map (fun a => ⟨a.name, a.numberOfComponents, []⟩)
    match copyLoop particles component (List.range particles.GetNumberOfPoints)
        ([], arrayVec, 0) with
    | none => none
    | some copied =>
      let name := decimal component ++ whichLung
      let color := conventions.GetChestTypeColor cipType
      let polyData : PolyData ℚ := ⟨copied.1, copied.2.1⟩
      let interactor1 :=
        interactorClass.SetAirwayParticlesAsCylinders interactor polyData particleSize name
      let interactor2 :=
        interactorClass.SetActorColor interactor1 name (color 0) (color 1) (color 2)
      let interactor3 := interactorClass.SetActorOpacity interactor2 name 1
      addLoop interactorClass conventions particles whichLung particleSize rest
        (interactor3, componentLabelToNameMap.assign component name)

/-- The function `AddComponentsToInteractor`: the interactor and the map after the call. -/
def AddComponentsToInteractor (interactorClass : cipAirwayDataInteractor I Image)
    (conventions : ChestConventions) (interactor : I) (particles : PolyData ℚ)
    (whichLung : String) (componentLabelToNameMap : NameMap) (particleSize : ℚ) :
    Option (I × NameMap) :=
  match componentsLoop particles (List.range particles.GetNumberOfPoints) ([], []) with
  | none => none
  | some vecs =>
    addLoop interactorClass conventions particles whichLung particleSize
      (vecs.1.zip vecs.2) (interactor, componentLabelToNameMap)

/-- The call `SetTuple( i, &value )` with the address of a single `float`: the array copies
as many values as it has components, so it must have one; and the call does not allocate, so
tuple `i` must exist. -/
def FieldArray.SetTupleValue (a : FieldArray ℚ) (i : Nat) (value : ℚ) :
    Option (FieldArray ℚ) :=
  if a.numberOfComponents = 1 ∧ i < a.tuples.length then
    some { a with tuples := a.tuples.set i [value] }
  else none

/-- The call `GetFieldData()->GetArray( name )->SetTuple( i, &value )`, on the first array of
that name; `none` when there is no such array. -/
def setTupleValueByName (name : String) (i : Nat) (value : ℚ) :
    List (FieldArray ℚ) → Option (List (FieldArray ℚ))
  | [] => none
  | a :: as =>
    if a.name = name then (a.SetTupleValue i value).map (fun a1 => a1 :: as)
    else (setTupleValueByName name i value as).map (fun as1 => a :: as1)

/-- The loop of `GetLabeledAirwayParticles` over the particle indices (lines 530-560); the
state is the input particles (their arrays `ChestRegion` and `ChestType` are written), the
map, `outPoints`, `arrayVec` and `inc`.  `outPoints` is a `vtkPoints` of the default data
type and the arrays of `arrayVec` are `vtkFloatArray`s (lines 515-528). -/
def labelLoop (interactorClass : cipAirwayDataInteractor I Image)
    (conventions : ChestConventions) (interactor : I) :
    List Nat → PolyData ℚ × NameMap × List (Fin 3 → ℚ) × List (FieldArray ℚ) × Nat →
      Option (PolyData ℚ × NameMap × List (Fin 3 → ℚ) × List (FieldArray ℚ) × Nat)
  | [], st => some st
  | i :: is, (particles, componentLabelToNameMap, outPoints, arrayVec, inc) =>
    match componentOf particles i with
    | none => none
    | some componentLabel =>
      let read := componentLabelToNameMap.subscript componentLabel
      let name := read.1
      if interactorClass.Exists interactor name then
        let actorColor := interactorClass.GetActorColor interactor name
        let cipRegion : ℚ := (conventions.UNDEFINEDREGION : ℚ)
        let cipType : ℚ := (conventions.GetChestTypeFromColor actorColor : ℚ)
        match setTupleValueByName "ChestRegion" i cipRegion particles.fieldData with
        | none => none
        | some arrays1 =>
          match setTupleValueByName "ChestType" i cipType arrays1 with
          | none => none
          | some arrays2 =>
            let particles2 : PolyData ℚ := { particles with fieldData := arrays2 }
            match particles2.GetPoint i, insertTuples inc i arrayVec arrays2 with
            | some point, some arrayVec1 =>
              labelLoop interactorClass conventions interactor is
                (particles2, read.2, outPoints ++ [floatPoint point], arrayVec1, inc + 1)
            | _, _ => none
      else
        labelLoop interactorClass conventions interactor is
          (particles, read.2, outPoints, arrayVec, inc)

/-- The function `GetLabeledAirwayParticles`: the point set returned, and the input particles
and the map after the call. -/
def GetLabeledAirwayParticles (interactorClass : cipAirwayDataInteractor I Image)
    (conventions : ChestConventions) (interactor : I) (particles : PolyData ℚ)
    (componentLabelToNameMap : NameMap) : Option (PolyData ℚ × PolyData ℚ × NameMap) :=
  let arrayVec : List (FieldArray ℚ) :=
    particles.fieldData.map (fun a => ⟨a.name, a.numberOfComponents, []⟩)
  match labelLoop interactorClass conventions interactor
      (List.range particles.GetNumberOfPoints)
      (particles, componentLabelToNameMap, [], arrayVec, 0) with
  | none => none
  | some st => some (⟨st.2.2.1, st.2.2.2.1⟩, st.1, st.2.1)

/-- The loop of `AddRegionTypePointsAsSpheresToInteractor` (lines 588-603); `regionTypeOutput`
gives the point set of a (region, type) designation of the file read.  An index beyond one
of the vectors gives `none`. -/
def spheresLoop (interactorClass : cipAirwayDataInteractor I Image)
    (conventions : ChestConventions) (regionTypeOutput : Nat → Nat → PolyData ℚ)
    (regionTypePointsRegions regionTypePointsTypes : List Nat)
    (regionTypePointsRed regionTypePointsGreen regionTypePointsBlue regionTypePointsScale
      regionTypePointsOpacity : List ℚ) :
    List Nat → I → Option I
  | [], interactor => some interactor
  | i :: is, interactor =>
    match regionTypePointsRegions[i]?, regionTypePointsTypes[i]?, regionTypePointsRed[i]?,
        regionTypePointsGreen[i]?, regionTypePointsBlue[i]?, regionTypePointsScale[i]?,
        regionTypePointsOpacity[i]? with
    | some cipRegion, some cipType, some red, some green, some blue, some scale,
        some opacity =>
      let name := conventions.GetChestRegionName cipRegion ++
        conventions.GetChestTypeName cipType
      let spheresPoly := regionTypeOutput cipRegion cipType
      let interactor1 := interactorClass.SetPointsAsSpheres interactor spheresPoly scale name
      let interactor2 := interactorClass.SetActorColor interactor1 name red green blue
      let interactor3 := interactorClass.SetActorOpacity interactor2 name opacity
      spheresLoop interactorClass conventions regionTypeOutput regionTypePointsRegions
        regionTypePointsTypes regionTypePointsRed regionTypePointsGreen regionTypePointsBlue
        regionTypePointsScale regionTypePointsOpacity is interactor3
    | _, _, _, _, _, _, _ => none

/-- The function `AddRegionTypePointsAsSpheresToInteractor`: the interactor after the call.
The vectors come in the order of the source: red, green, blue, scale, opacity. -/
def AddRegionTypePointsAsSpheresToInteractor
    (interactorClass : cipAirwayDataInteractor I Image) (conventions : ChestConventions)
    (interactor : I) (regionTypeOutput : Nat → Nat → PolyData ℚ)
    (regionTypePointsRegions regionTypePointsTypes : List Nat)
    (regionTypePointsRed regionTypePointsGreen regionTypePointsBlue regionTypePointsScale
      regionTypePointsOpacity : List ℚ) : Option I :=
  spheresLoop interactorClass conventions regionTypeOutput regionTypePointsRegions
    regionTypePointsTypes regionTypePointsRed regionTypePointsGreen regionTypePointsBlue
    regionTypePointsScale regionTypePointsOpacity
    (List.range regionTypePointsRegions.length) interactor

end Editor

end CIP

/-! ### The labelled particles as the specification words them -/

namespace CIP

section EditorSpec

variable {I Image : Type}

end EditorSpec

end CIP

/-! ### The program (`main` of `EditAirwayParticles`) -/

namespace CIP

/-- What the command line of `EditAirwayParticles` supplies: the required input particles
file name, for every optional `ValueArg` the value given (`none` when it is not given), and
for every `MultiArg` the list of the values given, in order. -/
structure EditCommandLine where
  inParticles : String
  generation : Option String
  ct : Option String
  pSize : Option ℚ
  rtp : Option String
  rtpRegion : List Nat
  rtpType : List Nat
  rtpRed : List ℚ
  rtpGreen : List ℚ
  rtpBlue : List ℚ
  rtpOp : List ℚ
  rtpSc : List ℚ

/-- The variables of `main` that the `try` block of lines 189-251 sets. -/
structure EditArguments where
  inParticlesFileName : String
  genParticlesFileName : String
  ctFileName : String
  particleSize : ℚ
  regionTypePointsFileName : String
  regionTypePointsRegions : List Nat
  regionTypePointsTypes : List Nat
  regionTypePointsRed : List ℚ
  regionTypePointsGreen : List ℚ
  regionTypePointsBlue : List ℚ
  regionTypePointsOpacity : List ℚ
  regionTypePointsScale : List ℚ

/-- The `try` block of `main` with its `catch` (lines 189-256): the arguments parsed, or the
status that `main` returns.  The command line is `none` when `cl.parse` throws; `unsigned
int` values are cast to `unsigned char`. -/
def parseArguments (ARGUMENTPARSINGERROR : Int) (commandLine : Option EditCommandLine) :
    Except Int EditArguments :=
  match commandLine with
  | none => Except.error ARGUMENTPARSINGERROR
  | some cl =>
    let regionTypePointsFileName := getValue "NA" cl.rtp
    if regionTypePointsFileName ≠ "NA" ∧
        ¬ (cl.rtpRegion.length = cl.rtpType.length ∧
          cl.rtpRegion.length = cl.rtpRed.length ∧
          cl.rtpRegion.length = cl.rtpGreen.length ∧
          cl.rtpRegion.length = cl.rtpBlue.length ∧
          cl.rtpRegion.length = cl.rtpSc.length ∧
          cl.rtpRegion.length = cl.rtpOp.length ∧
          cl.rtpRegion.length > 0) then
      Except.error ARGUMENTPARSINGERROR
    else
      Except.ok
        { inParticlesFileName := cl.inParticles,
          genParticlesFileName := getValue "NA" cl.generation,
          ctFileName := getValue "NA" cl.ct,
          particleSize := getValue 1.0 cl.pSize,
          regionTypePointsFileName := regionTypePointsFileName,
          regionTypePointsRegions := cl.rtpRegion.map (fun r => r % 256),
          regionTypePointsTypes := cl.rtpType.map (fun t => t % 256),
          regionTypePointsRed := cl.rtpRed,
          regionTypePointsGreen := cl.rtpGreen,
          regionTypePointsBlue := cl.rtpBlue,
          regionTypePointsOpacity := cl.rtpOp,
          regionTypePointsScale := cl.rtpSc }

/-- The collaborators of `main` that are not among the sources: the interactor class, the CT
reader (`none` when it throws an `itk::ExceptionObject`), the reader of the region-type
points file followed by `GetPolyDataFromChestRegionChestTypeDesignation`, and the particle
reader. -/
structure EditCollaborators (I Image : Type) where
  interactorClass : cipAirwayDataInteractor I Image
  readCT : String → Option Image
  readRegionTypePoints : String → Nat → Nat → PolyData ℚ
  readParticles : String → PolyData ℚ

/-- The outcome of a run of `main`: the exit status, the names of the files handed to a
reader, in order, and the file written. -/
structure EditResult where
  status : Int
  reads : List String
  written : Option (String × PolyData ℚ)

/-- The function `main` of `EditAirwayParticles`.  `ARGUMENTPARSINGERROR`, `NRRDREADFAILURE`
and `EXITSUCCESS` are the values of the constants of `cipConventions.h`.  The result is
`none` when one of the functions called runs out of range. -/
def EditAirwayParticles.main {I Image : Type} (c : EditCollaborators I Image)
    (conventions : ChestConventions) (ARGUMENTPARSINGERROR NRRDREADFAILURE EXITSUCCESS : Int)
    (commandLine : Option EditCommandLine) : Option EditResult :=
  match parseArguments ARGUMENTPARSINGERROR commandLine with
  | Except.error status => some ⟨status, [], none⟩
  | Except.ok args =>
    let interactor := c.interactorClass.create
    let reads1 := if args.ctFileName ≠ "NA" then [args.ctFileName] else []
    match (if args.ctFileName ≠ "NA" then
        (c.readCT args.ctFileName).map
          (fun image => c.interactorClass.SetGrayscaleImage interactor image)
        else some interactor) with
    | none => some ⟨NRRDREADFAILURE, reads1, none⟩
    | some interactor1 =>
      let reads2 := reads1 ++
        (if args.regionTypePointsFileName ≠ "NA" then [args.regionTypePointsFileName] else [])
      match (if args.regionTypePointsFileName ≠ "NA" then
          AddRegionTypePointsAsSpheresToInteractor c.interactorClass conventions interactor1
            (c.readRegionTypePoints args.regionTypePointsFileName)
            args.regionTypePointsRegions args.regionTypePointsTypes args.regionTypePointsRed
            args.regionTypePointsGreen args.regionTypePointsBlue args.regionTypePointsScale
            args.regionTypePointsOpacity
          else some interactor1) with
      | none => none
      | some interactor2 =>
        let particles := c.readParticles args.inParticlesFileName
        match AssertChestRegionChestTypeArrayExistence conventions particles with
        | none => none
        | some particles1 =>
          match AddComponentsToInteractor c.interactorClass conventions interactor2 particles1
              "airwayParticles" (fun _ => none) args.particleSize with
          | none => none
          | some added =>
            let interactor3 := c.interactorClass.Render added.1
            match GetLabeledAirwayParticles c.interactorClass conventions interactor3
                particles1 added.2 with
            | none => none
            | some labeled =>
              some ⟨EXITSUCCESS, reads2 ++ [args.inParticlesFileName],
                some (args.genParticlesFileName, labeled.1)⟩

/-- The condition of the specification on the region-type lists: the lists given for
`--rtpRegion`, `--rtpType`, `--rtpRed`, `--rtpGreen`, `--rtpBlue`, `--rtpOp` and `--rtpSc`
all have the same length, and that length is at least 1. -/
def EqualCounts_spec (cl : EditCommandLine) : Prop :=
  cl.rtpType.length = cl.rtpRegion.length ∧ cl.rtpRed.length = cl.rtpRegion.length ∧
  cl.rtpGreen.length = cl.rtpRegion.length ∧ cl.rtpBlue.length = cl.rtpRegion.length ∧
  cl.rtpOp.length = cl.rtpRegion.length ∧ cl.rtpSc.length = cl.rtpRegion.length ∧
  1 ≤ cl.rtpRegion.length

/-! ### Scenarios for the editor -/

/-- An interactor for the scenarios: its state is the list of its actors, each with a name
and a colour; a new actor is white, and rendering changes nothing. -/
def scenarioInteractor : cipAirwayDataInteractor (List (String × (Fin 3 → ℚ))) Unit :=
  { create := [],
    SetGrayscaleImage := fun actors _ => actors,
    SetPointsAsSpheres := fun actors _ _ name => actors ++ [(name, ![1, 1, 1])],
    SetAirwayParticlesAsCylinders := fun actors _ _ name => actors ++ [(name, ![1, 1, 1])],
    SetActorColor := fun actors name r g b =>
      actors.map (fun actor => if actor.1 = name then (name, ![r, g, b]) else actor),
    SetActorOpacity := fun actors _ _ => actors,
    Render := fun actors => actors,
    Exists := fun actors name => actors.any (fun actor => actor.1 = name),
    GetActorColor := fun actors name =>
      ((actors.find? (fun actor => actor.1 = name)).map (fun actor => actor.2)).getD
        ![0, 0, 0] }

/-- Three airway particles, two of component 7 and one of component 12, with the arrays
`ChestType` and `ChestRegion` and a scalar array. -/
def scenarioAirway : PolyData ℚ :=
  ⟨[![0, 0, 0], ![1, 0, 0], ![2, 0, 0]],
   [⟨"unmergedComponents", 1, [[7], [7], [12]]⟩, ⟨"ChestType", 1, [[1], [1], [2]]⟩,
    ⟨"ChestRegion", 1, [[5], [5], [5]]⟩, ⟨"scale", 1, [[10], [11], [12]]⟩]⟩

/-- Collaborators for the scenarios: every CT can be read, a region-type points file has no
point, and every particle file holds `scenarioAirway`. -/
def scenarioEditCollaborators : EditCollaborators (List (String × (Fin 3 → ℚ))) Unit :=
  ⟨scenarioInteractor, fun _ => some (), fun _ _ _ => ⟨[], []⟩, fun _ => scenarioAirway⟩

/-- A command line that gives a region-type points file and one value for each of the seven
lists. -/
def scenarioRegionTypePoints : EditCommandLine :=
  { inParticles := "in.vtk", generation := some "out.vtk", ct := none, pSize := none,
    rtp := some "points.csv", rtpRegion := [2], rtpType := [1], rtpRed := [1],
    rtpGreen := [0], rtpBlue := [0], rtpOp := [1], rtpSc := [3] }

/-- Actors for the scenarios: component 7 has an actor of colour (2, 0, 0), component 12 has
none. -/
def scenarioActors : List (String × (Fin 3 → ℚ)) := [("7airwayParticles", ![2, 0, 0])]

end CIP

/-! ## Lemmas on classification -/

namespace CIP

section ClassifyLemmas

variable {α : Type} [LinearOrderedField α]

theorem Dbl.gt_num_num (a b : α) : Dbl.gt (Dbl.num a) (Dbl.num b) = true ↔ a > b := by
  simp [Dbl.gt]

theorem Dbl.ge_num_num (a b : α) : Dbl.ge (Dbl.num a) (Dbl.num b) = true ↔ a ≥ b := by
  simp [Dbl.ge]

theorem Dbl.not_ge_of_gt (a b : Dbl α) (h : Dbl.gt b a = true) : Dbl.ge a b = false := by
  cases a <;> cases b <;> simp_all [Dbl.gt, Dbl.ge]

theorem projectionOf_length (dW aW : Dbl α) :
    ∀ (ds as : List (Dbl α)), ds.length ≤ as.length →
      ∃ p, projectionOf dW aW ds as = some p ∧ p.length = ds.length
  | [], _, _ => ⟨[], rfl, rfl⟩
  | _ :: _, [], h => by simp at h
  | d :: ds, a :: as, h => by
    obtain ⟨p, hp, hl⟩ := projectionOf_length dW aW ds as (by simpa using h)
    exact ⟨projectionEntry dW aW d a :: p, by simp [projectionOf, hp],
      by simp [hl]⟩

theorem decideType_isSome (p : List (Dbl α)) (thr : Dbl α) (h : 1 ≤ p.length) :
    ∃ t, decideType p thr = some t := by
  match p, h with
  | [p0], _ =>
    by_cases h0 : Dbl.gt p0 thr = true <;> simp [decideType, h0]
  | p0 :: p1 :: rest, _ =>
    by_cases h0 : Dbl.ge p0 p1 = true <;> by_cases h1 : Dbl.gt p0 thr = true <;>
      by_cases h2 : Dbl.gt p1 thr = true <;> simp [decideType, h0, h1, h2]

theorem classifyEntry_isSome (info : PARTICLEINFO α) (dW aW thr : Dbl α)
    (h1 : 1 ≤ info.distance.length) (h2 : info.distance.length ≤ info.angle.length) :
    ∃ info1, classifyEntry info dW aW thr = some info1 := by
  obtain ⟨p, hp, hl⟩ := projectionOf_length dW aW info.distance info.angle h2
  obtain ⟨t, ht⟩ := decideType_isSome p thr (by omega)
  exact ⟨{ info with cipType := some t }, by simp [classifyEntry, hp, ht]⟩

theorem classifyEntry_one (d a dW aW thr : Dbl α) (c : Option ChestType) :
    classifyEntry ⟨[d], [a], c⟩ dW aW thr =
      some ⟨[d], [a], some (if Dbl.gt (projectionEntry dW aW d a) thr = true
        then ChestType.OBLIQUEFISSURE else ChestType.UNDEFINEDTYPE)⟩ := by
  by_cases h : Dbl.gt (projectionEntry dW aW d a) thr = true <;>
    simp [classifyEntry, projectionOf, decideType, h]

theorem classifyEntry_two (d0 d1 a0 a1 dW aW thr : Dbl α) (c : Option ChestType) :
    classifyEntry ⟨[d0, d1], [a0, a1], c⟩ dW aW thr =
      some ⟨[d0, d1], [a0, a1], some (
        if Dbl.ge (projectionEntry dW aW d0 a0) (projectionEntry dW aW d1 a1) = true then
          (if Dbl.gt (projectionEntry dW aW d0 a0) thr = true
            then ChestType.OBLIQUEFISSURE else ChestType.UNDEFINEDTYPE)
        else
          (if Dbl.gt (projectionEntry dW aW d1 a1) thr = true
            then ChestType.HORIZONTALFISSURE else ChestType.UNDEFINEDTYPE))⟩ := by
  by_cases h0 : Dbl.ge (projectionEntry dW aW d0 a0) (projectionEntry dW aW d1 a1) = true <;>
    by_cases h1 : Dbl.gt (projectionEntry dW aW d0 a0) thr = true <;>
    by_cases h2 : Dbl.gt (projectionEntry dW aW d1 a1) thr = true <;>
    simp [classifyEntry, projectionOf, decideType, h0, h1, h2]

theorem projectionEntry_num (wd wa d a : α) :
    projectionEntry (Dbl.num wd) (Dbl.num wa) (Dbl.num d) (Dbl.num a) =
      Dbl.num (wd * d + wa * a) := rfl

/-- When every entry can be classified, `ClassifyParticles` returns a map, and the entry
found under a key is the classified entry found under that key before. -/
theorem ClassifyParticles_lookup {S : Type} (tpsVec : List S) (dW aW thr : Dbl α) :
    ∀ (m : InfoMap α), (∀ e ∈ m, ∃ i, classifyEntry e.2 dW aW thr = some i) →
      ∃ m1, ClassifyParticles m tpsVec dW aW thr = some m1 ∧
        ∀ k info, m.lookup k = some info →
          ∃ info1, classifyEntry info dW aW thr = some info1 ∧ m1.lookup k = some info1
  | [], _ => ⟨[], rfl, by simp⟩
  | (k0, info0) :: rest, h => by
    obtain ⟨i0, hi0⟩ := h (k0, info0) (by simp)
    obtain ⟨r1, hr1, hl⟩ := ClassifyParticles_lookup tpsVec dW aW thr rest
      (fun e he => h e (by simp [he]))
    refine ⟨(k0, i0) :: r1, by simp [ClassifyParticles, hi0, hr1], ?_⟩
    intro k info hk
    rw [List.lookup_cons] at hk ⊢
    by_cases hkk : (k == k0) = true
    · simp only [hkk] at hk ⊢
      cases hk
      exact ⟨i0, hi0, rfl⟩
    · simp only [hkk] at hk ⊢
      exact hl k info hk

end ClassifyLemmas

end CIP

/-! ## Classification: the decision rule -/

namespace CIP

section ClassifyClaims

variable {α : Type} [LinearOrderedField α]

/-- Claim C1 (left lung).  For a map whose entries can all be indexed as the code does, and
for all weights and threshold, `ClassifyParticles` returns a map in which every particle
holding exactly one (distance, angle) pair is labelled Oblique if and only if
`distanceWeight*distance + angleWeight*angle > threshold`, Undefined otherwise, and never
Horizontal. -/
theorem ClassifyParticles_left_lung {S : Type} (m : InfoMap α) (tpsVec : List S)
    (dW aW thr : Dbl α)
    (hwf : ∀ e ∈ m, 1 ≤ e.2.distance.length ∧ e.2.distance.length ≤ e.2.angle.length) :
    ∃ m1, ClassifyParticles m tpsVec dW aW thr = some m1 ∧
      ∀ k d a c, m.lookup k = some ⟨[d], [a], c⟩ →
        ∃ t, m1.lookup k = some ⟨[d], [a], some t⟩ ∧
          (t = ChestType.OBLIQUEFISSURE ↔ Dbl.gt (projectionEntry dW aW d a) thr = true) ∧
          (t = ChestType.UNDEFINEDTYPE ↔ Dbl.gt (projectionEntry dW aW d a) thr = false) ∧
          t ≠ ChestType.HORIZONTALFISSURE := by
  obtain ⟨m1, hm1, hl⟩ := ClassifyParticles_lookup tpsVec dW aW thr m
    (fun e he => classifyEntry_isSome e.2 dW aW thr (hwf e he).1 (hwf e he).2)
  refine ⟨m1, hm1, ?_⟩
  intro k d a c hk
  obtain ⟨info1, hc, hlk⟩ := hl k _ hk
  rw [classifyEntry_one] at hc
  cases hc
  refine ⟨_, hlk, ?_⟩
  by_cases h : Dbl.gt (projectionEntry dW aW d a) thr = true <;> simp [h]

/-- Claim C2 (right lung).  For a particle holding two pairs in the order
[oblique, horizontal], with scores `s_o` and `s_h`: if `s_o >= s_h` the label is Oblique when
`s_o > threshold` and Undefined otherwise; if `s_h > s_o` the label is Horizontal when
`s_h > threshold` and Undefined otherwise; equal scores above the threshold give Oblique. -/
theorem ClassifyParticles_right_lung {S : Type} (m : InfoMap α) (tpsVec : List S)
    (dW aW thr : Dbl α)
    (hwf : ∀ e ∈ m, 1 ≤ e.2.distance.length ∧ e.2.distance.length ≤ e.2.angle.length) :
    ∃ m1, ClassifyParticles m tpsVec dW aW thr = some m1 ∧
      ∀ k d0 a0 d1 a1 c, m.lookup k = some ⟨[d0, d1], [a0, a1], c⟩ →
        ∃ t, m1.lookup k = some ⟨[d0, d1], [a0, a1], some t⟩ ∧
          (Dbl.ge (projectionEntry dW aW d0 a0) (projectionEntry dW aW d1 a1) = true →
            t = if Dbl.gt (projectionEntry dW aW d0 a0) thr = true
              then ChestType.OBLIQUEFISSURE else ChestType.UNDEFINEDTYPE) ∧
          (Dbl.gt (projectionEntry dW aW d1 a1) (projectionEntry dW aW d0 a0) = true →
            t = if Dbl.gt (projectionEntry dW aW d1 a1) thr = true
              then ChestType.HORIZONTALFISSURE else ChestType.UNDEFINEDTYPE) ∧
          (∀ s : α, projectionEntry dW aW d0 a0 = Dbl.num s →
            projectionEntry dW aW d1 a1 = Dbl.num s → Dbl.gt (Dbl.num s) thr = true →
            t = ChestType.OBLIQUEFISSURE) := by
  obtain ⟨m1, hm1, hl⟩ := ClassifyParticles_lookup tpsVec dW aW thr m
    (fun e he => classifyEntry_isSome e.2 dW aW thr (hwf e he).1 (hwf e he).2)
  refine ⟨m1, hm1, ?_⟩
  intro k d0 a0 d1 a1 c hk
  obtain ⟨info1, hc, hlk⟩ := hl k _ hk
  rw [classifyEntry_two] at hc
  cases hc
  refine ⟨_, hlk, ?_, ?_, ?_⟩
  · intro h
    simp [h]
  · intro h
    simp [Dbl.not_ge_of_gt _ _ h]
  · intro s h0 h1 hs
    simp [h0, h1, hs, Dbl.ge]

/-- Claim C3, amended (winner-take-all with reject).  For numeric weights, threshold and a
two-entry particle whose scores `s_o`, `s_h` are numbers: the label is a fissure label if and only if
`max(s_o, s_h) > threshold`; it is then the label of the larger score (Oblique when
`s_o >= s_h`, Horizontal when `s_h > s_o`); and when `s_o >= s_h` it is never Horizontal. -/
theorem ClassifyParticles_winner_take_all {S : Type} (m : InfoMap α) (tpsVec : List S)
    (wd wa th : α)
    (hwf : ∀ e ∈ m, 1 ≤ e.2.distance.length ∧ e.2.distance.length ≤ e.2.angle.length) :
    ∃ m1, ClassifyParticles m tpsVec (Dbl.num wd) (Dbl.num wa) (Dbl.num th) = some m1 ∧
      ∀ k (d0 a0 d1 a1 : α) c,
        m.lookup k = some ⟨[Dbl.num d0, Dbl.num d1], [Dbl.num a0, Dbl.num a1], c⟩ →
        ∃ t, m1.lookup k =
            some ⟨[Dbl.num d0, Dbl.num d1], [Dbl.num a0, Dbl.num a1], some t⟩ ∧
          (t ≠ ChestType.UNDEFINEDTYPE ↔ max (wd * d0 + wa * a0) (wd * d1 + wa * a1) > th) ∧
          (max (wd * d0 + wa * a0) (wd * d1 + wa * a1) > th →
            (wd * d0 + wa * a0 ≥ wd * d1 + wa * a1 → t = ChestType.OBLIQUEFISSURE) ∧
            (wd * d1 + wa * a1 > wd * d0 + wa * a0 → t = ChestType.HORIZONTALFISSURE)) ∧
          (wd * d0 + wa * a0 ≥ wd * d1 + wa * a1 → t ≠ ChestType.HORIZONTALFISSURE) := by
  obtain ⟨m1, hm1, hl⟩ := ClassifyParticles_lookup tpsVec (Dbl.num wd) (Dbl.num wa)
    (Dbl.num th) m
    (fun e he => classifyEntry_isSome e.2 _ _ _ (hwf e he).1 (hwf e he).2)
  refine ⟨m1, hm1, ?_⟩
  intro k d0 a0 d1 a1 c hk
  obtain ⟨info1, hc, hlk⟩ := hl k _ hk
  rw [classifyEntry_two] at hc
  cases hc
  refine ⟨_, hlk, ?_⟩
  simp only [projectionEntry_num, Dbl.gt, Dbl.ge, decide_eq_true_eq]
  by_cases h0 : wd * d0 + wa * a0 ≥ wd * d1 + wa * a1
  · by_cases h1 : wd * d0 + wa * a0 > th
    · simp [h0, h1, not_lt.mpr h0]
    · have h2 : ¬ wd * d1 + wa * a1 > th := fun h => h1 (lt_of_lt_of_le h h0)
      simp [h0, h1, h2, not_lt.mpr h0, max_eq_left h0]
  · have h0' : wd * d1 + wa * a1 > wd * d0 + wa * a0 := not_le.mp h0
    by_cases h2 : wd * d1 + wa * a1 > th
    · simp [h0, h2, h0']
    · have h1 : ¬ wd * d0 + wa * a0 > th := fun h => h2 (lt_trans h h0')
      simp [h0, h1, h2, h0', max_eq_right (le_of_lt h0')]

end ClassifyClaims

end CIP

namespace CIP

/-- The scenario of claim C1: weights (-0.4677, -0.8839) and threshold -30 label the three
particles Oblique, Undefined, Undefined. -/
theorem ClassifyParticles_left_lung_witness :
    (∀ e ∈ scenarioLeft, 1 ≤ e.2.distance.length ∧ e.2.distance.length ≤ e.2.angle.length) ∧
    ∃ m1, ClassifyParticles scenarioLeft ([] : List Unit) (Dbl.num (-0.4677))
        (Dbl.num (-0.8839)) (Dbl.num (-30)) = some m1 ∧
      m1.lookup 0 = some ⟨[Dbl.num 10], [Dbl.num 5], some ChestType.OBLIQUEFISSURE⟩ ∧
      m1.lookup 1 = some ⟨[Dbl.num 50], [Dbl.num 40], some ChestType.UNDEFINEDTYPE⟩ ∧
      m1.lookup 2 = some ⟨[Dbl.num 80], [Dbl.num 10], some ChestType.UNDEFINEDTYPE⟩ := by
  have hwf : ∀ e ∈ scenarioLeft,
      1 ≤ e.2.distance.length ∧ e.2.distance.length ≤ e.2.angle.length := by
    simp [scenarioLeft]
  obtain ⟨m1, hm, hl⟩ := ClassifyParticles_left_lung scenarioLeft ([] : List Unit)
    (Dbl.num (-0.4677)) (Dbl.num (-0.8839)) (Dbl.num (-30)) hwf
  refine ⟨hwf, m1, hm, ?_, ?_, ?_⟩
  · obtain ⟨t, ht, hO, _, _⟩ := hl 0 (Dbl.num 10) (Dbl.num 5) none rfl
    have h : t = ChestType.OBLIQUEFISSURE :=
      hO.mpr (by rw [projectionEntry_num, Dbl.gt_num_num]; norm_num)
    rw [ht, h]
  · obtain ⟨t, ht, _, hU, _⟩ := hl 1 (Dbl.num 50) (Dbl.num 40) none rfl
    have h : t = ChestType.UNDEFINEDTYPE :=
      hU.mpr (by rw [projectionEntry_num, Bool.eq_false_iff, Ne, Dbl.gt_num_num]; norm_num)
    rw [ht, h]
  · obtain ⟨t, ht, _, hU, _⟩ := hl 2 (Dbl.num 80) (Dbl.num 10) none rfl
    have h : t = ChestType.UNDEFINEDTYPE :=
      hU.mpr (by rw [projectionEntry_num, Bool.eq_false_iff, Ne, Dbl.gt_num_num]; norm_num)
    rw [ht, h]

/-- The scenario of claim C2: oblique score -20, horizontal score -25 and threshold -30 give
Oblique. -/
theorem ClassifyParticles_right_lung_witness :
    (∀ e ∈ scenarioRight, 1 ≤ e.2.distance.length ∧ e.2.distance.length ≤ e.2.angle.length) ∧
    ∃ m1, ClassifyParticles scenarioRight ([] : List Unit) (Dbl.num (-1)) (Dbl.num 0)
        (Dbl.num (-30)) = some m1 ∧
      m1.lookup 0 = some ⟨[Dbl.num 20, Dbl.num 25], [Dbl.num 0, Dbl.num 0],
        some ChestType.OBLIQUEFISSURE⟩ := by
  have hwf : ∀ e ∈ scenarioRight,
      1 ≤ e.2.distance.length ∧ e.2.distance.length ≤ e.2.angle.length := by
    simp [scenarioRight]
  obtain ⟨m1, hm, hl⟩ := ClassifyParticles_right_lung scenarioRight ([] : List Unit)
    (Dbl.num (-1)) (Dbl.num 0) (Dbl.num (-30)) hwf
  refine ⟨hwf, m1, hm, ?_⟩
  obtain ⟨t, ht, hge, _, _⟩ := hl 0 (Dbl.num 20) (Dbl.num 0) (Dbl.num 25) (Dbl.num 0) none rfl
  have h : t = ChestType.OBLIQUEFISSURE := by
    rw [hge (by rw [projectionEntry_num, projectionEntry_num, Dbl.ge_num_num]; norm_num)]
    rw [if_pos (by rw [projectionEntry_num, Dbl.gt_num_num]; norm_num)]
  rw [ht, h]

/-- The scenario of claim C3: oblique score -20, horizontal score -25 and threshold -15 give
Undefined. -/
theorem ClassifyParticles_winner_take_all_witness :
    (∀ e ∈ scenarioRight, 1 ≤ e.2.distance.length ∧ e.2.distance.length ≤ e.2.angle.length) ∧
    ∃ m1, ClassifyParticles scenarioRight ([] : List Unit) (Dbl.num (-1)) (Dbl.num 0)
        (Dbl.num (-15)) = some m1 ∧
      m1.lookup 0 = some ⟨[Dbl.num 20, Dbl.num 25], [Dbl.num 0, Dbl.num 0],
        some ChestType.UNDEFINEDTYPE⟩ := by
  have hwf : ∀ e ∈ scenarioRight,
      1 ≤ e.2.distance.length ∧ e.2.distance.length ≤ e.2.angle.length := by
    simp [scenarioRight]
  obtain ⟨m1, hm, hl⟩ := ClassifyParticles_winner_take_all scenarioRight ([] : List Unit)
    (-1) 0 (-15) hwf
  refine ⟨hwf, m1, hm, ?_⟩
  obtain ⟨t, ht, hiff, _, _⟩ := hl 0 20 0 25 0 none rfl
  have h : t = ChestType.UNDEFINEDTYPE := by
    by_contra hne
    have := hiff.mp hne
    norm_num at this
  rw [ht, h]

/-- Claim C3, as stated, fails when a score is not a number.  Under the weights (-1, -1) and
the threshold -10 the particle of `scenarioNanScore` has the oblique score -3, which exceeds
the threshold, and a horizontal score that is not a number; the comparison
`projection[0] >= projection[1]` is false, the horizontal branch is taken, its test
`projection[1] > threshold` is false too, and the label is Undefined although the only
numeric score exceeds the threshold. -/
theorem ClassifyParticles_nan_score :
    projectionEntry (Dbl.num (-1 : ℚ)) (Dbl.num (-1)) (Dbl.num 3) (Dbl.num 0) = Dbl.num (-3) ∧
    projectionEntry (Dbl.num (-1 : ℚ)) (Dbl.num (-1)) (Dbl.num 5) Dbl.nan = Dbl.nan ∧
    Dbl.gt (Dbl.num (-3 : ℚ)) (Dbl.num (-10)) = true ∧
    ClassifyParticles scenarioNanScore ([] : List Unit) (Dbl.num (-1)) (Dbl.num (-1))
        (Dbl.num (-10)) =
      some [(0, ⟨[Dbl.num 3, Dbl.num 5], [Dbl.num 0, Dbl.nan],
        some ChestType.UNDEFINEDTYPE⟩)] := by
  refine ⟨?_, rfl, ?_, ?_⟩
  · simp only [projectionEntry, Dbl.mul, Dbl.add]
    norm_num
  · simp only [Dbl.gt]
    norm_num
  · simp [scenarioNanScore, ClassifyParticles, classifyEntry, projectionOf, projectionEntry,
      decideType, Dbl.mul, Dbl.add, Dbl.ge, Dbl.gt]

end CIP

/-! ## Lemmas on binary floating-point rounding -/

namespace CIP

section RoundingLemmas

variable {α : Type} [LinearOrderedField α] [FloorRing α]

theorem roundHalfEven_spec (t : α) :
    |t - (roundHalfEven t : α)| < 1 / 2 ∨
      (|t - (roundHalfEven t : α)| = 1 / 2 ∧ roundHalfEven t % 2 = 0) := by
  have h0 := Int.fract_nonneg t
  have h1 := Int.fract_lt_one t
  have ht : t = (⌊t⌋ : α) + Int.fract t := (Int.floor_add_fract t).symm
  unfold roundHalfEven
  split_ifs with ha hb hc
  · left
    rw [abs_lt]
    constructor <;> linarith
  · left
    rw [abs_lt]
    push_cast
    constructor <;> linarith
  · right
    have hf : Int.fract t = 1 / 2 := le_antisymm (not_lt.mp hb) (not_lt.mp ha)
    refine ⟨?_, hc⟩
    have : t - (⌊t⌋ : α) = 1 / 2 := by linarith
    rw [this, abs_of_pos (by norm_num)]
  · right
    have hf : Int.fract t = 1 / 2 := le_antisymm (not_lt.mp hb) (not_lt.mp ha)
    refine ⟨?_, by omega⟩
    have : t - ((⌊t⌋ + 1 : Int) : α) = -(1 / 2) := by push_cast; linarith
    rw [this, abs_neg, abs_of_pos (by norm_num)]

theorem roundHalfEven_unique (t : α) (n : Int)
    (h : |t - (n : α)| < 1 / 2 ∨ (|t - (n : α)| = 1 / 2 ∧ n % 2 = 0)) :
    roundHalfEven t = n := by
  have hs := roundHalfEven_spec t
  set r := roundHalfEven t with hr
  by_contra hne
  have hd : (1 : α) ≤ |(r : α) - (n : α)| := by
    have : (1 : Int) ≤ |r - n| := Int.one_le_abs (sub_ne_zero.mpr hne)
    have h2 : ((1 : Int) : α) ≤ ((|r - n| : Int) : α) := Int.cast_le.mpr this
    simpa using h2
  have htri : |(r : α) - (n : α)| ≤ |t - (r : α)| + |t - (n : α)| := by
    have := abs_sub_le (r : α) t (n : α)
    rwa [abs_sub_comm (r : α) t] at this
  rcases hs with hs | ⟨hs, hse⟩
  · rcases h with h | ⟨h, _⟩ <;> linarith
  · rcases h with h | ⟨h, he⟩
    · linarith
    · -- both ties, both even, differ by exactly one
      have hle : |(r : α) - (n : α)| ≤ 1 := by linarith
      have h1 : |(r : α) - (n : α)| = 1 := le_antisymm hle hd
      have h2 : ((|r - n| : Int) : α) = 1 := by simpa using h1
      have h3 : |r - n| = 1 := by exact_mod_cast h2
      rcases abs_eq (by norm_num : (0 : Int) ≤ 1) |>.mp h3 with h4 | h4 <;> omega

theorem roundHalfEven_intCast (n : Int) : roundHalfEven (n : α) = n :=
  roundHalfEven_unique _ n (Or.inl (by simp))

theorem roundHalfEven_neg (t : α) : roundHalfEven (-t) = -roundHalfEven t := by
  apply roundHalfEven_unique
  have h : |(-t) - ((-roundHalfEven t : Int) : α)| = |t - (roundHalfEven t : α)| := by
    rw [← abs_neg]; congr 1; push_cast; ring
  rw [h]
  rcases roundHalfEven_spec t with hs | ⟨hs, he⟩
  · exact Or.inl hs
  · exact Or.inr ⟨hs, by omega⟩

theorem roundHalfEven_mono {t s : α} (h : t ≤ s) : roundHalfEven t ≤ roundHalfEven s := by
  by_contra hlt
  have hlt : roundHalfEven s + 1 ≤ roundHalfEven t := by omega
  have hc : ((roundHalfEven s : Int) : α) + 1 ≤ (roundHalfEven t : α) := by exact_mod_cast hlt
  have a1 : |t - (roundHalfEven t : α)| ≤ 1 / 2 := by
    rcases roundHalfEven_spec t with h | ⟨h, _⟩
    · exact le_of_lt h
    · exact le_of_eq h
  have a2 : |s - (roundHalfEven s : α)| ≤ 1 / 2 := by
    rcases roundHalfEven_spec s with h | ⟨h, _⟩
    · exact le_of_lt h
    · exact le_of_eq h
  rw [abs_le] at a1 a2
  have e1 : t - (roundHalfEven t : α) = -(1 / 2) := by linarith [a1.1, a2.2]
  have e2 : s - (roundHalfEven s : α) = 1 / 2 := by linarith [a1.1, a2.2]
  have e3 : (roundHalfEven t : α) = (roundHalfEven s : α) + 1 := by linarith [a1.1, a2.2]
  have e4 : roundHalfEven t = roundHalfEven s + 1 := by exact_mod_cast e3
  have n1 : ¬ |t - (roundHalfEven t : α)| < 1 / 2 := by
    rw [e1, abs_neg, abs_of_pos (by norm_num)]; exact lt_irrefl _
  have n2 : ¬ |s - (roundHalfEven s : α)| < 1 / 2 := by
    rw [e2, abs_of_pos (by norm_num)]; exact lt_irrefl _
  rcases roundHalfEven_spec t with h | ⟨_, ht⟩
  · exact n1 h
  · rcases roundHalfEven_spec s with h | ⟨_, hs⟩
    · exact n2 h
    · omega

theorem two_zpow_pos {β : Type} [LinearOrderedField β] (e : Int) : (0 : β) < (2 : β) ^ e :=
  zpow_pos (by norm_num) e

theorem log_abs_eq (x : α) (e : Int) (hlo : (2 : α) ^ e ≤ |x|) (hhi : |x| < (2 : α) ^ (e + 1)) :
    Int.log 2 |x| = e := by
  have hpos : (0 : α) < |x| := lt_of_lt_of_le (two_zpow_pos e) hlo
  have h1 : e ≤ Int.log 2 |x| := by
    rw [← Int.zpow_le_iff_le_log (by norm_num) hpos]
    simpa using hlo
  have h2 : Int.log 2 |x| < e + 1 := by
    rw [← Int.lt_zpow_iff_log_lt (by norm_num) hpos]
    simpa using hhi
  omega

theorem zpow_log_le_abs (x : α) (hx : x ≠ 0) : (2 : α) ^ Int.log 2 |x| ≤ |x| := by
  have := Int.zpow_log_le_self (b := 2) (r := |x|) (by norm_num) (abs_pos.mpr hx)
  simpa using this

theorem abs_lt_zpow_log_succ (x : α) : |x| < (2 : α) ^ (Int.log 2 |x| + 1) := by
  have := Int.lt_zpow_succ_log_self (b := 2) (by norm_num) |x|
  simpa using this

theorem Format.quantum_neg (f : Format) (x : α) : f.quantum (-x) = f.quantum x := by
  simp [Format.quantum]

theorem Format.round_zero (f : Format) : f.round (0 : α) = 0 := by
  have h : roundHalfEven (0 : α) = 0 := by
    have := roundHalfEven_intCast (α := α) 0
    simpa using this
  simp [Format.round, h]

theorem Format.round_neg (f : Format) (x : α) : f.round (-x) = -f.round x := by
  simp only [Format.round, Format.quantum_neg, neg_div, roundHalfEven_neg]
  push_cast
  ring

/-- Evaluation of the rounding when the quantum and the nearest integer are known. -/
theorem Format.round_eq (f : Format) (x : α) (q n : Int) (hq : f.quantum x = q)
    (hn : |x / (2 : α) ^ q - (n : α)| < 1 / 2 ∨
      (|x / (2 : α) ^ q - (n : α)| = 1 / 2 ∧ n % 2 = 0)) :
    f.round x = (n : α) * (2 : α) ^ q := by
  simp only [Format.round, hq, roundHalfEven_unique _ n hn]

/-- The quantum of a number of the binade `[2^e, 2^(e+1))`. -/
theorem Format.quantum_eq (f : Format) (x : α) (e : Int) (hlo : (2 : α) ^ e ≤ |x|)
    (hhi : |x| < (2 : α) ^ (e + 1)) :
    f.quantum x = max e f.emin - ((f.prec : Int) - 1) := by
  simp only [Format.quantum, log_abs_eq x e hlo hhi]

/-- The quantum of a number below the normal range. -/
theorem Format.quantum_subnormal (f : Format) (x : α) (hx : x ≠ 0)
    (hhi : |x| < (2 : α) ^ f.emin) :
    f.quantum x = f.emin - ((f.prec : Int) - 1) := by
  have hpos : (0 : α) < |x| := abs_pos.mpr hx
  have h2 : Int.log 2 |x| < f.emin := by
    rw [← Int.lt_zpow_iff_log_lt (by norm_num) hpos]
    simpa using hhi
  simp only [Format.quantum]
  rw [max_eq_right (le_of_lt h2)]

/-- A number `m * 2^e` with `|m| < 2^prec` and `e` not below the least quantum is
representable: rounding leaves it unchanged. -/
theorem Format.round_exact (f : Format) (m e : Int) (hm : |m| < 2 ^ f.prec)
    (he : f.emin - ((f.prec : Int) - 1) ≤ e) :
    f.round ((m : α) * (2 : α) ^ e) = (m : α) * (2 : α) ^ e := by
  by_cases hm0 : m = 0
  · simp [hm0, Format.round_zero]
  set x : α := (m : α) * (2 : α) ^ e with hx
  have hxne : x ≠ 0 := mul_ne_zero (Int.cast_ne_zero.mpr hm0) (ne_of_gt (two_zpow_pos e))
  have hqle : f.quantum x ≤ e := by
    by_contra hlt
    have hlt : e < f.quantum x := not_le.mp hlt
    have hmax : max (Int.log 2 |x|) f.emin = Int.log 2 |x| := by
      apply max_eq_left
      by_contra hc
      have hc : Int.log 2 |x| < f.emin := not_le.mp hc
      have : f.quantum x = f.emin - ((f.prec : Int) - 1) := by
        simp only [Format.quantum]
        rw [max_eq_right (le_of_lt hc)]
      omega
    have hq : f.quantum x = Int.log 2 |x| - ((f.prec : Int) - 1) := by
      simp only [Format.quantum, hmax]
    have hlog : e + (f.prec : Int) ≤ Int.log 2 |x| := by omega
    have h1 : (2 : α) ^ (e + (f.prec : Int)) ≤ |x| :=
      le_trans (zpow_le_zpow_right₀ (by norm_num) hlog) (zpow_log_le_abs x hxne)
    have h2 : |x| < (2 : α) ^ (e + (f.prec : Int)) := by
      rw [hx, abs_mul, abs_of_pos (a := (2 : α) ^ e) (two_zpow_pos e), add_comm,
        zpow_add₀ (by norm_num)]
      apply mul_lt_mul_of_pos_right _ (two_zpow_pos e)
      have : ((|m| : Int) : α) < (((2 : Int) ^ f.prec : Int) : α) := Int.cast_lt.mpr hm
      rw [zpow_natCast]
      simpa using this
    exact absurd h1 (not_le.mpr h2)
  obtain ⟨k, hk⟩ : ∃ k : Nat, e - f.quantum x = (k : Int) := ⟨(e - f.quantum x).toNat, by omega⟩
  have hdiv : x / (2 : α) ^ f.quantum x = ((m * 2 ^ k : Int) : α) := by
    rw [hx, mul_div_assoc, ← zpow_sub₀ (by norm_num), hk, zpow_natCast]
    push_cast
    ring
  have hr : roundHalfEven (x / (2 : α) ^ f.quantum x) = m * 2 ^ k := by
    rw [hdiv]
    exact roundHalfEven_intCast _
  simp only [Format.round, hr]
  rw [← hdiv]
  field_simp

theorem Format.round_intCast (f : Format) (m : Int) (hm : |m| < 2 ^ f.prec)
    (he : f.emin - ((f.prec : Int) - 1) ≤ 0) : f.round (m : α) = (m : α) := by
  have := f.round_exact (α := α) m 0 hm he
  simpa using this

theorem Format.round_nonneg (f : Format) (x : α) (hx : 0 ≤ x) : 0 ≤ f.round x := by
  have h : (0 : Int) ≤ roundHalfEven (x / (2 : α) ^ f.quantum x) := by
    have h0 := roundHalfEven_mono (div_nonneg hx (le_of_lt (two_zpow_pos (f.quantum x))))
    have h1 : roundHalfEven (0 : α) = 0 := by
      have := roundHalfEven_intCast (α := α) 0
      simpa using this
    rwa [h1] at h0
  exact mul_nonneg (Int.cast_nonneg.mpr h) (le_of_lt (two_zpow_pos _))

/-- The rounding of a positive number does not exceed the upper end of its binade. -/
theorem Format.round_le_zpow (f : Format) (x : α) :
    f.round x ≤ (2 : α) ^ (max (Int.log 2 |x|) f.emin + 1) := by
  set E := max (Int.log 2 |x|) f.emin with hE
  have hq : f.quantum x = E - ((f.prec : Int) - 1) := rfl
  have hx1 : x ≤ (2 : α) ^ (E + 1) :=
    le_trans (le_abs_self x) (le_trans (le_of_lt (abs_lt_zpow_log_succ x))
      (zpow_le_zpow_right₀ (by norm_num) (by have := le_max_left (Int.log 2 |x|) f.emin; omega)))
  have hdiv : x / (2 : α) ^ f.quantum x ≤ (((2 : Int) ^ f.prec : Int) : α) := by
    rw [div_le_iff₀ (two_zpow_pos _)]
    push_cast
    rw [← zpow_natCast, ← zpow_add₀ (by norm_num), hq]
    have : (f.prec : Int) + (E - ((f.prec : Int) - 1)) = E + 1 := by ring
    rw [this]
    exact hx1
  have hr := roundHalfEven_mono hdiv
  rw [roundHalfEven_intCast] at hr
  have hr2 : ((roundHalfEven (x / (2 : α) ^ f.quantum x) : Int) : α) ≤
      (((2 : Int) ^ f.prec : Int) : α) := Int.cast_le.mpr hr
  calc f.round x = (roundHalfEven (x / (2 : α) ^ f.quantum x) : α) * (2 : α) ^ f.quantum x := rfl
    _ ≤ (((2 : Int) ^ f.prec : Int) : α) * (2 : α) ^ f.quantum x :=
        mul_le_mul_of_nonneg_right hr2 (le_of_lt (two_zpow_pos _))
    _ = (2 : α) ^ (E + 1) := by
        push_cast
        rw [← zpow_natCast, ← zpow_add₀ (by norm_num), hq]
        congr 1
        ring

/-- The rounding of a positive normal number is not below the lower end of its binade. -/
theorem Format.zpow_le_round (f : Format) (hp : 1 ≤ f.prec) (x : α) (hx : 0 < x)
    (hnorm : f.emin ≤ Int.log 2 |x|) :
    (2 : α) ^ Int.log 2 |x| ≤ f.round x := by
  have hq : f.quantum x = Int.log 2 |x| - ((f.prec : Int) - 1) := by
    simp only [Format.quantum]
    rw [max_eq_left hnorm]
  obtain ⟨k, hk⟩ : ∃ k : Nat, (f.prec : Int) - 1 = (k : Int) := ⟨f.prec - 1, by omega⟩
  have hx1 : (2 : α) ^ Int.log 2 |x| ≤ x := by
    exact le_trans (zpow_log_le_abs x (ne_of_gt hx)) (le_of_eq (abs_of_pos hx))
  have hdiv : (((2 : Int) ^ k : Int) : α) ≤ x / (2 : α) ^ f.quantum x := by
    rw [le_div_iff₀ (two_zpow_pos _)]
    push_cast
    rw [← zpow_natCast, ← zpow_add₀ (by norm_num), hq, ← hk]
    have : (f.prec : Int) - 1 + (Int.log 2 |x| - ((f.prec : Int) - 1)) = Int.log 2 |x| := by ring
    rw [this]
    exact hx1
  have hr := roundHalfEven_mono hdiv
  rw [roundHalfEven_intCast] at hr
  have hr2 : (((2 : Int) ^ k : Int) : α) ≤
      ((roundHalfEven (x / (2 : α) ^ f.quantum x) : Int) : α) := Int.cast_le.mpr hr
  calc (2 : α) ^ Int.log 2 |x| = (((2 : Int) ^ k : Int) : α) * (2 : α) ^ f.quantum x := by
        push_cast
        rw [← zpow_natCast, ← zpow_add₀ (by norm_num), hq, ← hk]
        congr 1
        ring
    _ ≤ (roundHalfEven (x / (2 : α) ^ f.quantum x) : α) * (2 : α) ^ f.quantum x :=
        mul_le_mul_of_nonneg_right hr2 (le_of_lt (two_zpow_pos _))

theorem Format.round_mono_pos (f : Format) (hp : 1 ≤ f.prec) {x y : α} (hx : 0 < x)
    (hxy : x ≤ y) : f.round x ≤ f.round y := by
  have hy : 0 < y := lt_of_lt_of_le hx hxy
  have hlog : Int.log 2 |x| ≤ Int.log 2 |y| := by
    apply Int.log_mono_right (abs_pos.mpr (ne_of_gt hx))
    rwa [abs_of_pos hx, abs_of_pos hy]
  rcases eq_or_lt_of_le (max_le_max hlog (le_refl f.emin)) with heq | hlt
  · have hq : f.quantum x = f.quantum y := by
      simp only [Format.quantum, heq]
    simp only [Format.round, hq]
    apply mul_le_mul_of_nonneg_right _ (le_of_lt (two_zpow_pos _))
    exact Int.cast_le.mpr (roundHalfEven_mono
      (div_le_div_of_nonneg_right hxy (le_of_lt (two_zpow_pos _))))
  · have hnorm : f.emin ≤ Int.log 2 |y| := by
      by_contra hc
      rw [max_eq_right (le_of_lt (not_le.mp hc))] at hlt
      exact absurd (le_max_right (Int.log 2 |x|) f.emin) (not_le.mpr hlt)
    rw [max_eq_left hnorm] at hlt
    calc f.round x ≤ (2 : α) ^ (max (Int.log 2 |x|) f.emin + 1) := f.round_le_zpow x
      _ ≤ (2 : α) ^ Int.log 2 |y| := zpow_le_zpow_right₀ (by norm_num) (by omega)
      _ ≤ f.round y := f.zpow_le_round hp y hy hnorm

/-- Rounding is monotone. -/
theorem Format.round_mono (f : Format) (hp : 1 ≤ f.prec) {x y : α} (hxy : x ≤ y) :
    f.round x ≤ f.round y := by
  rcases lt_trichotomy 0 x with hx | hx | hx
  · exact f.round_mono_pos hp hx hxy
  · rw [← hx, Format.round_zero]
    exact f.round_nonneg y (by rw [hx]; exact hxy)
  · rcases le_or_lt 0 y with hy | hy
    · have h1 : f.round x ≤ 0 := by
        have := f.round_nonneg (-x) (by linarith)
        rw [Format.round_neg] at this
        linarith
      exact le_trans h1 (f.round_nonneg y hy)
    · have := f.round_mono_pos hp (x := -y) (y := -x) (by linarith) (by linarith)
      rw [Format.round_neg, Format.round_neg] at this
      linarith

end RoundingLemmas

end CIP

namespace CIP

section DoubleLemmas

variable {α : Type} [LinearOrderedField α] [FloorRing α]

theorem Double.ofExact_eq (x y : α) (h : binary64.round x = y)
    (hy : |y| < (2 : α) ^ (1024 : Int)) : Double.ofExact x = Double.fin y := by
  simp only [Double.ofExact, h, if_neg (not_le.mpr hy)]

/-- A number `m * 2^e` with `|m| < 2^53`, `e ≥ -1074` and magnitude below `2^1024` is a
`double`. -/
theorem Double.ofExact_exact (m e : Int) (hm : |m| < 2 ^ 53) (he : -1074 ≤ e)
    (hlt : |(m : α) * (2 : α) ^ e| < (2 : α) ^ (1024 : Int)) :
    Double.ofExact ((m : α) * (2 : α) ^ e) = Double.fin ((m : α) * (2 : α) ^ e) :=
  Double.ofExact_eq _ _ (binary64.round_exact m e hm (by simpa [binary64] using he)) hlt

theorem Double.ofExact_intCast (m : Int) (hm : |m| < 2 ^ 53) :
    Double.ofExact (m : α) = Double.fin (m : α) := by
  have h := Double.ofExact_exact (α := α) m 0 hm (by norm_num) (by
    rw [zpow_zero, mul_one]
    have h1 : ((|m| : Int) : α) < (((2 : Int) ^ 53 : Int) : α) := Int.cast_lt.mpr hm
    have h2 : (((2 : Int) ^ 53 : Int) : α) < (2 : α) ^ (1024 : Int) := by
      have h3 : (((2 : Int) ^ 53 : Int) : α) = (2 : α) ^ (53 : Int) := by norm_num
      rw [h3]
      exact zpow_lt_zpow_right₀ (by norm_num) (by norm_num)
    rw [Int.cast_abs] at h1
    exact lt_trans h1 h2)
  simpa using h

theorem Double.ofExact_zero : Double.ofExact (0 : α) = Double.fin 0 := by
  have := Double.ofExact_intCast (α := α) 0 (by norm_num)
  simpa using this

theorem Double.ofExact_one : Double.ofExact (1 : α) = Double.fin 1 := by
  have := Double.ofExact_intCast (α := α) 1 (by norm_num)
  simpa using this

/-- Evaluation of an operation whose exact result lies in the normal binade
`[2^e, 2^(e+1))`: the result is `n * 2^(e-52)` for the integer `n` nearest to the scaled
value. -/
theorem Double.ofExact_normal (x : α) (e n : Int) (hlo : (2 : α) ^ e ≤ |x|)
    (hhi : |x| < (2 : α) ^ (e + 1)) (he : -1022 ≤ e)
    (hn : |x / (2 : α) ^ (e - 52) - (n : α)| < 1 / 2 ∨
      (|x / (2 : α) ^ (e - 52) - (n : α)| = 1 / 2 ∧ n % 2 = 0))
    (hfin : |(n : α) * (2 : α) ^ (e - 52)| < (2 : α) ^ (1024 : Int)) :
    Double.ofExact x = Double.fin ((n : α) * (2 : α) ^ (e - 52)) := by
  have hq : binary64.quantum x = e - 52 := by
    rw [binary64.quantum_eq x e hlo hhi]
    simp only [binary64]
    rw [max_eq_left he]
    norm_num
  exact Double.ofExact_eq _ _ (binary64.round_eq x (e - 52) n hq hn) hfin

/-- An exact result of magnitude below half the least subnormal number underflows to zero. -/
theorem Double.ofExact_underflow (x : α) (hx : |x| < (2 : α) ^ (-1075 : Int)) :
    Double.ofExact x = Double.fin 0 := by
  by_cases h0 : x = 0
  · rw [h0, Double.ofExact_zero]
  have hlt : |x| < (2 : α) ^ binary64.emin :=
    lt_of_lt_of_le hx (zpow_le_zpow_right₀ (by norm_num) (by simp [binary64]))
  have hq : binary64.quantum x = -1074 := by
    rw [binary64.quantum_subnormal x h0 hlt]
    simp [binary64]
  have hn : |x / (2 : α) ^ (-1074 : Int) - ((0 : Int) : α)| < 1 / 2 := by
    rw [Int.cast_zero, sub_zero, abs_div, abs_of_pos (a := (2 : α) ^ (-1074 : Int)) (two_zpow_pos _),
      div_lt_iff₀ (two_zpow_pos _)]
    have : (1 / 2 : α) * (2 : α) ^ (-1074 : Int) = (2 : α) ^ (-1075 : Int) := by
      rw [show (-1074 : Int) = -1075 + 1 by norm_num, zpow_add₀ (by norm_num), zpow_one]
      ring
    rw [this]
    exact hx
  have h := binary64.round_eq x (-1074) 0 hq (Or.inl hn)
  rw [Int.cast_zero, zero_mul] at h
  exact Double.ofExact_eq _ _ h (by rw [abs_zero]; exact two_zpow_pos _)

/-- An exact result of at least `2^1024` overflows to the positive infinity. -/
theorem Double.ofExact_overflow (x : α) (hx : (2 : α) ^ (1024 : Int) ≤ x) :
    Double.ofExact x = Double.inf false := by
  have hpos : (0 : α) < x := lt_of_lt_of_le (two_zpow_pos _) hx
  have h1 : binary64.round ((2 : α) ^ (1024 : Int)) = (2 : α) ^ (1024 : Int) := by
    have := binary64.round_exact (α := α) 1 1024 (by norm_num [binary64])
      (by norm_num [binary64])
    simpa using this
  have h2 : (2 : α) ^ (1024 : Int) ≤ binary64.round x := by
    have := binary64.round_mono (α := α) (by norm_num [binary64]) hx
    rwa [h1] at this
  have h3 : (2 : α) ^ (1024 : Int) ≤ |binary64.round x| := le_trans h2 (le_abs_self _)
  simp only [Double.ofExact, if_pos h3, not_lt.mpr (le_of_lt hpos), decide_False]

/-- An exact result between two `double`s rounds to a `double` between them. -/
theorem Double.ofExact_mem (x lo hi : α) (hlo : lo ≤ x) (hhi : x ≤ hi)
    (h1 : binary64.round lo = lo) (h2 : binary64.round hi = hi)
    (b1 : -(2 : α) ^ (1024 : Int) < lo) (b2 : hi < (2 : α) ^ (1024 : Int)) :
    ∃ y, Double.ofExact x = Double.fin y ∧ lo ≤ y ∧ y ≤ hi := by
  have m1 : lo ≤ binary64.round x := by
    have := binary64.round_mono (α := α) (by norm_num [binary64]) hlo
    rwa [h1] at this
  have m2 : binary64.round x ≤ hi := by
    have := binary64.round_mono (α := α) (by norm_num [binary64]) hhi
    rwa [h2] at this
  refine ⟨binary64.round x, Double.ofExact_eq _ _ rfl ?_, m1, m2⟩
  rw [abs_lt]
  constructor <;> linarith

theorem Double.round_binary64_intCast (m : Int) (hm : |m| < 2 ^ 53) :
    binary64.round (m : α) = (m : α) :=
  binary64.round_intCast m hm (by norm_num [binary64])

end DoubleLemmas

end CIP

namespace CIP

noncomputable section GeometryLemmas

theorem piDouble_pos : 0 < piDouble := by
  unfold piDouble
  positivity

theorem round_piDouble : binary64.round piDouble = piDouble := by
  unfold piDouble
  have := binary64.round_exact (α := ℝ) 884279719003555 (-48) (by norm_num [binary64])
    (by norm_num [binary64])
  simpa using this

/-- The literal `3.14159265358979323846` denotes the `double` 3.141592653589793. -/
theorem ofExact_piLiteral :
    Double.ofExact (3.14159265358979323846 : ℝ) = Double.fin piDouble := by
  have h := Double.ofExact_normal (3.14159265358979323846 : ℝ) 1 7074237752028440
    (by rw [abs_of_pos (by norm_num)]; norm_num)
    (by rw [abs_of_pos (by norm_num)]; norm_num) (by norm_num)
    (Or.inl (by rw [abs_lt]; constructor <;> norm_num))
    (by rw [abs_of_pos (by positivity)]; norm_num)
  rw [h]
  congr 1
  unfold piDouble
  norm_num

/-- The factor `180.0/3.14159265358979323846` is the `double` 57.29577951308232. -/
theorem degreesFactor_eq :
    Double.div (Double.fin 180) (Double.ofExact 3.14159265358979323846) =
      Double.fin degreesPerRadian := by
  rw [ofExact_piLiteral]
  simp only [Double.div, if_neg (ne_of_gt piDouble_pos)]
  have h := Double.ofExact_normal (180 / piDouble : ℝ) 5 8063664102031864
    (by unfold piDouble; rw [abs_of_pos (by positivity)]; norm_num)
    (by unfold piDouble; rw [abs_of_pos (by positivity)]; norm_num) (by norm_num)
    (Or.inl (by unfold piDouble; rw [abs_lt]; constructor <;> norm_num))
    (by rw [abs_of_pos (by positivity)]; norm_num)
  rw [h]
  congr 1
  unfold degreesPerRadian
  norm_num

theorem degreesPerRadian_pos : 0 < degreesPerRadian := by
  unfold degreesPerRadian
  positivity

/-- The product of the factor and the `double` nearest to π rounds to 180. -/
theorem round_degrees_pi : binary64.round (degreesPerRadian * piDouble) = 180 := by
  have hq : binary64.quantum (degreesPerRadian * piDouble) = -45 := by
    rw [binary64.quantum_eq _ 7
      (by unfold degreesPerRadian piDouble; rw [abs_of_pos (by positivity)]; norm_num)
      (by unfold degreesPerRadian piDouble; rw [abs_of_pos (by positivity)]; norm_num)]
    norm_num [binary64]
  rw [binary64.round_eq _ (-45) 6333186975989760 hq
    (Or.inl (by unfold degreesPerRadian piDouble; rw [abs_lt]; constructor <;> norm_num))]
  norm_num

/-- The conversion to degrees of an angle of [0, π] is a number of [0, 180]. -/
theorem degrees_mem (a : ℝ) (h0 : 0 ≤ a) (hpi : a ≤ piDouble) :
    ∃ d, Double.mul (Double.fin degreesPerRadian) (Double.fin a) = Double.fin d ∧
      0 ≤ d ∧ d ≤ 180 := by
  have hround0 : binary64.round (0 : ℝ) = 0 := binary64.round_zero
  have hm := binary64.round_mono (α := ℝ) (by norm_num [binary64])
    (mul_le_mul_of_nonneg_left hpi (le_of_lt degreesPerRadian_pos))
  rw [round_degrees_pi] at hm
  have hn := binary64.round_nonneg (degreesPerRadian * a)
    (mul_nonneg (le_of_lt degreesPerRadian_pos) h0)
  refine ⟨binary64.round (degreesPerRadian * a), ?_, hn, hm⟩
  exact Double.ofExact_eq _ _ rfl (by rw [abs_of_nonneg hn]; exact lt_of_le_of_lt hm (by norm_num))

/-- The fold at 90 of a number of [0, 180] is a number of [0, 90]. -/
theorem fold_mem (d : ℝ) (h0 : 0 ≤ d) (h180 : d ≤ 180) :
    ∃ r, (if Double.gt (Double.fin d) (Double.fin 90) then
        Double.sub (Double.fin 180) (Double.fin d) else Double.fin d) = Double.fin r ∧
      0 ≤ r ∧ r ≤ 90 := by
  by_cases h : d > 90
  · simp only [Double.gt, h, decide_True, if_true, Double.sub, Double.neg, Double.add]
    exact Double.ofExact_mem (180 + -d) 0 90 (by linarith) (by linarith) binary64.round_zero
      (by have := Double.round_binary64_intCast (α := ℝ) 90 (by norm_num); simpa using this)
      (by norm_num) (by norm_num)
  · simp only [Double.gt, h, decide_False, Bool.false_eq_true, if_false]
    exact ⟨d, rfl, h0, not_lt.mp h⟩

/-- After the test `abs( arg ) > 1.0` the argument of `acos` is not a number or a number of
[-1, 1]; it is not a number only if the quotient was. -/
theorem clamp_cases (arg : Double ℝ) :
    ((if Double.gt (Double.abs arg) (Double.fin 1) then Double.fin 1 else arg) = Double.nan ∧
        arg = Double.nan) ∨
      ∃ x, (if Double.gt (Double.abs arg) (Double.fin 1) then Double.fin 1 else arg) =
        Double.fin x ∧ -1 ≤ x ∧ x ≤ 1 := by
  cases arg with
  | nan => exact Or.inl ⟨by simp [Double.abs, Double.gt], rfl⟩
  | inf s => exact Or.inr ⟨1, by simp [Double.abs, Double.gt], by norm_num, le_refl _⟩
  | fin x =>
    right
    by_cases h : |x| > 1
    · exact ⟨1, by simp [Double.abs, Double.gt, h], by norm_num, le_refl _⟩
    · refine ⟨x, by simp [Double.abs, Double.gt, h], ?_⟩
      exact abs_le.mp (not_lt.mp h)

/-- With an `acos` that stays within [0, π], the degree-valued angle is not a number or a
number of [0, 90], whatever the vectors. -/
theorem GetAngleBetweenVectors_mem (libm : MathLibrary) (h : libm.Conforming)
    (v1 v2 : Fin 3 → ℝ) :
    GetAngleBetweenVectors libm v1 v2 true = Double.nan ∨
      ∃ a, GetAngleBetweenVectors libm v1 v2 true = Double.fin a ∧ 0 ≤ a ∧ a ≤ 90 := by
  simp only [GetAngleBetweenVectors, Bool.not_true, Bool.false_eq_true, if_false,
    degreesFactor_eq]
  rcases clamp_cases (Double.div
    (Double.add
      (Double.add (Double.mul (Double.fin (v1 0)) (Double.fin (v2 0)))
        (Double.mul (Double.fin (v1 1)) (Double.fin (v2 1))))
      (Double.mul (Double.fin (v1 2)) (Double.fin (v2 2))))
    (Double.mul (GetVectorMagnitude libm v1) (GetVectorMagnitude libm v2)))
    with ⟨hc, _⟩ | ⟨x, hc, hx1, hx2⟩
  · left
    rw [hc]
    simp [Double.acos, Double.mul, Double.gt]
  · right
    rw [hc]
    obtain ⟨a, ha, ha0, hapi⟩ := h.acos_range x hx1 hx2
    obtain ⟨d, hd, hd0, hd180⟩ := degrees_mem a ha0 hapi
    simp only [Double.acos, ha, hd]
    exact fold_mem d hd0 hd180

end GeometryLemmas

end CIP

namespace CIP

noncomputable section LibraryLemmas

/-- The number π rounds to the `double` 3.141592653589793. -/
theorem round_pi : binary64.round Real.pi = piDouble := by
  have h1 := Real.pi_gt_d20
  have h2 := Real.pi_lt_d20
  have hq : binary64.quantum Real.pi = -51 := by
    rw [binary64.quantum_eq _ 1
      (by rw [abs_of_pos Real.pi_pos]; norm_num; linarith)
      (by rw [abs_of_pos Real.pi_pos]; norm_num; linarith)]
    norm_num [binary64]
  have e : Real.pi / (2 : ℝ) ^ (-51 : Int) = Real.pi * 2251799813685248 := by
    rw [zpow_neg, div_inv_eq_mul]
    norm_num
  rw [binary64.round_eq _ (-51) 7074237752028440 hq (Or.inl (by
    rw [abs_lt, e]
    push_cast
    constructor <;> linarith))]
  unfold piDouble
  norm_num

/-- A correctly rounded `acos` stays within [0, π]. -/
theorem ofExact_arccos_mem (x : ℝ) :
    ∃ a, Double.ofExact (Real.arccos x) = Double.fin a ∧ 0 ≤ a ∧ a ≤ piDouble := by
  have hn := binary64.round_nonneg (Real.arccos x) (Real.arccos_nonneg x)
  have hm := binary64.round_mono (α := ℝ) (by norm_num [binary64]) (Real.arccos_le_pi x)
  rw [round_pi] at hm
  refine ⟨_, Double.ofExact_eq _ _ rfl ?_, hn, hm⟩
  rw [abs_of_nonneg hn]
  refine lt_of_le_of_lt hm ?_
  unfold piDouble
  norm_num

theorem ofExact_pi : Double.ofExact Real.pi = Double.fin piDouble :=
  Double.ofExact_eq _ _ round_pi (by
    rw [abs_of_pos piDouble_pos]
    unfold piDouble
    norm_num)

theorem referenceLibrary_conforming : referenceLibrary.Conforming where
  pow_exact := fun x hx => hx
  pow_neg := fun x => by simp [referenceLibrary]
  acos_range := fun x _ _ => ofExact_arccos_mem x
  acos_one := by simp [referenceLibrary, Double.ofExact_zero]
  acos_neg_one := by simp [referenceLibrary, ofExact_pi]

end LibraryLemmas

end CIP

namespace CIP

noncomputable section ClampLemmas

theorem Double.add_fin (x y : ℝ) :
    Double.add (Double.fin x) (Double.fin y) = Double.ofExact (x + y) := rfl

theorem Double.mul_fin (x y : ℝ) :
    Double.mul (Double.fin x) (Double.fin y) = Double.ofExact (x * y) := rfl

theorem Double.sqrt_fin (x : ℝ) (hx : 0 ≤ x) :
    Double.sqrt (Double.fin x) = Double.ofExact (Real.sqrt x) := by
  simp only [Double.sqrt, if_neg (not_lt.mpr hx)]

end ClampLemmas

end CIP

namespace CIP

noncomputable section ClampClaim

end ClampClaim

end CIP

namespace CIP

end CIP

namespace CIP

noncomputable section UnitLemmas

end UnitLemmas

end CIP

namespace CIP

noncomputable section UnitClaim

end UnitClaim

end CIP

namespace CIP

noncomputable section SampleLemmas

end SampleLemmas

end CIP

namespace CIP

noncomputable section NearUnitClaim

end NearUnitClaim

end CIP

namespace CIP

noncomputable section SignFlipLemmas

end SignFlipLemmas

end CIP

namespace CIP

noncomputable section SignFlipClaims

end SignFlipClaims

end CIP

/-! ## The angle between two vectors -/

namespace CIP

noncomputable section GeometryClaims

/-- Claim C5, as stated, fails: the result is not a number for the zero vector
(`0.0/0.0`), for a non-zero vector whose squares underflow to zero (again `0.0/0.0`) and for
a vector whose squares overflow (`inf/inf`). -/
theorem GetAngleBetweenVectors_zero_vector :
    GetAngleBetweenVectors referenceLibrary ![0, 0, 0] ![1, 0, 0] true = Double.nan ∧
      GetAngleBetweenVectors referenceLibrary ![(2 : ℝ) ^ (-600 : Int), 0, 0]
        ![(2 : ℝ) ^ (-600 : Int), 0, 0] true = Double.nan ∧
      GetAngleBetweenVectors referenceLibrary ![(2 : ℝ) ^ (600 : Int), 0, 0]
        ![(2 : ℝ) ^ (600 : Int), 0, 0] true = Double.nan := by
  have hs0 : Double.sqrt (Double.fin 0) = Double.fin 0 := by
    rw [Double.sqrt_fin _ (le_refl _), Real.sqrt_zero, Double.ofExact_zero]
  have hs1 : Double.sqrt (Double.fin 1) = Double.fin 1 := by
    rw [Double.sqrt_fin _ (by norm_num), Real.sqrt_one, Double.ofExact_one]
  have hu1 : Double.ofExact (((2 : ℝ) ^ (-600 : Int)) ^ 2) = Double.fin 0 :=
    Double.ofExact_underflow _ (by rw [abs_of_pos (by positivity)]; norm_num)
  have hu2 : Double.ofExact ((2 : ℝ) ^ (-600 : Int) * (2 : ℝ) ^ (-600 : Int)) = Double.fin 0 :=
    Double.ofExact_underflow _ (by rw [abs_of_pos (by positivity)]; norm_num)
  have ho1 : Double.ofExact (((2 : ℝ) ^ (600 : Int)) ^ 2) = Double.inf false :=
    Double.ofExact_overflow _ (by norm_num)
  have ho2 : Double.ofExact ((2 : ℝ) ^ (600 : Int) * (2 : ℝ) ^ (600 : Int)) =
      Double.inf false :=
    Double.ofExact_overflow _ (by norm_num)
  have hz : Double.ofExact ((0 : ℝ) ^ 2) = Double.fin 0 := by
    rw [zero_pow two_ne_zero, Double.ofExact_zero]
  have hzz : Double.ofExact ((0 : ℝ) * 0) = Double.fin 0 := by
    rw [mul_zero, Double.ofExact_zero]
  have h00 : Double.ofExact ((0 : ℝ) + 0) = Double.fin 0 := by
    rw [add_zero, Double.ofExact_zero]
  refine ⟨?_, ?_, ?_⟩
  · simp [GetAngleBetweenVectors, GetVectorMagnitude, referenceLibrary, Double.ofExact_zero,
      Double.ofExact_one, Double.add_fin, Double.mul_fin, hs0, hs1, Double.div, Double.abs,
      Double.gt, Double.acos, Double.mul]
  · simp only [GetAngleBetweenVectors, GetVectorMagnitude, referenceLibrary, degreesFactor_eq,
      Matrix.cons_val_zero, Matrix.cons_val_one, Matrix.head_cons, Matrix.cons_val_two,
      Matrix.tail_cons, hu1, hu2, hz, hzz, h00, Double.add_fin, Double.mul_fin, hs0]
    simp [Double.div, Double.abs, Double.gt, Double.acos, Double.mul]
  · simp only [GetAngleBetweenVectors, GetVectorMagnitude, referenceLibrary, degreesFactor_eq,
      Matrix.cons_val_zero, Matrix.cons_val_one, Matrix.head_cons, Matrix.cons_val_two,
      Matrix.tail_cons, ho1, ho2, hz, hzz, Double.mul_fin]
    simp [Double.add, Double.sqrt, Double.div, Double.abs, Double.gt, Double.acos, Double.mul]

/-- Claim C5, amended.  For all 3-vectors `v1` and `v2` of `double`s, when `acos` returns
values of [0, π], `GetAngleBetweenVectors(v1, v2, true)` is either not a number or a number
of the closed interval [0, 90]. -/
theorem GetAngleBetweenVectors_range (libm : MathLibrary) (h : libm.Conforming)
    (v1 v2 : Fin 3 → ℝ) :
    GetAngleBetweenVectors libm v1 v2 true = Double.nan ∨
      ∃ a : ℝ, GetAngleBetweenVectors libm v1 v2 true = Double.fin a ∧ 0 ≤ a ∧ a ≤ 90 := by
  rcases GetAngleBetweenVectors_mem libm h v1 v2 with hn | ⟨a, ha, h0, h90⟩
  · exact Or.inl hn
  · exact Or.inr ⟨a, ha, h0, h90⟩

end GeometryClaims

end CIP

namespace CIP

noncomputable section GeometryWitnesses

/-- Claim C5 on the first axis vector and `scenarioOblique`. -/
theorem GetAngleBetweenVectors_range_witness :
    referenceLibrary.Conforming ∧
    (GetAngleBetweenVectors referenceLibrary scenarioAxis scenarioOblique true = Double.nan ∨
      ∃ a : ℝ, GetAngleBetweenVectors referenceLibrary scenarioAxis scenarioOblique true =
        Double.fin a ∧ 0 ≤ a ∧ a ≤ 90) :=
  ⟨referenceLibrary_conforming,
    GetAngleBetweenVectors_range referenceLibrary referenceLibrary_conforming scenarioAxis
      scenarioOblique⟩

end GeometryWitnesses

end CIP

/-! ## Lemmas on the tally -/

namespace CIP

section TallyLemmas

theorem lookup_assign_self {α : Type} (k : Nat) (v : PARTICLEINFO α) :
    ∀ m : InfoMap α, (InfoMap.assign m k v).lookup k = some v
  | [] => by simp [InfoMap.assign, List.lookup]
  | (k0, v0) :: rest => by
    unfold InfoMap.assign
    split_ifs with h1 h2
    · simp [List.lookup]
    · simp [List.lookup]
    · have hne : (k == k0) = false := by simpa using h2
      rw [List.lookup_cons, hne]
      exact lookup_assign_self k v rest

theorem lookup_assign_ne {α : Type} (k : Nat) (v : PARTICLEINFO α) (j : Nat) (hj : j ≠ k) :
    ∀ m : InfoMap α, (InfoMap.assign m k v).lookup j = m.lookup j
  | [] => by
    have hne : (j == k) = false := by simpa using hj
    simp [InfoMap.assign, List.lookup, hne]
  | (k0, v0) :: rest => by
    have hne : (j == k) = false := by simpa using hj
    unfold InfoMap.assign
    split_ifs with h1 h2
    · rw [List.lookup_cons, hne]
    · subst h2
      rw [List.lookup_cons, List.lookup_cons, hne]
    · rw [List.lookup_cons, List.lookup_cons, lookup_assign_ne k v j hj rest]

theorem assign_append {α : Type} (k : Nat) (v : PARTICLEINFO α) :
    ∀ m : InfoMap α, (∀ e ∈ m, e.1 < k) → InfoMap.assign m k v = m ++ [(k, v)]
  | [], _ => rfl
  | (k0, v0) :: rest, h => by
    have h0 : k0 < k := h (k0, v0) (by simp)
    unfold InfoMap.assign
    rw [if_neg (by omega), if_neg (by omega),
      assign_append k v rest (fun e he => h e (by simp [he]))]
    rfl

theorem tallyLoop_append (body : Nat → Option (PARTICLEINFO ℝ)) :
    ∀ (xs ys : List Nat) (m : InfoMap ℝ),
      tallyLoop body (xs ++ ys) m = (tallyLoop body xs m).bind (tallyLoop body ys)
  | [], ys, m => by simp [tallyLoop]
  | x :: xs, ys, m => by
    simp only [List.cons_append, tallyLoop]
    cases hb : body x with
    | none => simp
    | some pInfo => simpa using tallyLoop_append body xs ys _

/-- The loop stores, for every index it visits, the record built for it, and leaves the
other keys as they were. -/
theorem tallyLoop_lookup (body : Nat → Option (PARTICLEINFO ℝ)) :
    ∀ (is : List Nat) (m : InfoMap ℝ), (∀ i ∈ is, ∃ pInfo, body i = some pInfo) →
      ∃ m1, tallyLoop body is m = some m1 ∧ (∀ i ∈ is, m1.lookup i = body i) ∧
        (∀ k, k ∉ is → m1.lookup k = m.lookup k)
  | [], m, _ => ⟨m, rfl, by simp, by simp⟩
  | i :: is, m, h => by
    obtain ⟨pInfo, hp⟩ := h i (by simp)
    obtain ⟨m1, hm1, hin, hout⟩ := tallyLoop_lookup body is (InfoMap.assign m i pInfo)
      (fun j hj => h j (by simp [hj]))
    refine ⟨m1, by simp [tallyLoop, hp, hm1], ?_, ?_⟩
    · intro j hj
      by_cases hjis : j ∈ is
      · exact hin j hjis
      · have hji : j = i := by simpa [hjis] using hj
        subst hji
        rw [hout j hjis, lookup_assign_self, hp]
    · intro k hk
      have hki : k ≠ i := fun e => hk (by simp [e])
      have hkis : k ∉ is := fun e => hk (by simp [e])
      rw [hout k hkis, lookup_assign_ne i pInfo k hki]

/-- Started on the empty map, the loop over `0 .. n-1` leaves exactly the keys `0 .. n-1`,
each once and in order. -/
theorem tallyLoop_keys (body : Nat → Option (PARTICLEINFO ℝ)) :
    ∀ n : Nat, (∀ i, i < n → ∃ pInfo, body i = some pInfo) →
      ∃ m1, tallyLoop body (List.range n) [] = some m1 ∧ m1.map Prod.fst = List.range n
  | 0, _ => ⟨[], rfl, rfl⟩
  | n + 1, h => by
    obtain ⟨m1, hm1, hk⟩ := tallyLoop_keys body n (fun i hi => h i (by omega))
    obtain ⟨pInfo, hp⟩ := h n (by omega)
    have hlt : ∀ e ∈ m1, e.1 < n := by
      intro e he
      have : e.1 ∈ m1.map Prod.fst := List.mem_map_of_mem _ he
      rw [hk] at this
      exact List.mem_range.mp this
    refine ⟨m1 ++ [(n, pInfo)], ?_, ?_⟩
    · rw [List.range_succ, tallyLoop_append, hm1]
      simp [tallyLoop, hp, assign_append n pInfo m1 hlt]
    · simp [hk, List.range_succ]

theorem GetParticleDistanceAndAngle_isSome (libm : MathLibrary)
    (newtonOptimizer : cipNewtonOptimizer)
    (particles : PolyData ℝ) (hwf : HasOrientations particles)
    (tps : cipThinPlateSplineSurface) (i : Nat) (hi : i < particles.GetNumberOfPoints) :
    ∃ distance angle,
      GetParticleDistanceAndAngle libm newtonOptimizer particles i tps = some (distance, angle) := by
  obtain ⟨hevec2, harr, htup⟩ := hwf
  obtain ⟨o0, o1, o2, rest, ht⟩ := htup i hi
  have hpt : particles.GetPoint i = some (particles.points[i]) := by
    simp only [PolyData.GetPoint]
    exact List.getElem?_eq_getElem hi
  simp only [GetParticleDistanceAndAngle, hpt, harr, ht]
  exact ⟨_, _, rfl⟩

end TallyLemmas

end CIP

/-! ## The tally -/

namespace CIP

section TallyClaims

/-- Claim C8 (left-lung tally).  With exactly one surface, `TallyParticleInfo` stores for
every particle index `0 .. N-1` an entry whose distance list and angle list hold exactly the
(distance, angle) computed for that particle against that surface; the other keys are left
as they were, and from the empty map the keys are exactly `0 .. N-1`, each once. -/
theorem TallyParticleInfo_left (libm : MathLibrary)
    (newtonOptimizer : cipNewtonOptimizer) (particles : PolyData ℝ)
    (tps : cipThinPlateSplineSurface) (m : InfoMap ℝ) (hwf : HasOrientations particles) :
    ∃ m1, TallyParticleInfo libm newtonOptimizer particles [tps] m = some m1 ∧
      (∀ i, i < particles.GetNumberOfPoints → ∃ distance angle,
        GetParticleDistanceAndAngle libm newtonOptimizer particles i tps = some (distance, angle) ∧
        m1.lookup i = some ⟨[distance], [angle], none⟩) ∧
      (∀ k, particles.GetNumberOfPoints ≤ k → m1.lookup k = m.lookup k) ∧
      (m = [] → m1.map Prod.fst = List.range particles.GetNumberOfPoints) := by
  have hbody : ∀ i, i < particles.GetNumberOfPoints →
      ∃ pInfo, tallyLeft libm newtonOptimizer particles tps i = some pInfo := by
    intro i hi
    obtain ⟨d, a, hda⟩ := GetParticleDistanceAndAngle_isSome libm newtonOptimizer particles hwf tps i hi
    exact ⟨⟨[d], [a], none⟩, by simp [tallyLeft, hda]⟩
  obtain ⟨m1, hm1, hin, hout⟩ := tallyLoop_lookup (tallyLeft libm newtonOptimizer particles tps)
    (List.range particles.GetNumberOfPoints) m (fun i hi => hbody i (List.mem_range.mp hi))
  have hT : TallyParticleInfo libm newtonOptimizer particles [tps] m = some m1 := by
    simp [TallyParticleInfo, hm1]
  refine ⟨m1, hT, ?_, ?_, ?_⟩
  · intro i hi
    obtain ⟨d, a, hda⟩ := GetParticleDistanceAndAngle_isSome libm newtonOptimizer particles hwf tps i hi
    refine ⟨d, a, hda, ?_⟩
    rw [hin i (List.mem_range.mpr hi)]
    simp [tallyLeft, hda]
  · intro k hk
    exact hout k (fun h => absurd (List.mem_range.mp h) (by omega))
  · intro hm
    subst hm
    obtain ⟨m2, hm2, hkeys⟩ := tallyLoop_keys (tallyLeft libm newtonOptimizer particles tps)
      particles.GetNumberOfPoints hbody
    rw [hm1] at hm2
    cases hm2
    exact hkeys

/-- Claim C9 (right-lung tally, height gate).  With the surfaces [oblique, horizontal], every
particle gets the single pair computed against the oblique surface when the oblique height is
strictly above the horizontal height at the particle's (x, y), and otherwise (equal heights
included) the oblique pair followed by the horizontal pair. -/
theorem TallyParticleInfo_right (libm : MathLibrary)
    (newtonOptimizer : cipNewtonOptimizer)
    (particles : PolyData ℝ) (ro rh : cipThinPlateSplineSurface) (m : InfoMap ℝ)
    (hwf : HasOrientations particles) :
    ∃ m1, TallyParticleInfo libm newtonOptimizer particles [ro, rh] m = some m1 ∧
      ∀ i, i < particles.GetNumberOfPoints → ∃ point roDistance roAngle rhDistance rhAngle,
        particles.GetPoint i = some point ∧
        GetParticleDistanceAndAngle libm newtonOptimizer particles i ro =
          some (roDistance, roAngle) ∧
        GetParticleDistanceAndAngle libm newtonOptimizer particles i rh =
          some (rhDistance, rhAngle) ∧
        (ro.GetSurfaceHeight (point 0) (point 1) > rh.GetSurfaceHeight (point 0) (point 1) →
          m1.lookup i = some ⟨[roDistance], [roAngle], none⟩) ∧
        (ro.GetSurfaceHeight (point 0) (point 1) ≤ rh.GetSurfaceHeight (point 0) (point 1) →
          m1.lookup i = some ⟨[roDistance, rhDistance], [roAngle, rhAngle], none⟩) := by
  have hpt : ∀ i, i < particles.GetNumberOfPoints →
      particles.GetPoint i = some (particles.points[i]?.getD 0) := by
    intro i hi
    simp only [PolyData.GetPoint]
    rw [List.getElem?_eq_getElem hi]
    rfl
  have hbody : ∀ i, i < particles.GetNumberOfPoints →
      ∃ pInfo, tallyRight libm newtonOptimizer particles [ro, rh] i = some pInfo := by
    intro i hi
    obtain ⟨d0, a0, h0⟩ := GetParticleDistanceAndAngle_isSome libm newtonOptimizer particles hwf ro i hi
    obtain ⟨d1, a1, h1⟩ := GetParticleDistanceAndAngle_isSome libm newtonOptimizer particles hwf rh i hi
    simp only [tallyRight, List.getElem?_cons_zero, List.getElem?_cons_succ, hpt i hi, h0, h1]
    split_ifs <;> exact ⟨_, rfl⟩
  obtain ⟨m1, hm1, hin, _⟩ := tallyLoop_lookup (tallyRight libm newtonOptimizer particles [ro, rh])
    (List.range particles.GetNumberOfPoints) m (fun i hi => hbody i (List.mem_range.mp hi))
  have hT : TallyParticleInfo libm newtonOptimizer particles [ro, rh] m = some m1 := by
    simp [TallyParticleInfo, hm1]
  refine ⟨m1, hT, ?_⟩
  intro i hi
  obtain ⟨d0, a0, h0⟩ := GetParticleDistanceAndAngle_isSome libm newtonOptimizer particles hwf ro i hi
  obtain ⟨d1, a1, h1⟩ := GetParticleDistanceAndAngle_isSome libm newtonOptimizer particles hwf rh i hi
  refine ⟨_, d0, a0, d1, a1, hpt i hi, h0, h1, ?_, ?_⟩
  · intro hgt
    rw [hin i (List.mem_range.mpr hi)]
    simp only [tallyRight, List.getElem?_cons_zero, List.getElem?_cons_succ, hpt i hi, h0, h1,
      if_pos hgt]
  · intro hle
    rw [hin i (List.mem_range.mpr hi)]
    simp only [tallyRight, List.getElem?_cons_zero, List.getElem?_cons_succ, hpt i hi, h0, h1,
      if_neg (not_lt.mpr hle)]

end TallyClaims

end CIP

namespace CIP

section TallyWitnesses

theorem scenarioParticles_hasOrientations : HasOrientations scenarioParticles := by
  refine ⟨⟨"hevec2", 3, [[0, 0, 1], [1, 0, 0]]⟩, ?_, ?_⟩
  · simp [PolyData.GetArray, scenarioParticles, List.find?]
  · intro i hi
    have hi2 : i < 2 := hi
    interval_cases i <;> simp [FieldArray.GetTuple]

/-- Claim C8 on the two-particle scenario, one plane at height 0, starting from the empty
map. -/
theorem TallyParticleInfo_left_witness :
    HasOrientations scenarioParticles ∧
    ∃ m1, TallyParticleInfo referenceLibrary planeOptimizer scenarioParticles [planeSurface 0] [] = some m1 ∧
      (∀ i, i < scenarioParticles.GetNumberOfPoints → ∃ distance angle,
        GetParticleDistanceAndAngle referenceLibrary planeOptimizer scenarioParticles i (planeSurface 0) =
          some (distance, angle) ∧
        m1.lookup i = some ⟨[distance], [angle], none⟩) ∧
      (∀ k, scenarioParticles.GetNumberOfPoints ≤ k →
        m1.lookup k = ([] : InfoMap ℝ).lookup k) ∧
      (([] : InfoMap ℝ) = [] →
        m1.map Prod.fst = List.range scenarioParticles.GetNumberOfPoints) :=
  ⟨scenarioParticles_hasOrientations,
    TallyParticleInfo_left referenceLibrary planeOptimizer scenarioParticles (planeSurface 0) []
      scenarioParticles_hasOrientations⟩

/-- Claim C9 on the two-particle scenario, the oblique and the horizontal plane both at
height 4 (equal heights). -/
theorem TallyParticleInfo_right_witness :
    HasOrientations scenarioParticles ∧
    ∃ m1, TallyParticleInfo referenceLibrary planeOptimizer scenarioParticles [planeSurface 4, planeSurface 4]
        [] = some m1 ∧
      ∀ i, i < scenarioParticles.GetNumberOfPoints →
        ∃ point roDistance roAngle rhDistance rhAngle,
        scenarioParticles.GetPoint i = some point ∧
        GetParticleDistanceAndAngle referenceLibrary planeOptimizer scenarioParticles i (planeSurface 4) =
          some (roDistance, roAngle) ∧
        GetParticleDistanceAndAngle referenceLibrary planeOptimizer scenarioParticles i (planeSurface 4) =
          some (rhDistance, rhAngle) ∧
        ((planeSurface 4).GetSurfaceHeight (point 0) (point 1) >
            (planeSurface 4).GetSurfaceHeight (point 0) (point 1) →
          m1.lookup i = some ⟨[roDistance], [roAngle], none⟩) ∧
        ((planeSurface 4).GetSurfaceHeight (point 0) (point 1) ≤
            (planeSurface 4).GetSurfaceHeight (point 0) (point 1) →
          m1.lookup i = some ⟨[roDistance, rhDistance], [roAngle, rhAngle], none⟩) :=
  ⟨scenarioParticles_hasOrientations,
    TallyParticleInfo_right referenceLibrary planeOptimizer scenarioParticles (planeSurface 4) (planeSurface 4)
      [] scenarioParticles_hasOrientations⟩

end TallyWitnesses

end CIP

/-! ## Lemmas on the output partition -/

namespace CIP

section WriteLemmas

variable {V α : Type}

theorem length_filterMap_getElem? {X : Type} (xs : List X) :
    ∀ idx : List Nat, (∀ j ∈ idx, j < xs.length) →
      (idx.filterMap (fun i => xs[i]?)).length = idx.length
  | [], _ => rfl
  | j :: idx, h => by
    have hj : j < xs.length := h j (by simp)
    rw [List.filterMap_cons, List.getElem?_eq_getElem hj]
    simp [length_filterMap_getElem? xs idx (fun i hi => h i (by simp [hi]))]

/-- One round of the inner loop appends, to every output array, the tuple of particle `i`,
converted to `float`. -/
theorem insertTuples_append [LinearOrderedField V] [FloorRing V] (done : List Nat) (i : Nat) :
    ∀ as : List (FieldArray V),
      (∀ a ∈ as, (∀ j ∈ done, j < a.tuples.length) ∧ i < a.tuples.length) →
      insertTuples done.length i
        (as.map (fun a => (⟨a.name, a.numberOfComponents,
          done.filterMap (fun j => a.narrowed.tuples[j]?)⟩ : FieldArray V))) as =
      some (as.map (fun a => (⟨a.name, a.numberOfComponents,
          (done ++ [i]).filterMap (fun j => a.narrowed.tuples[j]?)⟩ : FieldArray V)))
  | [], _ => rfl
  | a :: as, h => by
    obtain ⟨hd, hi⟩ := h a (by simp)
    have ih := insertTuples_append done i as (fun b hb => h b (by simp [hb]))
    have hd1 : ∀ j ∈ done, j < a.narrowed.tuples.length := fun j hj => by
      simpa [FieldArray.narrowed] using hd j hj
    have hlen := length_filterMap_getElem? a.narrowed.tuples done hd1
    have hget : a.narrowed.tuples[i]? = some ((a.tuples[i]).map toFloat) := by
      simp [FieldArray.narrowed, List.getElem?_map, List.getElem?_eq_getElem hi]
    simp only [List.map_cons, insertTuples, FieldArray.GetTuple, List.getElem?_eq_getElem hi,
      FieldArray.InsertTuple, hlen, lt_irrefl, if_false, if_true, ih, List.filterMap_append,
      List.filterMap_cons, List.filterMap_nil, hget]

/-- The loop of `WriteParticlesToFile`, started in the state reached after copying the
particles `done`, ends in the state reached after copying `done` and the matching indices
among those still to visit. -/
theorem writeLoop_eq [LinearOrderedField V] [FloorRing V] (particles : PolyData V)
    (m : InfoMap α) (L : ChestType)
    (hlab : ∀ i, i < particles.GetNumberOfPoints →
      ∃ t, (m.lookup i).bind (fun info => info.cipType) = some t)
    (harr : ∀ a ∈ particles.fieldData, particles.GetNumberOfPoints ≤ a.tuples.length) :
    ∀ (is done : List Nat), (∀ i ∈ is, i < particles.GetNumberOfPoints) →
      (∀ j ∈ done, j < particles.GetNumberOfPoints) →
      writeLoop particles m L is
        (done.filterMap (fun i => particles.narrowed.points[i]?),
         particles.fieldData.map (fun a => (⟨a.name, a.numberOfComponents,
           done.filterMap (fun j => a.narrowed.tuples[j]?)⟩ : FieldArray V)),
         done.length) =
      some ((done ++ is.filter (fun i =>
              (m.lookup i).bind (fun info => info.cipType) = some L)).filterMap
              (fun i => particles.narrowed.points[i]?),
         particles.fieldData.map (fun a => (⟨a.name, a.numberOfComponents,
           (done ++ is.filter (fun i =>
              (m.lookup i).bind (fun info => info.cipType) = some L)).filterMap
              (fun j => a.narrowed.tuples[j]?)⟩ : FieldArray V)),
         (done ++ is.filter (fun i =>
              (m.lookup i).bind (fun info => info.cipType) = some L)).length)
  | [], done, _, _ => by simp [writeLoop]
  | i :: is, done, his, hdone => by
    have hi : i < particles.GetNumberOfPoints := his i (by simp)
    obtain ⟨t, ht⟩ := hlab i hi
    have his1 : ∀ j ∈ is, j < particles.GetNumberOfPoints := fun j hj => his j (by simp [hj])
    by_cases htL : t = L
    · subst htL
      have hpt : particles.GetPoint i = some (particles.points[i]) := by
        simp only [PolyData.GetPoint]
        exact List.getElem?_eq_getElem hi
      have hins := insertTuples_append done i particles.fieldData
        (fun a ha => ⟨fun j hj => lt_of_lt_of_le (hdone j hj) (harr a ha),
          lt_of_lt_of_le hi (harr a ha)⟩)
      have ih := writeLoop_eq particles m t hlab harr is (done ++ [i]) his1
        (fun j hj => by
          rcases List.mem_append.mp hj with h | h
          · exact hdone j h
          · simp only [List.mem_singleton] at h
            exact h ▸ hi)
      have hstate : (done ++ [i]).filterMap (fun i => particles.narrowed.points[i]?) =
          done.filterMap (fun i => particles.narrowed.points[i]?) ++
            [floatPoint (particles.points[i])] := by
        simp [List.filterMap_append, PolyData.narrowed, List.getElem?_map,
          List.getElem?_eq_getElem hi]
      simp only [writeLoop, ht, if_true, hpt, hins]
      have hl : (done ++ [i]).length = done.length + 1 := by simp
      rw [← hstate, ← hl, ih]
      simp [List.filter_cons, ht]
    · have ih := writeLoop_eq particles m L hlab harr is done his1 hdone
      simp only [writeLoop, ht, if_neg htL, ih]
      simp [List.filter_cons, ht, htL]

/-- The partition of the specification with every value converted to `float`, index by
index. -/
theorem OutputPartition_spec_narrowed [LinearOrderedField V] [FloorRing V]
    (particles : PolyData V) (m : InfoMap α) (L : ChestType) :
    (OutputPartition_spec particles m L).narrowed =
      ⟨(matchingIndices particles m L).filterMap (fun i => particles.narrowed.points[i]?),
       particles.fieldData.map (fun a => (⟨a.name, a.numberOfComponents,
         (matchingIndices particles m L).filterMap
           (fun j => a.narrowed.tuples[j]?)⟩ : FieldArray V))⟩ := by
  simp only [PolyData.narrowed, OutputPartition_spec, FieldArray.narrowed, List.map_filterMap,
    List.getElem?_map, List.map_map, PolyData.mk.injEq]
  refine ⟨trivial, List.map_congr_left (fun a _ => ?_)⟩
  simp only [Function.comp, FieldArray.narrowed, List.map_filterMap]

/-- The function `WriteParticlesToFile` returns the partition of the specification with
every value converted to `float`. -/
theorem WriteParticlesToFile_eq [LinearOrderedField V] [FloorRing V] (particles : PolyData V)
    (m : InfoMap α) (fileName : String) (L : ChestType)
    (hlab : ∀ i, i < particles.GetNumberOfPoints →
      ∃ t, (m.lookup i).bind (fun info => info.cipType) = some t)
    (harr : ∀ a ∈ particles.fieldData, particles.GetNumberOfPoints ≤ a.tuples.length) :
    WriteParticlesToFile particles m fileName L =
      some (fileName, (OutputPartition_spec particles m L).narrowed) := by
  have h := writeLoop_eq particles m L hlab harr (List.range particles.GetNumberOfPoints) []
    (fun i hi => List.mem_range.mp hi) (by simp)
  simp only [List.filterMap_nil, List.length_nil, List.nil_append] at h
  rw [OutputPartition_spec_narrowed]
  simp only [WriteParticlesToFile, h, matchingIndices]

end WriteLemmas

end CIP

/-! ## The output partition -/

namespace CIP

section WriteClaims

variable {V α : Type} [LinearOrderedField V] [FloorRing V]

end WriteClaims

end CIP

/-! ## Lemmas on the program -/

namespace CIP

section MainLemmas

theorem mem_assign {α : Type} (k : Nat) (v : PARTICLEINFO α) :
    ∀ (m : InfoMap α) (e : Nat × PARTICLEINFO α), e ∈ InfoMap.assign m k v → e = (k, v) ∨ e ∈ m
  | [], e, h => by
    simp only [InfoMap.assign, List.mem_singleton] at h
    exact Or.inl h
  | (k0, v0) :: rest, e, h => by
    unfold InfoMap.assign at h
    split_ifs at h with h1 h2
    · rcases List.mem_cons.mp h with h | h
      · exact Or.inl h
      · exact Or.inr h
    · rcases List.mem_cons.mp h with h | h
      · exact Or.inl h
      · exact Or.inr (List.mem_cons_of_mem _ h)
    · rcases List.mem_cons.mp h with h | h
      · exact Or.inr (by rw [h]; exact List.mem_cons_self _ _)
      · rcases mem_assign k v rest e h with h | h
        · exact Or.inl h
        · exact Or.inr (List.mem_cons_of_mem _ h)

/-- Every record in the map after the loop was in the map before or was built by the loop
body. -/
theorem tallyLoop_forall (body : Nat → Option (PARTICLEINFO ℝ)) (P : PARTICLEINFO ℝ → Prop)
    (hbody : ∀ i pInfo, body i = some pInfo → P pInfo) :
    ∀ (is : List Nat) (m m1 : InfoMap ℝ), (∀ e ∈ m, P e.2) →
      tallyLoop body is m = some m1 → ∀ e ∈ m1, P e.2
  | [], m, m1, hm, h => by
    simp only [tallyLoop, Option.some.injEq] at h
    subst h
    exact hm
  | i :: is, m, m1, hm, h => by
    simp only [tallyLoop] at h
    cases hb : body i with
    | none => simp [hb] at h
    | some pInfo =>
      simp only [hb] at h
      refine tallyLoop_forall body P hbody is _ m1 ?_ h
      intro e he
      rcases mem_assign i pInfo m e he with h1 | h1
      · rw [h1]
        exact hbody i pInfo hb
      · exact hm e h1

/-- The shape of the records the tally builds: as many angles as distances, one or two. -/
theorem tallyLeft_shape (libm : MathLibrary)
    (newtonOptimizer : cipNewtonOptimizer) (particles : PolyData ℝ)
    (tps0 : cipThinPlateSplineSurface) (i : Nat) (pInfo : PARTICLEINFO ℝ)
    (h : tallyLeft libm newtonOptimizer particles tps0 i = some pInfo) :
    pInfo.distance.length = pInfo.angle.length ∧
      (pInfo.distance.length = 1 ∨ pInfo.distance.length = 2) := by
  unfold tallyLeft at h
  cases hg : GetParticleDistanceAndAngle libm newtonOptimizer particles i tps0 with
  | none => simp [hg] at h
  | some da =>
    simp only [hg, Option.some.injEq] at h
    subst h
    simp

theorem tallyRight_shape (libm : MathLibrary)
    (newtonOptimizer : cipNewtonOptimizer) (particles : PolyData ℝ)
    (tpsVec : List cipThinPlateSplineSurface) (i : Nat) (pInfo : PARTICLEINFO ℝ)
    (h : tallyRight libm newtonOptimizer particles tpsVec i = some pInfo) :
    pInfo.distance.length = pInfo.angle.length ∧
      (pInfo.distance.length = 1 ∨ pInfo.distance.length = 2) := by
  unfold tallyRight at h
  split at h
  · simp only at h
    split_ifs at h
    · split at h
      · simp only [Option.some.injEq] at h
        subst h
        simp
      · simp at h
    · split at h
      · simp only [Option.some.injEq] at h
        subst h
        simp
      · simp at h
  · simp at h

/-- With one or two surfaces and particles that carry orientations, the tally from the empty
map succeeds, holds a record for every particle, and all its records have the shape above. -/
theorem TallyParticleInfo_ok (libm : MathLibrary)
    (newtonOptimizer : cipNewtonOptimizer) (particles : PolyData ℝ)
    (tpsVec : List cipThinPlateSplineSurface) (hlen : tpsVec.length = 1 ∨ tpsVec.length = 2)
    (hwf : HasOrientations particles) :
    ∃ m0, TallyParticleInfo libm newtonOptimizer particles tpsVec [] = some m0 ∧
      (∀ i, i < particles.GetNumberOfPoints → ∃ info, m0.lookup i = some info) ∧
      ∀ e ∈ m0, e.2.distance.length = e.2.angle.length ∧
        (e.2.distance.length = 1 ∨ e.2.distance.length = 2) := by
  rcases hlen with h1 | h2
  · match tpsVec, h1 with
    | [tps], _ =>
      have hbody : ∀ i ∈ List.range particles.GetNumberOfPoints,
          ∃ pInfo, tallyLeft libm newtonOptimizer particles tps i = some pInfo := by
        intro i hi
        obtain ⟨d, a, hda⟩ := GetParticleDistanceAndAngle_isSome libm newtonOptimizer particles hwf
          tps i (List.mem_range.mp hi)
        exact ⟨⟨[d], [a], none⟩, by simp [tallyLeft, hda]⟩
      obtain ⟨m1, hm1, hin, _⟩ := tallyLoop_lookup (tallyLeft libm newtonOptimizer particles tps)
        (List.range particles.GetNumberOfPoints) [] hbody
      refine ⟨m1, by simp [TallyParticleInfo, hm1], ?_, ?_⟩
      · intro i hi
        obtain ⟨pInfo, hp⟩ := hbody i (List.mem_range.mpr hi)
        exact ⟨pInfo, by rw [hin i (List.mem_range.mpr hi), hp]⟩
      · exact tallyLoop_forall _ _ (tallyLeft_shape libm newtonOptimizer particles tps) _ [] m1
          (by simp) hm1
  · match tpsVec, h2 with
    | [ro, rh], _ =>
      have hbody : ∀ i ∈ List.range particles.GetNumberOfPoints,
          ∃ pInfo, tallyRight libm newtonOptimizer particles [ro, rh] i = some pInfo := by
        intro i hi
        have hi' := List.mem_range.mp hi
        obtain ⟨d0, a0, h0⟩ := GetParticleDistanceAndAngle_isSome libm newtonOptimizer particles hwf
          ro i hi'
        obtain ⟨d1, a1, h1⟩ := GetParticleDistanceAndAngle_isSome libm newtonOptimizer particles hwf
          rh i hi'
        have hpt : particles.GetPoint i = some (particles.points[i]?.getD 0) := by
          simp only [PolyData.GetPoint]
          rw [List.getElem?_eq_getElem hi']
          rfl
        simp only [tallyRight, List.getElem?_cons_zero, List.getElem?_cons_succ, hpt, h0, h1]
        split_ifs <;> exact ⟨_, rfl⟩
      obtain ⟨m1, hm1, hin, _⟩ := tallyLoop_lookup
        (tallyRight libm newtonOptimizer particles [ro, rh])
        (List.range particles.GetNumberOfPoints) [] hbody
      refine ⟨m1, by simp [TallyParticleInfo, hm1], ?_, ?_⟩
      · intro i hi
        obtain ⟨pInfo, hp⟩ := hbody i (List.mem_range.mpr hi)
        exact ⟨pInfo, by rw [hin i (List.mem_range.mpr hi), hp]⟩
      · exact tallyLoop_forall _ _ (tallyRight_shape libm newtonOptimizer particles [ro, rh]) _ []
          m1 (by simp) hm1

end MainLemmas

end CIP

namespace CIP

section MainLemmas2

/-- The loop body keeps the distance and angle lists and assigns a label. -/
theorem classifyEntry_frame {α : Type} [LinearOrderedField α] (info info1 : PARTICLEINFO α)
    (dW aW thr : Dbl α) (h : classifyEntry info dW aW thr = some info1) :
    info1.distance = info.distance ∧ info1.angle = info.angle ∧
      ∃ t, info1.cipType = some t := by
  unfold classifyEntry at h
  split at h
  · simp at h
  · split at h
    · simp at h
    · simp only [Option.some.injEq] at h
      subst h
      exact ⟨rfl, rfl, _, rfl⟩

theorem writeClassified_eq (particles : PolyData ℝ) (m : InfoMap ℝ) (fileName : String)
    (L : ChestType) (sofar : List Call × List (String × PolyData ℝ))
    (hlab : ∀ i, i < particles.GetNumberOfPoints →
      ∃ t, (m.lookup i).bind (fun info => info.cipType) = some t)
    (harr : HasAllTuples particles) :
    writeClassified particles m fileName L sofar =
      some (if fileName ≠ "NA" then
        (sofar.1 ++ [Call.WriteParticlesToFile fileName L],
          sofar.2 ++ [(fileName, (OutputPartition_spec particles m L).narrowed)])
        else sofar) := by
  unfold writeClassified
  split_ifs with h
  · rw [WriteParticlesToFile_eq particles m fileName L hlab harr]
  · rfl

/-- A write block keeps the calls made so far and adds at most one write and its file. -/
theorem writeClassified_calls (particles : PolyData ℝ) (m : InfoMap ℝ) (fileName : String)
    (L : ChestType) (base : List Call) (sofar : List Call × List (String × PolyData ℝ))
    (hlab : ∀ i, i < particles.GetNumberOfPoints →
      ∃ t, (m.lookup i).bind (fun info => info.cipType) = some t)
    (harr : HasAllTuples particles)
    (hsofar : ∃ rest, sofar.1 = base ++ rest ∧
      (∀ x ∈ rest, ∃ f t, x = Call.WriteParticlesToFile f t) ∧ sofar.2.length = rest.length) :
    ∃ out, writeClassified particles m fileName L sofar = some out ∧
      ∃ rest, out.1 = base ++ rest ∧
        (∀ x ∈ rest, ∃ f t, x = Call.WriteParticlesToFile f t) ∧
        out.2.length = rest.length := by
  obtain ⟨rest, h1, h2, h3⟩ := hsofar
  rw [writeClassified_eq particles m fileName L sofar hlab harr]
  by_cases hn : fileName ≠ "NA"
  · refine ⟨_, by rw [if_pos hn], rest ++ [Call.WriteParticlesToFile fileName L], ?_, ?_, ?_⟩
    · simp [h1]
    · intro x hx
      rcases List.mem_append.mp hx with hx | hx
      · exact h2 x hx
      · exact ⟨fileName, L, by simpa using hx⟩
    · simp [h3]
  · exact ⟨_, by rw [if_neg hn], rest, h1, h2, h3⟩

/-- On particles that carry orientations and a tuple in every array, with one or two
surfaces, the pipeline runs to the end: it returns 0, and its calls are the tally, the
classification with the weights and threshold it was given, and then only writes. -/
theorem mainPipeline_ok (c : Collaborators) (particles : PolyData ℝ)
    (tpsVec : List cipThinPlateSplineSurface) (lo ro rh : String) (dW aW thr : ℝ)
    (hlen : tpsVec.length = 1 ∨ tpsVec.length = 2)
    (hwf : HasOrientations particles) (harr : HasAllTuples particles) :
    ∃ r rest, mainPipeline c particles tpsVec lo ro rh dW aW thr = some r ∧ r.status = 0 ∧
      r.calls = [Call.TallyParticleInfo tpsVec.length,
        Call.ClassifyParticles (Dbl.num dW) (Dbl.num aW) (Dbl.num thr)] ++ rest ∧
      (∀ x ∈ rest, ∃ f t, x = Call.WriteParticlesToFile f t) ∧
      r.written.length = rest.length := by
  obtain ⟨m0, hm0, hall, hshape⟩ := TallyParticleInfo_ok c.mathLibrary c.newtonOptimizer particles tpsVec
    hlen hwf
  obtain ⟨m1, hm1, hl⟩ := ClassifyParticles_lookup tpsVec (Dbl.num dW) (Dbl.num aW)
    (Dbl.num thr) m0
    (fun e he => classifyEntry_isSome e.2 _ _ _
      (by rcases (hshape e he).2 with h | h <;> omega) (le_of_eq (hshape e he).1))
  have hlab : ∀ i, i < particles.GetNumberOfPoints →
      ∃ t, (m1.lookup i).bind (fun info => info.cipType) = some t := by
    intro i hi
    obtain ⟨info, hinfo⟩ := hall i hi
    obtain ⟨info1, hc, hlk⟩ := hl i info hinfo
    obtain ⟨_, _, t, ht⟩ := classifyEntry_frame info info1 _ _ _ hc
    exact ⟨t, by simp [hlk, ht]⟩
  obtain ⟨o1, ho1, hr1⟩ := writeClassified_calls particles m1 lo ChestType.OBLIQUEFISSURE
    [Call.TallyParticleInfo tpsVec.length,
      Call.ClassifyParticles (Dbl.num dW) (Dbl.num aW) (Dbl.num thr)]
    ([Call.TallyParticleInfo tpsVec.length,
      Call.ClassifyParticles (Dbl.num dW) (Dbl.num aW) (Dbl.num thr)], []) hlab harr
    ⟨[], by simp⟩
  obtain ⟨o2, ho2, hr2⟩ := writeClassified_calls particles m1 ro ChestType.OBLIQUEFISSURE
    _ o1 hlab harr hr1
  obtain ⟨o3, ho3, rest, h1, h2, h3⟩ := writeClassified_calls particles m1 rh
    ChestType.HORIZONTALFISSURE _ o2 hlab harr hr2
  exact ⟨⟨0, o3.1, o3.2⟩, rest, by simp only [mainPipeline, hm0, hm1, ho1, ho2, ho3], rfl,
    h1, h2, h3⟩

end MainLemmas2

end CIP

/-! ## The program: configuration -/

namespace CIP

section MainClaims

/-- The four ways `main` goes on after parsing, by the model arguments supplied. -/
theorem main_eq (c : Collaborators) (ARGUMENTPARSINGERROR : Int) (cl : CommandLine) :
    main c ARGUMENTPARSINGERROR (some cl) =
      if (supplied cl.roModel ∧ ¬ supplied cl.rhModel) ∨
          (¬ supplied cl.roModel ∧ supplied cl.rhModel) then
        some ⟨ARGUMENTPARSINGERROR, [], []⟩
      else if supplied cl.roModel then
        mainPipeline c (c.readParticles cl.particles)
          [c.readShapeModel (getValue "NA" cl.roModel),
            c.readShapeModel (getValue "NA" cl.rhModel)]
          (getValue "NA" cl.loClassified) (getValue "NA" cl.roClassified)
          (getValue "NA" cl.rhClassified)
          (getValue (-0.4677) cl.dist) (getValue (-0.8839) cl.angle)
          (getValue (-30.0) cl.thresh)
      else if supplied cl.loModel then
        mainPipeline c (c.readParticles cl.particles)
          [c.readShapeModel (getValue "NA" cl.loModel)]
          (getValue "NA" cl.loClassified) (getValue "NA" cl.roClassified)
          (getValue "NA" cl.rhClassified)
          (getValue (-0.4677) cl.dist) (getValue (-0.8839) cl.angle)
          (getValue (-30.0) cl.thresh)
      else some ⟨1, [], []⟩ := by
  simp only [main, supplied, ne_eq, not_not]

theorem proceeded_of_calls (r : MainResult) (n : Nat) (dW aW thr : Dbl ℝ) (rest : List Call)
    (hc : r.calls = [Call.TallyParticleInfo n, Call.ClassifyParticles dW aW thr] ++ rest) :
    r.proceeded := by
  refine ⟨⟨n, ?_⟩, ⟨dW, aW, thr, ?_⟩⟩
  · rw [hc]
    exact List.mem_append_left _ (List.mem_cons_self _ _)
  · rw [hc]
    exact List.mem_append_left _ (List.mem_cons_of_mem _ (List.mem_cons_self _ _))

theorem not_proceeded_of_no_calls (s : Int) (w : List (String × PolyData ℝ)) :
    ¬ (MainResult.mk s [] w).proceeded := by
  rintro ⟨⟨n, hn⟩, _⟩
  simp at hn

/-- Claim C11.  If exactly one of the right-oblique and right-horizontal models is supplied,
or if no model at all is supplied, `main` returns a non-zero status (the argument-parsing
error status, taken to be non-zero, or 1) without any call to `TallyParticleInfo`,
`ClassifyParticles` or `WriteParticlesToFile` and without writing a file, whatever the other
arguments. -/
theorem main_configuration_error (c : Collaborators) (ARGUMENTPARSINGERROR : Int)
    (cl : CommandLine) (hcode : ARGUMENTPARSINGERROR ≠ 0)
    (h : (supplied cl.roModel ∧ ¬ supplied cl.rhModel) ∨
      (¬ supplied cl.roModel ∧ supplied cl.rhModel) ∨
      (¬ supplied cl.loModel ∧ ¬ supplied cl.roModel ∧ ¬ supplied cl.rhModel)) :
    ∃ r, main c ARGUMENTPARSINGERROR (some cl) = some r ∧ r.status ≠ 0 ∧ r.calls = [] ∧
      r.written = [] := by
  rw [main_eq]
  rcases h with h | h | ⟨hlo, hro, hrh⟩
  · exact ⟨⟨ARGUMENTPARSINGERROR, [], []⟩, by rw [if_pos (Or.inl h)], hcode, rfl, rfl⟩
  · exact ⟨⟨ARGUMENTPARSINGERROR, [], []⟩, by rw [if_pos (Or.inr h)], hcode, rfl, rfl⟩
  · refine ⟨⟨1, [], []⟩, ?_, by decide, rfl, rfl⟩
    rw [if_neg (fun h => h.elim (fun h => hro h.1) (fun h => hrh h.2)), if_neg hro, if_neg hlo]

/-- Claim C12, as stated, fails when all three models are supplied: the run is not rejected,
it proceeds with the two right-lung models and returns 0. -/
theorem main_all_models_proceeds :
    supplied scenarioAllModels.loModel ∧ supplied scenarioAllModels.roModel ∧
      supplied scenarioAllModels.rhModel ∧
      ∃ r, main scenarioCollaborators 10 (some scenarioAllModels) = some r ∧ r.status = 0 ∧
        r.proceeded ∧
        ¬ (r.proceeded ↔
          (supplied scenarioAllModels.loModel ∧ ¬ supplied scenarioAllModels.roModel ∧
              ¬ supplied scenarioAllModels.rhModel) ∨
            (supplied scenarioAllModels.roModel ∧ supplied scenarioAllModels.rhModel ∧
              ¬ supplied scenarioAllModels.loModel)) := by
  have hlo : supplied scenarioAllModels.loModel := by
    simp [supplied, getValue, scenarioAllModels]
  have hro : supplied scenarioAllModels.roModel := by
    simp [supplied, getValue, scenarioAllModels]
  have hrh : supplied scenarioAllModels.rhModel := by
    simp [supplied, getValue, scenarioAllModels]
  have harr : HasAllTuples scenarioParticles := by
    simp [HasAllTuples, scenarioParticles, PolyData.GetNumberOfPoints]
  obtain ⟨r, rest, hr, hs, hc, _, _⟩ := mainPipeline_ok scenarioCollaborators scenarioParticles
    [scenarioCollaborators.readShapeModel (getValue "NA" scenarioAllModels.roModel),
      scenarioCollaborators.readShapeModel (getValue "NA" scenarioAllModels.rhModel)]
    (getValue "NA" scenarioAllModels.loClassified) (getValue "NA" scenarioAllModels.roClassified)
    (getValue "NA" scenarioAllModels.rhClassified)
    (getValue (-0.4677) scenarioAllModels.dist) (getValue (-0.8839) scenarioAllModels.angle)
    (getValue (-30.0) scenarioAllModels.thresh) (Or.inr rfl)
    scenarioParticles_hasOrientations harr
  have hp : r.proceeded := proceeded_of_calls r _ _ _ _ rest hc
  refine ⟨hlo, hro, hrh, r, ?_, hs, hp, ?_⟩
  · rw [main_eq, if_neg (fun h => h.elim (fun h => h.2 hrh) (fun h => h.1 hro)), if_pos hro]
    exact hr
  · intro hiff
    rcases hiff.mp hp with h | h
    · exact h.2.1 hro
    · exact h.2.2 hlo

/-- Claim C12, amended.  On particles that carry orientations and a tuple in every array,
`main` proceeds to tally and classification if and only if both right-lung models are
supplied (with or without the left-oblique model) or the left-oblique model is supplied and
neither right-lung model is; in every other case it makes no call, writes nothing and
returns the argument-parsing error status or 1. -/
theorem main_model_selection (c : Collaborators) (ARGUMENTPARSINGERROR : Int)
    (cl : CommandLine) (hwf : HasOrientations (c.readParticles cl.particles))
    (harr : HasAllTuples (c.readParticles cl.particles)) :
    ∃ r, main c ARGUMENTPARSINGERROR (some cl) = some r ∧
      (r.proceeded ↔ (supplied cl.roModel ∧ supplied cl.rhModel) ∨
        (supplied cl.loModel ∧ ¬ supplied cl.roModel ∧ ¬ supplied cl.rhModel)) ∧
      (¬ r.proceeded → r.calls = [] ∧ r.written = [] ∧
        (r.status = ARGUMENTPARSINGERROR ∨ r.status = 1)) := by
  have hnone : ∀ s : Int, ¬ (MainResult.mk s [] []).proceeded :=
    fun s => not_proceeded_of_no_calls s []
  have hsome := proceeded_of_calls
  rw [main_eq]
  by_cases hx : (supplied cl.roModel ∧ ¬ supplied cl.rhModel) ∨
      (¬ supplied cl.roModel ∧ supplied cl.rhModel)
  · rw [if_pos hx]
    refine ⟨_, rfl, ⟨fun h => absurd h (hnone _), ?_⟩, fun _ => ⟨rfl, rfl, Or.inl rfl⟩⟩
    rintro (⟨hro, hrh⟩ | ⟨_, hro, hrh⟩)
    · rcases hx with hx | hx
      · exact absurd hrh hx.2
      · exact absurd hro hx.1
    · rcases hx with hx | hx
      · exact absurd hx.1 hro
      · exact absurd hx.2 hrh
  · rw [if_neg hx]
    by_cases hro : supplied cl.roModel
    · have hrh : supplied cl.rhModel := by
        by_contra hrh
        exact hx (Or.inl ⟨hro, hrh⟩)
      rw [if_pos hro]
      obtain ⟨r, rest, hr, _, hc, _, _⟩ := mainPipeline_ok c (c.readParticles cl.particles)
        [c.readShapeModel (getValue "NA" cl.roModel), c.readShapeModel (getValue "NA" cl.rhModel)]
        (getValue "NA" cl.loClassified) (getValue "NA" cl.roClassified)
        (getValue "NA" cl.rhClassified) (getValue (-0.4677) cl.dist)
        (getValue (-0.8839) cl.angle) (getValue (-30.0) cl.thresh) (Or.inr rfl) hwf harr
      have hp := hsome r _ _ _ _ rest hc
      exact ⟨r, hr, ⟨fun _ => Or.inl ⟨hro, hrh⟩, fun _ => hp⟩, fun h => absurd hp h⟩
    · have hrh : ¬ supplied cl.rhModel := fun hrh => hx (Or.inr ⟨hro, hrh⟩)
      rw [if_neg hro]
      by_cases hlo : supplied cl.loModel
      · rw [if_pos hlo]
        obtain ⟨r, rest, hr, _, hc, _, _⟩ := mainPipeline_ok c (c.readParticles cl.particles)
          [c.readShapeModel (getValue "NA" cl.loModel)]
          (getValue "NA" cl.loClassified) (getValue "NA" cl.roClassified)
          (getValue "NA" cl.rhClassified) (getValue (-0.4677) cl.dist)
          (getValue (-0.8839) cl.angle) (getValue (-30.0) cl.thresh) (Or.inl rfl) hwf harr
        have hp := hsome r _ _ _ _ rest hc
        exact ⟨r, hr, ⟨fun _ => Or.inr ⟨hlo, hro, hrh⟩, fun _ => hp⟩, fun h => absurd hp h⟩
      · rw [if_neg hlo]
        refine ⟨_, rfl, ⟨fun h => absurd h (hnone _), ?_⟩, fun _ => ⟨rfl, rfl, Or.inr rfl⟩⟩
        rintro (⟨h1, _⟩ | ⟨h1, _, _⟩)
        · exact absurd h1 hro
        · exact absurd h1 hlo

end MainClaims

end CIP

namespace CIP

section MainClaims2

/-- In the calls of a completed pipeline, the only classification is the second call. -/
theorem classify_call_unique (calls rest : List Call) (n : Nat) (dW aW thr dW1 aW1 thr1 : Dbl ℝ)
    (hc : calls = [Call.TallyParticleInfo n, Call.ClassifyParticles dW aW thr] ++ rest)
    (hrest : ∀ x ∈ rest, ∃ f t, x = Call.WriteParticlesToFile f t)
    (hmem : Call.ClassifyParticles dW1 aW1 thr1 ∈ calls) :
    dW1 = dW ∧ aW1 = aW ∧ thr1 = thr := by
  rw [hc] at hmem
  rcases List.mem_append.mp hmem with h | h
  · rcases List.mem_cons.mp h with h | h
    · cases h
    · rcases List.mem_cons.mp h with h | h
      · cases h
        exact ⟨rfl, rfl, rfl⟩
      · simp at h
  · obtain ⟨f, t, hft⟩ := hrest _ h
    cases hft

end MainClaims2

section MainWitnesses

theorem scenarioParticles_hasAllTuples : HasAllTuples scenarioParticles := by
  simp [HasAllTuples, scenarioParticles, PolyData.GetNumberOfPoints]

/-- Claim C11 on a command line that gives only the right oblique model, with the error
status 10. -/
theorem main_configuration_error_witness :
    (10 : Int) ≠ 0 ∧
    ((supplied scenarioOneRightModel.roModel ∧ ¬ supplied scenarioOneRightModel.rhModel) ∨
      (¬ supplied scenarioOneRightModel.roModel ∧ supplied scenarioOneRightModel.rhModel) ∨
      (¬ supplied scenarioOneRightModel.loModel ∧ ¬ supplied scenarioOneRightModel.roModel ∧
        ¬ supplied scenarioOneRightModel.rhModel)) ∧
    ∃ r, main scenarioCollaborators 10 (some scenarioOneRightModel) = some r ∧ r.status ≠ 0 ∧
      r.calls = [] ∧ r.written = [] :=
  have h : (supplied scenarioOneRightModel.roModel ∧ ¬ supplied scenarioOneRightModel.rhModel) ∨
      (¬ supplied scenarioOneRightModel.roModel ∧ supplied scenarioOneRightModel.rhModel) ∨
      (¬ supplied scenarioOneRightModel.loModel ∧ ¬ supplied scenarioOneRightModel.roModel ∧
        ¬ supplied scenarioOneRightModel.rhModel) :=
    Or.inl (by simp [supplied, getValue, scenarioOneRightModel])
  ⟨by decide, h,
    main_configuration_error scenarioCollaborators 10 scenarioOneRightModel (by decide) h⟩

/-- Claim C12 (amended) on a command line that gives the left model only. -/
theorem main_model_selection_witness :
    HasOrientations (scenarioCollaborators.readParticles scenarioLeftModel.particles) ∧
    HasAllTuples (scenarioCollaborators.readParticles scenarioLeftModel.particles) ∧
    ∃ r, main scenarioCollaborators 10 (some scenarioLeftModel) = some r ∧
      (r.proceeded ↔
        (supplied scenarioLeftModel.roModel ∧ supplied scenarioLeftModel.rhModel) ∨
        (supplied scenarioLeftModel.loModel ∧ ¬ supplied scenarioLeftModel.roModel ∧
          ¬ supplied scenarioLeftModel.rhModel)) ∧
      (¬ r.proceeded → r.calls = [] ∧ r.written = [] ∧ (r.status = 10 ∨ r.status = 1)) :=
  ⟨scenarioParticles_hasOrientations, scenarioParticles_hasAllTuples,
    main_model_selection scenarioCollaborators 10 scenarioLeftModel
      scenarioParticles_hasOrientations scenarioParticles_hasAllTuples⟩

end MainWitnesses

end CIP

/-! ## Classification: scores, independence, frame -/

namespace CIP

section ClassifyClaims2

variable {α : Type} [LinearOrderedField α]

/-- Claim C13, as stated, fails: in exact decimal arithmetic the second and third scores do
not round to -58.78 and -46.24 (they are -58.741 and -46.255). -/
theorem projection_scores_not_as_stated :
    ¬ ∃ s1 s2 s3 : ℚ,
      projectionEntry (Dbl.num (-0.4677)) (Dbl.num (-0.8839)) (Dbl.num 10) (Dbl.num 5) =
        Dbl.num s1 ∧
      projectionEntry (Dbl.num (-0.4677)) (Dbl.num (-0.8839)) (Dbl.num 50) (Dbl.num 40) =
        Dbl.num s2 ∧
      projectionEntry (Dbl.num (-0.4677)) (Dbl.num (-0.8839)) (Dbl.num 80) (Dbl.num 10) =
        Dbl.num s3 ∧
      |s1 - (-9.10)| ≤ 0.005 ∧ |s2 - (-58.78)| ≤ 0.005 ∧ |s3 - (-46.24)| ≤ 0.005 := by
  rintro ⟨s1, s2, s3, _, h2, _, _, hb2, _⟩
  rw [projectionEntry_num] at h2
  cases h2
  rw [abs_le] at hb2
  norm_num at hb2

/-- Claim C13, amended.  The weights are the `double`s nearest to -0.4677 and -0.8839.  In
binary64 arithmetic the scores of (10, 5), (50, 40) and (80, 10) are the `double`s
-9.096499999999999, -58.741 and -46.254999999999995, which are -9.10, -58.74 and -46.25 to
two decimal places; in exact decimal arithmetic they are -9.0965, -58.741 and -46.255. -/
theorem projection_scores :
    projectionDouble (Double.ofExact (-0.4677 : ℚ)) (Double.ofExact (-0.8839)) (Double.fin 10)
        (Double.fin 5) = Double.fin (-(1280218562824241 * (2 : ℚ) ^ (-47 : Int))) ∧
      projectionDouble (Double.ofExact (-0.4677 : ℚ)) (Double.ofExact (-0.8839))
        (Double.fin 50) (Double.fin 40) = Double.fin (-(4133530401740161 * (2 : ℚ) ^ (-46 : Int))) ∧
      projectionDouble (Double.ofExact (-0.4677 : ℚ)) (Double.ofExact (-0.8839))
        (Double.fin 80) (Double.fin 10) = Double.fin (-(406863282742231 * (2 : ℚ) ^ (-43 : Int))) ∧
      |(-(1280218562824241 * (2 : ℚ) ^ (-47 : Int)) : ℚ) - (-9.10)| < 0.005 ∧
      |(-(4133530401740161 * (2 : ℚ) ^ (-46 : Int)) : ℚ) - (-58.74)| < 0.005 ∧
      |(-(406863282742231 * (2 : ℚ) ^ (-43 : Int)) : ℚ) - (-46.25)| < 0.005 ∧
      projectionEntry (Dbl.num (-0.4677 : ℚ)) (Dbl.num (-0.8839)) (Dbl.num 10) (Dbl.num 5) =
        Dbl.num (-9.0965) ∧
      projectionEntry (Dbl.num (-0.4677 : ℚ)) (Dbl.num (-0.8839)) (Dbl.num 50) (Dbl.num 40) =
        Dbl.num (-58.741) ∧
      projectionEntry (Dbl.num (-0.4677 : ℚ)) (Dbl.num (-0.8839)) (Dbl.num 80) (Dbl.num 10) =
        Dbl.num (-46.255) ∧
      projectionOf (Dbl.num (-0.4677 : ℚ)) (Dbl.num (-0.8839)) [Dbl.num 50] [Dbl.num 40] =
        some [Dbl.num (-58.741)] := by
  have hdW : Double.ofExact (-0.4677) = Double.fin (-(2106333545721181 * (2 : ℚ) ^ (-52 : Int))) := by
    have h := Double.ofExact_normal (-0.4677 : ℚ) (-2) (-8425334182884724)
      (by rw [abs_of_neg (by norm_num)]; norm_num)
      (by rw [abs_of_neg (by norm_num)]; norm_num) (by norm_num)
      (Or.inl (by rw [abs_lt]; constructor <;> norm_num))
      (by rw [abs_of_neg (by norm_num)]; norm_num)
    rw [h]
    exact congrArg Double.fin (by norm_num)
  have haW : Double.ofExact (-0.8839) = Double.fin (-(7961463421265563 * (2 : ℚ) ^ (-53 : Int))) := by
    have h := Double.ofExact_normal (-0.8839 : ℚ) (-1) (-7961463421265563)
      (by rw [abs_of_neg (by norm_num)]; norm_num)
      (by rw [abs_of_neg (by norm_num)]; norm_num) (by norm_num)
      (Or.inl (by rw [abs_lt]; constructor <;> norm_num))
      (by rw [abs_of_neg (by norm_num)]; norm_num)
    rw [h]
    exact congrArg Double.fin (by norm_num)
  have hp1 : Double.ofExact (-(2106333545721181 * (2 : ℚ) ^ (-52 : Int)) * 10) = Double.fin (-(658229233037869 * (2 : ℚ) ^ (-47 : Int))) := by
    have h := Double.ofExact_normal (-(2106333545721181 * (2 : ℚ) ^ (-52 : Int)) * 10 : ℚ) (2) (-5265833864302952)
      (by rw [abs_of_neg (by norm_num)]; norm_num)
      (by rw [abs_of_neg (by norm_num)]; norm_num) (by norm_num)
      (Or.inr ⟨by rw [abs_eq (by norm_num)]; right; norm_num, by norm_num⟩)
      (by rw [abs_of_neg (by norm_num)]; norm_num)
    rw [h]
    exact congrArg Double.fin (by norm_num)
  have hq1 : Double.ofExact (-(7961463421265563 * (2 : ℚ) ^ (-53 : Int)) * 5) = Double.fin (-(4975914638290977 * (2 : ℚ) ^ (-50 : Int))) := by
    have h := Double.ofExact_normal (-(7961463421265563 * (2 : ℚ) ^ (-53 : Int)) * 5 : ℚ) (2) (-4975914638290977)
      (by rw [abs_of_neg (by norm_num)]; norm_num)
      (by rw [abs_of_neg (by norm_num)]; norm_num) (by norm_num)
      (Or.inl (by rw [abs_lt]; constructor <;> norm_num))
      (by rw [abs_of_neg (by norm_num)]; norm_num)
    rw [h]
    exact congrArg Double.fin (by norm_num)
  have hs1 : Double.ofExact (-(658229233037869 * (2 : ℚ) ^ (-47 : Int)) + -(4975914638290977 * (2 : ℚ) ^ (-50 : Int))) = Double.fin (-(1280218562824241 * (2 : ℚ) ^ (-47 : Int))) := by
    have h := Double.ofExact_normal (-(658229233037869 * (2 : ℚ) ^ (-47 : Int)) + -(4975914638290977 * (2 : ℚ) ^ (-50 : Int)) : ℚ) (3) (-5120874251296964)
      (by rw [abs_of_neg (by norm_num)]; norm_num)
      (by rw [abs_of_neg (by norm_num)]; norm_num) (by norm_num)
      (Or.inr ⟨by rw [abs_eq (by norm_num)]; right; norm_num, by norm_num⟩)
      (by rw [abs_of_neg (by norm_num)]; norm_num)
    rw [h]
    exact congrArg Double.fin (by norm_num)
  have hp2 : Double.ofExact (-(2106333545721181 * (2 : ℚ) ^ (-52 : Int)) * 50) = Double.fin (-(6582292330378691 * (2 : ℚ) ^ (-48 : Int))) := by
    have h := Double.ofExact_normal (-(2106333545721181 * (2 : ℚ) ^ (-52 : Int)) * 50 : ℚ) (4) (-6582292330378691)
      (by rw [abs_of_neg (by norm_num)]; norm_num)
      (by rw [abs_of_neg (by norm_num)]; norm_num) (by norm_num)
      (Or.inl (by rw [abs_lt]; constructor <;> norm_num))
      (by rw [abs_of_neg (by norm_num)]; norm_num)
    rw [h]
    exact congrArg Double.fin (by norm_num)
  have hq2 : Double.ofExact (-(7961463421265563 * (2 : ℚ) ^ (-53 : Int)) * 40) = Double.fin (-(4975914638290977 * (2 : ℚ) ^ (-47 : Int))) := by
    have h := Double.ofExact_normal (-(7961463421265563 * (2 : ℚ) ^ (-53 : Int)) * 40 : ℚ) (5) (-4975914638290977)
      (by rw [abs_of_neg (by norm_num)]; norm_num)
      (by rw [abs_of_neg (by norm_num)]; norm_num) (by norm_num)
      (Or.inl (by rw [abs_lt]; constructor <;> norm_num))
      (by rw [abs_of_neg (by norm_num)]; norm_num)
    rw [h]
    exact congrArg Double.fin (by norm_num)
  have hs2 : Double.ofExact (-(6582292330378691 * (2 : ℚ) ^ (-48 : Int)) + -(4975914638290977 * (2 : ℚ) ^ (-47 : Int))) = Double.fin (-(4133530401740161 * (2 : ℚ) ^ (-46 : Int))) := by
    have h := Double.ofExact_normal (-(6582292330378691 * (2 : ℚ) ^ (-48 : Int)) + -(4975914638290977 * (2 : ℚ) ^ (-47 : Int)) : ℚ) (5) (-8267060803480322)
      (by rw [abs_of_neg (by norm_num)]; norm_num)
      (by rw [abs_of_neg (by norm_num)]; norm_num) (by norm_num)
      (Or.inr ⟨by rw [abs_eq (by norm_num)]; right; norm_num, by norm_num⟩)
      (by rw [abs_of_neg (by norm_num)]; norm_num)
    rw [h]
    exact congrArg Double.fin (by norm_num)
  have hp3 : Double.ofExact (-(2106333545721181 * (2 : ℚ) ^ (-52 : Int)) * 80) = Double.fin (-(658229233037869 * (2 : ℚ) ^ (-44 : Int))) := by
    have h := Double.ofExact_normal (-(2106333545721181 * (2 : ℚ) ^ (-52 : Int)) * 80 : ℚ) (5) (-5265833864302952)
      (by rw [abs_of_neg (by norm_num)]; norm_num)
      (by rw [abs_of_neg (by norm_num)]; norm_num) (by norm_num)
      (Or.inr ⟨by rw [abs_eq (by norm_num)]; right; norm_num, by norm_num⟩)
      (by rw [abs_of_neg (by norm_num)]; norm_num)
    rw [h]
    exact congrArg Double.fin (by norm_num)
  have hq3 : Double.ofExact (-(7961463421265563 * (2 : ℚ) ^ (-53 : Int)) * 10) = Double.fin (-(4975914638290977 * (2 : ℚ) ^ (-49 : Int))) := by
    have h := Double.ofExact_normal (-(7961463421265563 * (2 : ℚ) ^ (-53 : Int)) * 10 : ℚ) (3) (-4975914638290977)
      (by rw [abs_of_neg (by norm_num)]; norm_num)
      (by rw [abs_of_neg (by norm_num)]; norm_num) (by norm_num)
      (Or.inl (by rw [abs_lt]; constructor <;> norm_num))
      (by rw [abs_of_neg (by norm_num)]; norm_num)
    rw [h]
    exact congrArg Double.fin (by norm_num)
  have hs3 : Double.ofExact (-(658229233037869 * (2 : ℚ) ^ (-44 : Int)) + -(4975914638290977 * (2 : ℚ) ^ (-49 : Int))) = Double.fin (-(406863282742231 * (2 : ℚ) ^ (-43 : Int))) := by
    have h := Double.ofExact_normal (-(658229233037869 * (2 : ℚ) ^ (-44 : Int)) + -(4975914638290977 * (2 : ℚ) ^ (-49 : Int)) : ℚ) (5) (-6509812523875696)
      (by rw [abs_of_neg (by norm_num)]; norm_num)
      (by rw [abs_of_neg (by norm_num)]; norm_num) (by norm_num)
      (Or.inl (by rw [abs_lt]; constructor <;> norm_num))
      (by rw [abs_of_neg (by norm_num)]; norm_num)
    rw [h]
    exact congrArg Double.fin (by norm_num)
  have h1 : projectionEntry (Dbl.num (-0.4677 : ℚ)) (Dbl.num (-0.8839)) (Dbl.num 10)
      (Dbl.num 5) = Dbl.num (-9.0965) := by
    rw [projectionEntry_num]; norm_num
  have h2 : projectionEntry (Dbl.num (-0.4677 : ℚ)) (Dbl.num (-0.8839)) (Dbl.num 50)
      (Dbl.num 40) = Dbl.num (-58.741) := by
    rw [projectionEntry_num]; norm_num
  have h3 : projectionEntry (Dbl.num (-0.4677 : ℚ)) (Dbl.num (-0.8839)) (Dbl.num 80)
      (Dbl.num 10) = Dbl.num (-46.255) := by
    rw [projectionEntry_num]; norm_num
  refine ⟨?_, ?_, ?_, ?_, ?_, ?_, h1, h2, h3, ?_⟩
  · simp only [projectionDouble, hdW, haW, Double.mul, Double.add, hp1, hq1, hs1]
  · simp only [projectionDouble, hdW, haW, Double.mul, Double.add, hp2, hq2, hs2]
  · simp only [projectionDouble, hdW, haW, Double.mul, Double.add, hp3, hq3, hs3]
  · rw [abs_lt]; constructor <;> norm_num
  · rw [abs_lt]; constructor <;> norm_num
  · rw [abs_lt]; constructor <;> norm_num
  · simp only [projectionOf, h2]

/-- The label the loop body assigns depends on the distance and angle lists only. -/
theorem classifyEntry_label_congr (info info' i1 i1' : PARTICLEINFO α) (dW aW thr : Dbl α)
    (hd : info.distance = info'.distance) (ha : info.angle = info'.angle)
    (h : classifyEntry info dW aW thr = some i1) (h' : classifyEntry info' dW aW thr = some i1') :
    i1.cipType = i1'.cipType := by
  unfold classifyEntry at h h'
  rw [← hd, ← ha] at h'
  split at h
  · simp at h
  · rename_i p hp
    simp only [hp] at h'
    split at h
    · simp at h
    · rename_i t ht
      simp only [ht, Option.some.injEq] at h h'
      rw [← h, ← h']

/-- When every entry can be classified, the map returned is the map of the classified
entries, entry by entry. -/
theorem ClassifyParticles_entrywise {S : Type} (tpsVec : List S) (dW aW thr : Dbl α) :
    ∀ (m : InfoMap α), (∀ e ∈ m, ∃ i, classifyEntry e.2 dW aW thr = some i) →
      ∃ m1, ClassifyParticles m tpsVec dW aW thr = some m1 ∧
        List.Forall₂ (fun e e1 => e1.1 = e.1 ∧ classifyEntry e.2 dW aW thr = some e1.2) m m1
  | [], _ => ⟨[], rfl, List.Forall₂.nil⟩
  | (k0, info0) :: rest, h => by
    obtain ⟨i0, hi0⟩ := h (k0, info0) (by simp)
    obtain ⟨r1, hr1, hf⟩ := ClassifyParticles_entrywise tpsVec dW aW thr rest
      (fun e he => h e (by simp [he]))
    exact ⟨(k0, i0) :: r1, by simp [ClassifyParticles, hi0, hr1],
      List.Forall₂.cons ⟨rfl, hi0⟩ hf⟩

theorem entrywise_frame (dW aW thr : Dbl α) :
    ∀ (m m1 : InfoMap α),
      List.Forall₂ (fun e e1 => e1.1 = e.1 ∧ classifyEntry e.2 dW aW thr = some e1.2) m m1 →
      m1.map Prod.fst = m.map Prod.fst ∧
        m1.map (fun e => e.2.distance) = m.map (fun e => e.2.distance) ∧
        m1.map (fun e => e.2.angle) = m.map (fun e => e.2.angle) ∧
        ∀ e1 ∈ m1, ∃ t, e1.2.cipType = some t
  | [], _, h => by
    cases h
    simp
  | e :: m, _, h => by
    cases h with
    | cons hhead htail =>
      obtain ⟨h1, h2, h3, h4⟩ := entrywise_frame dW aW thr m _ htail
      obtain ⟨hd, ha, t, ht⟩ := classifyEntry_frame _ _ _ _ _ hhead.2
      refine ⟨by simp [h1, hhead.1], by simp [h2, hd], by simp [h3, ha], ?_⟩
      intro e1 he1
      rcases List.mem_cons.mp he1 with h | h
      · exact ⟨t, by rw [h]; exact ht⟩
      · exact h4 e1 h

end ClassifyClaims2

end CIP

namespace CIP

section ClassifyClaims3

variable {α : Type} [LinearOrderedField α]

/-- Claim C14 (per-particle independence).  Classifying a map is classifying each entry by
itself with the loop body, and the label of a particle depends on its own distance and angle
lists, the weights and the threshold only: two maps that agree on these for index `i` give
`i` the same label, whatever their other entries, the label `i` had before and the surface
lists passed. -/
theorem ClassifyParticles_independent {S S1 : Type} (m n : InfoMap α) (tpsVec : List S)
    (tpsVec1 : List S1) (dW aW thr : Dbl α)
    (hm : ∀ e ∈ m, 1 ≤ e.2.distance.length ∧ e.2.distance.length ≤ e.2.angle.length)
    (hn : ∀ e ∈ n, 1 ≤ e.2.distance.length ∧ e.2.distance.length ≤ e.2.angle.length) :
    ∃ m1 n1, ClassifyParticles m tpsVec dW aW thr = some m1 ∧
      ClassifyParticles n tpsVec1 dW aW thr = some n1 ∧
      List.Forall₂ (fun e e1 => e1.1 = e.1 ∧ classifyEntry e.2 dW aW thr = some e1.2) m m1 ∧
      ∀ i info info1, m.lookup i = some info → n.lookup i = some info1 →
        info.distance = info1.distance → info.angle = info1.angle →
        ∃ t, (m1.lookup i).bind (fun x => x.cipType) = some t ∧
          (n1.lookup i).bind (fun x => x.cipType) = some t := by
  have hm' : ∀ e ∈ m, ∃ i, classifyEntry e.2 dW aW thr = some i :=
    fun e he => classifyEntry_isSome e.2 dW aW thr (hm e he).1 (hm e he).2
  have hn' : ∀ e ∈ n, ∃ i, classifyEntry e.2 dW aW thr = some i :=
    fun e he => classifyEntry_isSome e.2 dW aW thr (hn e he).1 (hn e he).2
  obtain ⟨m1, hm1, hf⟩ := ClassifyParticles_entrywise tpsVec dW aW thr m hm'
  obtain ⟨m2, hm2, hlm⟩ := ClassifyParticles_lookup tpsVec dW aW thr m hm'
  obtain ⟨n1, hn1, hln⟩ := ClassifyParticles_lookup tpsVec1 dW aW thr n hn'
  rw [hm1] at hm2
  cases hm2
  refine ⟨m1, n1, hm1, hn1, hf, ?_⟩
  intro i info info1 hi hi1 hd ha
  obtain ⟨x, hx, hlx⟩ := hlm i info hi
  obtain ⟨y, hy, hly⟩ := hln i info1 hi1
  obtain ⟨_, _, t, ht⟩ := classifyEntry_frame info x dW aW thr hx
  have hxy := classifyEntry_label_congr info info1 x y dW aW thr hd ha hx hy
  exact ⟨t, by simp [hlx, ht], by simp [hly, ← hxy, ht]⟩

/-- Claim C15 (classification frame).  `ClassifyParticles` changes only the labels: the keys
of the map, in order, and the distance and angle lists of every entry are the same before
and after; no entry is added or deleted, and every entry has a label afterwards. -/
theorem ClassifyParticles_frame {S : Type} (m : InfoMap α) (tpsVec : List S)
    (dW aW thr : Dbl α)
    (hm : ∀ e ∈ m, 1 ≤ e.2.distance.length ∧ e.2.distance.length ≤ e.2.angle.length) :
    ∃ m1, ClassifyParticles m tpsVec dW aW thr = some m1 ∧
      m1.length = m.length ∧
      m1.map Prod.fst = m.map Prod.fst ∧
      m1.map (fun e => e.2.distance) = m.map (fun e => e.2.distance) ∧
      m1.map (fun e => e.2.angle) = m.map (fun e => e.2.angle) ∧
      ∀ e1 ∈ m1, ∃ t, e1.2.cipType = some t := by
  obtain ⟨m1, hm1, hf⟩ := ClassifyParticles_entrywise tpsVec dW aW thr m
    (fun e he => classifyEntry_isSome e.2 dW aW thr (hm e he).1 (hm e he).2)
  obtain ⟨h1, h2, h3, h4⟩ := entrywise_frame dW aW thr m m1 hf
  refine ⟨m1, hm1, ?_, h1, h2, h3, h4⟩
  have := congrArg List.length h1
  simpa using this

end ClassifyClaims3

theorem scenarioLeft_inRange :
    ∀ e ∈ scenarioLeft, 1 ≤ e.2.distance.length ∧ e.2.distance.length ≤ e.2.angle.length := by
  simp [scenarioLeft]

theorem scenarioOther_inRange :
    ∀ e ∈ scenarioOther, 1 ≤ e.2.distance.length ∧ e.2.distance.length ≤ e.2.angle.length := by
  simp [scenarioOther]

/-- Claim C14 on the left-lung scenario and a map that shares only the pair of particle 0,
with different surface lists. -/
theorem ClassifyParticles_independent_witness :
    (∀ e ∈ scenarioLeft, 1 ≤ e.2.distance.length ∧ e.2.distance.length ≤ e.2.angle.length) ∧
    (∀ e ∈ scenarioOther, 1 ≤ e.2.distance.length ∧ e.2.distance.length ≤ e.2.angle.length) ∧
    ∃ m1 n1, ClassifyParticles scenarioLeft ([] : List Unit) (Dbl.num (-0.4677))
        (Dbl.num (-0.8839)) (Dbl.num (-30)) = some m1 ∧
      ClassifyParticles scenarioOther [true, false] (Dbl.num (-0.4677))
        (Dbl.num (-0.8839)) (Dbl.num (-30)) = some n1 ∧
      List.Forall₂ (fun e e1 => e1.1 = e.1 ∧
        classifyEntry e.2 (Dbl.num (-0.4677)) (Dbl.num (-0.8839)) (Dbl.num (-30)) = some e1.2)
        scenarioLeft m1 ∧
      ∀ i info info1, scenarioLeft.lookup i = some info → scenarioOther.lookup i = some info1 →
        info.distance = info1.distance → info.angle = info1.angle →
        ∃ t, (m1.lookup i).bind (fun x => x.cipType) = some t ∧
          (n1.lookup i).bind (fun x => x.cipType) = some t :=
  ⟨scenarioLeft_inRange, scenarioOther_inRange,
    ClassifyParticles_independent scenarioLeft scenarioOther ([] : List Unit) [true, false]
      (Dbl.num (-0.4677)) (Dbl.num (-0.8839)) (Dbl.num (-30))
      scenarioLeft_inRange scenarioOther_inRange⟩

/-- Claim C15 on the left-lung scenario. -/
theorem ClassifyParticles_frame_witness :
    (∀ e ∈ scenarioLeft, 1 ≤ e.2.distance.length ∧ e.2.distance.length ≤ e.2.angle.length) ∧
    ∃ m1, ClassifyParticles scenarioLeft ([] : List Unit) (Dbl.num (-0.4677))
        (Dbl.num (-0.8839)) (Dbl.num (-30)) = some m1 ∧
      m1.length = scenarioLeft.length ∧
      m1.map Prod.fst = scenarioLeft.map Prod.fst ∧
      m1.map (fun e => e.2.distance) = scenarioLeft.map (fun e => e.2.distance) ∧
      m1.map (fun e => e.2.angle) = scenarioLeft.map (fun e => e.2.angle) ∧
      ∀ e1 ∈ m1, ∃ t, e1.2.cipType = some t :=
  ⟨scenarioLeft_inRange,
    ClassifyParticles_frame scenarioLeft ([] : List Unit) (Dbl.num (-0.4677))
      (Dbl.num (-0.8839)) (Dbl.num (-30)) scenarioLeft_inRange⟩

end CIP

/-! ## The measurement of one particle -/

namespace CIP

noncomputable section MeasureClaims

/-- Claim C16, as stated, fails for a particle whose orientation is the zero vector: the
optimal value (9) is not negative and the distance is 3, but the angle is not a number. -/
theorem GetParticleDistanceAndAngle_zero_orientation :
    0 ≤ planeOptimizer.GetOptimalValue (planeSurface 0) ![0, 0, 3] ![0, 0] ∧
      GetParticleDistanceAndAngle referenceLibrary planeOptimizer scenarioZeroOrientation 0
        (planeSurface 0) = some (Dbl.num 3, Dbl.nan) ∧
      ¬ ∃ d a : ℝ, GetParticleDistanceAndAngle referenceLibrary planeOptimizer
        scenarioZeroOrientation 0 (planeSurface 0) = some (Dbl.num d, Dbl.num a) ∧
          0 ≤ d ∧ 0 ≤ a ∧ a ≤ 90 := by
  have hv : planeOptimizer.GetOptimalValue (planeSurface 0) ![0, 0, 3] ![0, 0] = 3 ^ 2 := by
    simp [planeOptimizer, planeSurface]
  have hs : Real.sqrt ((3 : ℝ) ^ 2) = 3 := Real.sqrt_sq (by norm_num)
  have hg : GetParticleDistanceAndAngle referenceLibrary planeOptimizer scenarioZeroOrientation 0
      (planeSurface 0) = some (Dbl.num 3, Dbl.nan) := by
    have ha : scenarioZeroOrientation.GetArray "hevec2" = some ⟨"hevec2", 3, [[0, 0, 0]]⟩ := by
      simp [PolyData.GetArray, scenarioZeroOrientation, List.find?]
    have hp : scenarioZeroOrientation.GetPoint 0 = some ![0, 0, 3] := rfl
    have hs0 : Double.sqrt (Double.fin 0) = Double.fin 0 := by
      rw [Double.sqrt_fin _ (le_refl _), Real.sqrt_zero, Double.ofExact_zero]
    have hs1 : Double.sqrt (Double.fin 1) = Double.fin 1 := by
      rw [Double.sqrt_fin _ (by norm_num), Real.sqrt_one, Double.ofExact_one]
    have hang : GetAngleBetweenVectors referenceLibrary ![0, 0, 1] ![0, 0, 0] true =
        Double.nan := by
      simp [GetAngleBetweenVectors, GetVectorMagnitude, referenceLibrary, Double.ofExact_zero,
        Double.ofExact_one, Double.add_fin, Double.mul_fin, hs0, hs1, Double.div, Double.abs,
        Double.gt, Double.acos, Double.mul]
    simp only [GetParticleDistanceAndAngle, hp, ha, FieldArray.GetTuple, List.getElem?_cons_zero]
    have hv' : planeOptimizer.GetOptimalValue (planeSurface 0) ![0, 0, 3]
        ![(![0, 0, 3] : Fin 3 → ℝ) 0, (![0, 0, 3] : Fin 3 → ℝ) 1] = 3 ^ 2 := by
      simp [planeOptimizer, planeSurface]
    have hn : (planeSurface 0).GetSurfaceNormal
        (planeOptimizer.GetOptimalParameters (planeSurface 0) ![0, 0, 3]
          ![(![0, 0, 3] : Fin 3 → ℝ) 0, (![0, 0, 3] : Fin 3 → ℝ) 1] 0)
        (planeOptimizer.GetOptimalParameters (planeSurface 0) ![0, 0, 3]
          ![(![0, 0, 3] : Fin 3 → ℝ) 0, (![0, 0, 3] : Fin 3 → ℝ) 1] 1) = ![0, 0, 1] := rfl
    rw [hv', hn, hang]
    simp [Dbl.sqrt, hs, Double.toDbl]
  refine ⟨by rw [hv]; norm_num, hg, ?_⟩
  rintro ⟨d, a, h, _⟩
  rw [hg] at h
  cases h

/-- Claim C16, amended.  `GetParticleDistanceAndAngle` starts the optimizer at the particle's
own (x, y) and returns the square root of the optimal value and the angle in degrees between
the surface normal at the optimal parameters and the stored orientation; when the optimal
value is not negative, the distance is a number `>= 0`, and the angle is either not a number
or a number of [0, 90] (with an `acos` that returns values of [0, π]). -/
theorem GetParticleDistanceAndAngle_spec (libm : MathLibrary) (h : libm.Conforming)
    (newtonOptimizer : cipNewtonOptimizer)
    (particles : PolyData ℝ) (i : Nat) (tps : cipThinPlateSplineSurface)
    (position : Fin 3 → ℝ) (hevec2 : FieldArray ℝ) (o0 o1 o2 : ℝ) (rest : List ℝ)
    (hp : particles.GetPoint i = some position)
    (ha : particles.GetArray "hevec2" = some hevec2)
    (ht : hevec2.GetTuple i = some (o0 :: o1 :: o2 :: rest)) :
    GetParticleDistanceAndAngle libm newtonOptimizer particles i tps =
        some (Dbl.sqrt (newtonOptimizer.GetOptimalValue tps position ![position 0, position 1]),
          (GetAngleBetweenVectors libm
            (tps.GetSurfaceNormal
              (newtonOptimizer.GetOptimalParameters tps position ![position 0, position 1] 0)
              (newtonOptimizer.GetOptimalParameters tps position ![position 0, position 1] 1))
            ![o0, o1, o2] true).toDbl) ∧
      (0 ≤ newtonOptimizer.GetOptimalValue tps position ![position 0, position 1] →
        ∃ (d : ℝ) (angle : Dbl ℝ),
          GetParticleDistanceAndAngle libm newtonOptimizer particles i tps =
            some (Dbl.num d, angle) ∧
          d = Real.sqrt (newtonOptimizer.GetOptimalValue tps position
            ![position 0, position 1]) ∧
          0 ≤ d ∧
          (angle = Dbl.nan ∨ ∃ a : ℝ, angle = Dbl.num a ∧ 0 ≤ a ∧ a ≤ 90)) := by
  have hg : GetParticleDistanceAndAngle libm newtonOptimizer particles i tps =
      some (Dbl.sqrt (newtonOptimizer.GetOptimalValue tps position ![position 0, position 1]),
        (GetAngleBetweenVectors libm
          (tps.GetSurfaceNormal
            (newtonOptimizer.GetOptimalParameters tps position ![position 0, position 1] 0)
            (newtonOptimizer.GetOptimalParameters tps position ![position 0, position 1] 1))
          ![o0, o1, o2] true).toDbl) := by
    simp only [GetParticleDistanceAndAngle, hp, ha, ht]
  refine ⟨hg, ?_⟩
  intro hv
  refine ⟨Real.sqrt (newtonOptimizer.GetOptimalValue tps position ![position 0, position 1]),
    (GetAngleBetweenVectors libm
      (tps.GetSurfaceNormal
        (newtonOptimizer.GetOptimalParameters tps position ![position 0, position 1] 0)
        (newtonOptimizer.GetOptimalParameters tps position ![position 0, position 1] 1))
      ![o0, o1, o2] true).toDbl, ?_, rfl, Real.sqrt_nonneg _, ?_⟩
  · rw [hg, Dbl.sqrt, if_neg (not_lt.mpr hv)]
  · rcases GetAngleBetweenVectors_mem libm h
      (tps.GetSurfaceNormal
        (newtonOptimizer.GetOptimalParameters tps position ![position 0, position 1] 0)
        (newtonOptimizer.GetOptimalParameters tps position ![position 0, position 1] 1))
      ![o0, o1, o2] with hn | ⟨a, hang, h0, h90⟩
    · left
      rw [hn]
      rfl
    · right
      exact ⟨a, by rw [hang]; rfl, h0, h90⟩

/-- Claim C16 (amended) on particle 0 of the two-particle scenario and the plane at height 0,
with correctly rounded `pow` and `acos`. -/
theorem GetParticleDistanceAndAngle_spec_witness :
    referenceLibrary.Conforming ∧
    scenarioParticles.GetPoint 0 = some ![0, 0, 3] ∧
    scenarioParticles.GetArray "hevec2" = some ⟨"hevec2", 3, [[0, 0, 1], [1, 0, 0]]⟩ ∧
    (⟨"hevec2", 3, [[0, 0, 1], [1, 0, 0]]⟩ : FieldArray ℝ).GetTuple 0 = some [0, 0, 1] ∧
    0 ≤ planeOptimizer.GetOptimalValue (planeSurface 0) ![0, 0, 3]
      ![(![0, 0, 3] : Fin 3 → ℝ) 0, (![0, 0, 3] : Fin 3 → ℝ) 1] ∧
    ∃ (d : ℝ) (angle : Dbl ℝ),
      GetParticleDistanceAndAngle referenceLibrary planeOptimizer scenarioParticles 0
        (planeSurface 0) = some (Dbl.num d, angle) ∧
      d = Real.sqrt (planeOptimizer.GetOptimalValue (planeSurface 0) ![0, 0, 3]
        ![(![0, 0, 3] : Fin 3 → ℝ) 0, (![0, 0, 3] : Fin 3 → ℝ) 1]) ∧
      0 ≤ d ∧ (angle = Dbl.nan ∨ ∃ a : ℝ, angle = Dbl.num a ∧ 0 ≤ a ∧ a ≤ 90) := by
  have hp : scenarioParticles.GetPoint 0 = some ![0, 0, 3] := rfl
  have ha : scenarioParticles.GetArray "hevec2" =
      some ⟨"hevec2", 3, [[0, 0, 1], [1, 0, 0]]⟩ := by
    simp [PolyData.GetArray, scenarioParticles, List.find?]
  have ht : (⟨"hevec2", 3, [[0, 0, 1], [1, 0, 0]]⟩ : FieldArray ℝ).GetTuple 0 =
      some [0, 0, 1] := rfl
  have hv : 0 ≤ planeOptimizer.GetOptimalValue (planeSurface 0) ![0, 0, 3]
      ![(![0, 0, 3] : Fin 3 → ℝ) 0, (![0, 0, 3] : Fin 3 → ℝ) 1] := by
    simp only [planeOptimizer]
    positivity
  exact ⟨referenceLibrary_conforming, hp, ha, ht, hv,
    (GetParticleDistanceAndAngle_spec referenceLibrary referenceLibrary_conforming
      planeOptimizer scenarioParticles 0 (planeSurface 0) ![0, 0, 3] _ 0 0 1 [] hp ha ht).2 hv⟩

end MeasureClaims

end CIP

/-! ## The label-map assistant: left and right lung, thirds -/

namespace CIP

section AssistantClaims

/-- While the sum stays below `2^32`, the `unsigned int` accumulation of line 473 is the
sum. -/
theorem foldl_toUnsignedInt_eq_sum :
    ∀ (sizes : List Nat) (acc : Nat), acc + sizes.sum < 4294967296 →
      sizes.foldl (fun t s => toUnsignedInt (t + s)) acc = acc + sizes.sum
  | [], acc, _ => by simp
  | s :: sizes, acc, h => by
    have h1 : acc + s + sizes.sum < 4294967296 := by
      simp only [List.sum_cons] at h
      omega
    have h2 : toUnsignedInt (acc + s) = acc + s := by
      unfold toUnsignedInt
      exact Nat.mod_eq_of_lt (by omega)
    simp only [List.foldl_cons, h2, List.sum_cons]
    rw [foldl_toUnsignedInt_eq_sum sizes (acc + s) h1]
    omega

/-- The three ways `LabelLeftLungRightLung` returns. -/
theorem LabelLeftLungRightLung_cases (conventions : ChestConventions)
    (relabelFilter : LabelMapType → RelabelComponent) (indeterminate : Nat × Nat)
    (self : ACILAssistantBase) :
    ∃ labelled : ACILAssistantBase,
      LabelLeftLungRightLung conventions relabelFilter indeterminate self =
        if (relabelFilter (clearTypes conventions self.LabelMap)).GetNumberOfObjects < 2 then
          (false, { self with LabelMap := clearTypes conventions self.LabelMap })
        else if
          (relabelFilter (clearTypes conventions self.LabelMap)).sizeOfObjectsInPixels.foldl
              (fun t s => toUnsignedInt (t + s)) 0 ≠ 0 ∧
            (((relabelFilter (clearTypes conventions self.LabelMap)).sizeOfObjectsInPixels.getD
                1 0 : Nat) : ℚ) /
              (((relabelFilter (clearTypes conventions self.LabelMap)
                ).sizeOfObjectsInPixels.foldl (fun t s => toUnsignedInt (t + s)) 0 : Nat) : ℚ)
              < 0.3 then
          (false, { self with LabelMap := clearTypes conventions self.LabelMap })
        else (true, labelled) :=
  ⟨_, rfl⟩

/-- Claim C19 (separation test).  For every relabelling whose object sizes sum to less than
`2^32`, `LabelLeftLungRightLung` returns false exactly when there are fewer than 2 objects
or the second object (the second-largest, the relabeler sorting by decreasing size) holds
less than 30% of the total of the object sizes, and true in every other case; when it
returns false no LEFTLUNG/RIGHTLUNG label has been assigned: the label map is the one left by
the first loop. -/
theorem LabelLeftLungRightLung_separation (conventions : ChestConventions)
    (relabelFilter : LabelMapType → RelabelComponent) (indeterminate : Nat × Nat)
    (self : ACILAssistantBase)
    (hsum : (relabelFilter (clearTypes conventions self.LabelMap)).sizeOfObjectsInPixels.sum
      < 4294967296) :
    ((LabelLeftLungRightLung conventions relabelFilter indeterminate self).1 = false ↔
      (relabelFilter (clearTypes conventions self.LabelMap)).GetNumberOfObjects < 2 ∨
      (((relabelFilter (clearTypes conventions self.LabelMap)).sizeOfObjectsInPixels.getD 1 0
          : Nat) : ℚ) <
        0.3 * (((relabelFilter (clearTypes conventions self.LabelMap)).sizeOfObjectsInPixels.sum
          : Nat) : ℚ)) ∧
    ((LabelLeftLungRightLung conventions relabelFilter indeterminate self).1 = false →
      (LabelLeftLungRightLung conventions relabelFilter indeterminate self).2 =
        { self with LabelMap := clearTypes conventions self.LabelMap }) := by
  have htotal := foldl_toUnsignedInt_eq_sum
    (relabelFilter (clearTypes conventions self.LabelMap)).sizeOfObjectsInPixels 0
    (by simpa using hsum)
  rw [Nat.zero_add] at htotal
  generalize hr : relabelFilter (clearTypes conventions self.LabelMap) = r at hsum htotal
  have hcond : (r.sizeOfObjectsInPixels.sum ≠ 0 ∧
      ((r.sizeOfObjectsInPixels.getD 1 0 : Nat) : ℚ) / ((r.sizeOfObjectsInPixels.sum : Nat) : ℚ)
        < 0.3) ↔
      ((r.sizeOfObjectsInPixels.getD 1 0 : Nat) : ℚ) <
        0.3 * ((r.sizeOfObjectsInPixels.sum : Nat) : ℚ) := by
    by_cases h0 : r.sizeOfObjectsInPixels.sum = 0
    · simp only [h0, ne_eq, not_true_eq_false, false_and, Nat.cast_zero, mul_zero, false_iff,
        not_lt]
      exact Nat.cast_nonneg _
    · have hpos : (0 : ℚ) < ((r.sizeOfObjectsInPixels.sum : Nat) : ℚ) :=
        Nat.cast_pos.mpr (Nat.pos_of_ne_zero h0)
      rw [div_lt_iff₀ hpos]
      exact ⟨fun h => h.2, fun h => ⟨h0, h⟩⟩
  obtain ⟨labelled, hcases⟩ := LabelLeftLungRightLung_cases conventions relabelFilter
    indeterminate self
  rw [hcases, hr, htotal]
  by_cases hn : r.GetNumberOfObjects < 2
  · rw [if_pos hn]
    exact ⟨⟨fun _ => Or.inl hn, fun _ => rfl⟩, fun _ => rfl⟩
  · rw [if_neg hn]
    by_cases hc : ((r.sizeOfObjectsInPixels.getD 1 0 : Nat) : ℚ) <
        0.3 * ((r.sizeOfObjectsInPixels.sum : Nat) : ℚ)
    · rw [if_pos (hcond.mpr hc)]
      exact ⟨⟨fun _ => Or.inr hc, fun _ => rfl⟩, fun _ => rfl⟩
    · rw [if_neg (mt hcond.mp hc)]
      refine ⟨⟨fun h => ?_, fun h => ?_⟩, fun h => ?_⟩
      · cases h
      · rcases h with h | h
        · exact absurd h hn
        · exact absurd h hc
      · cases h

/-- Claim C19 on the two-lung scenario: two objects of one voxel each, the second holding
half of the total. -/
theorem LabelLeftLungRightLung_separation_witness :
    (scenarioRelabel (clearTypes scenarioConventions scenarioTwoLungs.LabelMap)
      ).sizeOfObjectsInPixels.sum < 4294967296 ∧
    ((LabelLeftLungRightLung scenarioConventions scenarioRelabel (0, 0) scenarioTwoLungs).1
        = false ↔
      (scenarioRelabel (clearTypes scenarioConventions scenarioTwoLungs.LabelMap)
        ).GetNumberOfObjects < 2 ∨
      (((scenarioRelabel (clearTypes scenarioConventions scenarioTwoLungs.LabelMap)
        ).sizeOfObjectsInPixels.getD 1 0 : Nat) : ℚ) <
        0.3 * (((scenarioRelabel (clearTypes scenarioConventions scenarioTwoLungs.LabelMap)
          ).sizeOfObjectsInPixels.sum : Nat) : ℚ)) ∧
    ((LabelLeftLungRightLung scenarioConventions scenarioRelabel (0, 0) scenarioTwoLungs).1
        = false →
      (LabelLeftLungRightLung scenarioConventions scenarioRelabel (0, 0) scenarioTwoLungs).2 =
        { scenarioTwoLungs with
          LabelMap := clearTypes scenarioConventions scenarioTwoLungs.LabelMap }) :=
  have h : (scenarioRelabel (clearTypes scenarioConventions scenarioTwoLungs.LabelMap)
      ).sizeOfObjectsInPixels.sum < 4294967296 := by
    simp [scenarioRelabel]
  ⟨h, LabelLeftLungRightLung_separation scenarioConventions scenarioRelabel (0, 0)
    scenarioTwoLungs h⟩

end AssistantClaims

end CIP

namespace CIP

section LeftRightLemmas

/-- A voxel of one of the two major components. -/
theorem extentLoop_small (relabeler : RelabelComponent) :
    ∀ (vs : List Voxel) (st : Nat × Nat × Nat × Nat),
      (∀ v ∈ vs, 0 ≤ v.index 0 ∧ v.index 0 < 4294967296) →
      ((extentLoop relabeler vs st).1 : Int) ≤ st.1 ∧
      (∀ v ∈ vs, relabeler.output v.index = 1 ∨ relabeler.output v.index = 2 →
        ((extentLoop relabeler vs st).1 : Int) ≤ v.index 0) ∧
      (((extentLoop relabeler vs st).1 = st.1 ∧
          (extentLoop relabeler vs st).2.2.1 = st.2.2.1) ∨
        ∃ w ∈ vs, (relabeler.output w.index = 1 ∨ relabeler.output w.index = 2) ∧
          w.index 0 = ((extentLoop relabeler vs st).1 : Int) ∧
          relabeler.output w.index = (extentLoop relabeler vs st).2.2.1)
  | [], st, _ => ⟨le_refl _, by simp, Or.inl ⟨rfl, rfl⟩⟩
  | v :: vs, (minX, maxX, small, large), h => by
    have hv := h v (by simp)
    have hvs : ∀ w ∈ vs, 0 ≤ w.index 0 ∧ w.index 0 < 4294967296 :=
      fun w hw => h w (by simp [hw])
    have hconv : ((indexToUnsignedInt (v.index 0) : Nat) : Int) = v.index 0 := by
      unfold indexToUnsignedInt
      rw [Int.emod_eq_of_lt hv.1 hv.2, Int.toNat_of_nonneg hv.1]
    by_cases hmajor : relabeler.output v.index = 1 ∨ relabeler.output v.index = 2
    · by_cases hlt : v.index 0 < (minX : Int)
      · obtain ⟨h1, h2, h3⟩ := extentLoop_small relabeler vs
          (indexToUnsignedInt (v.index 0),
            (if v.index 0 > (maxX : Int) then
              (indexToUnsignedInt (v.index 0), relabeler.output v.index)
              else (maxX, large)).1,
            relabeler.output v.index,
            (if v.index 0 > (maxX : Int) then
              (indexToUnsignedInt (v.index 0), relabeler.output v.index)
              else (maxX, large)).2) hvs
        simp only [extentLoop, hmajor, if_true, hlt]
        simp only [hconv] at h1
        refine ⟨by omega, ?_, ?_⟩
        · intro w hw hm
          rcases List.mem_cons.mp hw with hw | hw
          · rw [hw]
            exact h1
          · exact h2 w hw hm
        · right
          rcases h3 with ⟨h3a, h3b⟩ | ⟨w, hw, hm, hx, ho⟩
          · refine ⟨v, by simp, hmajor, ?_, ?_⟩
            · rw [h3a]
              exact hconv.symm
            · rw [h3b]
          · exact ⟨w, by simp [hw], hm, hx, ho⟩
      · obtain ⟨h1, h2, h3⟩ := extentLoop_small relabeler vs
          (minX,
            (if v.index 0 > (maxX : Int) then
              (indexToUnsignedInt (v.index 0), relabeler.output v.index)
              else (maxX, large)).1,
            small,
            (if v.index 0 > (maxX : Int) then
              (indexToUnsignedInt (v.index 0), relabeler.output v.index)
              else (maxX, large)).2) hvs
        simp only [extentLoop, hmajor, if_true, hlt, if_false]
        refine ⟨h1, ?_, ?_⟩
        · intro w hw hm
          rcases List.mem_cons.mp hw with hw | hw
          · rw [hw]
            simp only at h1
            omega
          · exact h2 w hw hm
        · rcases h3 with h3 | ⟨w, hw, hm, hx, ho⟩
          · exact Or.inl h3
          · exact Or.inr ⟨w, by simp [hw], hm, hx, ho⟩
    · obtain ⟨h1, h2, h3⟩ := extentLoop_small relabeler vs (minX, maxX, small, large) hvs
      simp only [extentLoop, hmajor, if_false]
      refine ⟨h1, ?_, ?_⟩
      · intro w hw hm
        rcases List.mem_cons.mp hw with hw | hw
        · rw [hw] at hm
          exact absurd hm hmajor
        · exact h2 w hw hm
      · rcases h3 with h3 | ⟨w, hw, hm, hx, ho⟩
        · exact Or.inl h3
        · exact Or.inr ⟨w, by simp [hw], hm, hx, ho⟩

theorem extentLoop_large (relabeler : RelabelComponent) :
    ∀ (vs : List Voxel) (st : Nat × Nat × Nat × Nat),
      (∀ v ∈ vs, 0 ≤ v.index 0 ∧ v.index 0 < 4294967296) →
      (st.2.1 : Int) ≤ ((extentLoop relabeler vs st).2.1 : Int) ∧
      (∀ v ∈ vs, relabeler.output v.index = 1 ∨ relabeler.output v.index = 2 →
        v.index 0 ≤ ((extentLoop relabeler vs st).2.1 : Int)) ∧
      (((extentLoop relabeler vs st).2.1 = st.2.1 ∧
          (extentLoop relabeler vs st).2.2.2 = st.2.2.2) ∨
        ∃ w ∈ vs, (relabeler.output w.index = 1 ∨ relabeler.output w.index = 2) ∧
          w.index 0 = ((extentLoop relabeler vs st).2.1 : Int) ∧
          relabeler.output w.index = (extentLoop relabeler vs st).2.2.2)
  | [], st, _ => ⟨le_refl _, by simp, Or.inl ⟨rfl, rfl⟩⟩
  | v :: vs, (minX, maxX, small, large), h => by
    have hv := h v (by simp)
    have hvs : ∀ w ∈ vs, 0 ≤ w.index 0 ∧ w.index 0 < 4294967296 :=
      fun w hw => h w (by simp [hw])
    have hconv : ((indexToUnsignedInt (v.index 0) : Nat) : Int) = v.index 0 := by
      unfold indexToUnsignedInt
      rw [Int.emod_eq_of_lt hv.1 hv.2, Int.toNat_of_nonneg hv.1]
    by_cases hmajor : relabeler.output v.index = 1 ∨ relabeler.output v.index = 2
    · by_cases hgt : v.index 0 > (maxX : Int)
      · obtain ⟨h1, h2, h3⟩ := extentLoop_large relabeler vs
          ((if v.index 0 < (minX : Int) then
              (indexToUnsignedInt (v.index 0), relabeler.output v.index)
              else (minX, small)).1,
            indexToUnsignedInt (v.index 0),
            (if v.index 0 < (minX : Int) then
              (indexToUnsignedInt (v.index 0), relabeler.output v.index)
              else (minX, small)).2,
            relabeler.output v.index) hvs
        simp only [extentLoop, hmajor, if_true, hgt]
        simp only [hconv] at h1
        refine ⟨by omega, ?_, ?_⟩
        · intro w hw hm
          rcases List.mem_cons.mp hw with hw | hw
          · rw [hw]
            exact h1
          · exact h2 w hw hm
        · right
          rcases h3 with ⟨h3a, h3b⟩ | ⟨w, hw, hm, hx, ho⟩
          · refine ⟨v, by simp, hmajor, ?_, ?_⟩
            · rw [h3a]
              exact hconv.symm
            · rw [h3b]
          · exact ⟨w, by simp [hw], hm, hx, ho⟩
      · obtain ⟨h1, h2, h3⟩ := extentLoop_large relabeler vs
          ((if v.index 0 < (minX : Int) then
              (indexToUnsignedInt (v.index 0), relabeler.output v.index)
              else (minX, small)).1,
            maxX,
            (if v.index 0 < (minX : Int) then
              (indexToUnsignedInt (v.index 0), relabeler.output v.index)
              else (minX, small)).2,
            large) hvs
        simp only [extentLoop, hmajor, if_true, hgt, if_false]
        refine ⟨h1, ?_, ?_⟩
        · intro w hw hm
          rcases List.mem_cons.mp hw with hw | hw
          · rw [hw]
            simp only at h1
            omega
          · exact h2 w hw hm
        · rcases h3 with h3 | ⟨w, hw, hm, hx, ho⟩
          · exact Or.inl h3
          · exact Or.inr ⟨w, by simp [hw], hm, hx, ho⟩
    · obtain ⟨h1, h2, h3⟩ := extentLoop_large relabeler vs (minX, maxX, small, large) hvs
      simp only [extentLoop, hmajor, if_false]
      refine ⟨h1, ?_, ?_⟩
      · intro w hw hm
        rcases List.mem_cons.mp hw with hw | hw
        · rw [hw] at hm
          exact absurd hm hmajor
        · exact h2 w hw hm
      · rcases h3 with h3 | ⟨w, hw, hm, hx, ho⟩
        · exact Or.inl h3
        · exact Or.inr ⟨w, by simp [hw], hm, hx, ho⟩

/-- The first loop keeps the index of every voxel. -/
theorem clearTypes_indices (conventions : ChestConventions) (labelMap : LabelMapType) :
    (clearTypes conventions labelMap).voxels.map (fun v => v.index) =
      labelMap.voxels.map (fun v => v.index) := by
  simp only [clearTypes, List.map_map]
  refine List.map_congr_left (fun v _ => ?_)
  simp only [Function.comp]
  split_ifs <;> rfl

theorem mem_clearTypes (conventions : ChestConventions) (labelMap : LabelMapType) (v : Voxel)
    (hv : v ∈ (clearTypes conventions labelMap).voxels) :
    ∃ u ∈ labelMap.voxels, u.index = v.index := by
  simp only [clearTypes, List.mem_map] at hv
  obtain ⟨u, hu, rfl⟩ := hv
  refine ⟨u, hu, ?_⟩
  split_ifs <;> rfl

end LeftRightLemmas

end CIP

namespace CIP

section LeftRightClaim

/-- Claim C18, amended (left and right for a supine head-first scan).  When
`LabelLeftLungRightLung` returns true on a scan set head-first and supine whose voxels lie
in the buffered region, and some voxel of a major component (relabel value 1 or 2) has a
positive x-index: there are a major voxel of smallest x-index and a major voxel of largest
x-index such that every voxel of the component of the first is labelled RIGHTLUNG, every
voxel of the component of the second (when the two components differ) is labelled LEFTLUNG,
and every other voxel keeps the value that the first loop gave it. -/
theorem LabelLeftLungRightLung_head_first_supine (conventions : ChestConventions)
    (relabelFilter : LabelMapType → RelabelComponent) (indeterminate : Nat × Nat)
    (self : ACILAssistantBase)
    (hHeadFirst : self.HeadFirst = true) (hSupine : self.Supine = true)
    (hsize : self.LabelMap.size 0 ≤ 4294967295)
    (hregion : ∀ v ∈ self.LabelMap.voxels,
      0 ≤ v.index 0 ∧ v.index 0 < (self.LabelMap.size 0 : Int))
    (hmajor : ∃ v ∈ self.LabelMap.voxels, 0 < v.index 0 ∧
      ((relabelFilter (clearTypes conventions self.LabelMap)).output v.index = 1 ∨
        (relabelFilter (clearTypes conventions self.LabelMap)).output v.index = 2))
    (htrue : (LabelLeftLungRightLung conventions relabelFilter indeterminate self).1 = true) :
    ∃ smallest largest : Voxel,
      smallest ∈ (clearTypes conventions self.LabelMap).voxels ∧
      largest ∈ (clearTypes conventions self.LabelMap).voxels ∧
      ((relabelFilter (clearTypes conventions self.LabelMap)).output smallest.index = 1 ∨
        (relabelFilter (clearTypes conventions self.LabelMap)).output smallest.index = 2) ∧
      ((relabelFilter (clearTypes conventions self.LabelMap)).output largest.index = 1 ∨
        (relabelFilter (clearTypes conventions self.LabelMap)).output largest.index = 2) ∧
      (∀ v ∈ (clearTypes conventions self.LabelMap).voxels,
        (relabelFilter (clearTypes conventions self.LabelMap)).output v.index = 1 ∨
          (relabelFilter (clearTypes conventions self.LabelMap)).output v.index = 2 →
        smallest.index 0 ≤ v.index 0 ∧ v.index 0 ≤ largest.index 0) ∧
      (LabelLeftLungRightLung conventions relabelFilter indeterminate self).2.LabelMap.voxels =
        (clearTypes conventions self.LabelMap).voxels.map (fun v =>
          if (relabelFilter (clearTypes conventions self.LabelMap)).output v.index =
              (relabelFilter (clearTypes conventions self.LabelMap)).output smallest.index then
            { v with value := conventions.RIGHTLUNG }
          else if (relabelFilter (clearTypes conventions self.LabelMap)).output v.index =
              (relabelFilter (clearTypes conventions self.LabelMap)).output largest.index then
            { v with value := conventions.LEFTLUNG }
          else v) := by
  have hrange : ∀ v ∈ (clearTypes conventions self.LabelMap).voxels,
      0 ≤ v.index 0 ∧ v.index 0 < 4294967296 := by
    intro v hv
    obtain ⟨u, hu, hidx⟩ := mem_clearTypes conventions self.LabelMap v hv
    have := hregion u hu
    rw [hidx] at this
    have hs : (self.LabelMap.size 0 : Int) ≤ 4294967295 := by exact_mod_cast hsize
    exact ⟨this.1, by omega⟩
  have hin : ∀ v ∈ (clearTypes conventions self.LabelMap).voxels,
      v.index 0 < ((clearTypes conventions self.LabelMap).size 0 : Int) := by
    intro v hv
    obtain ⟨u, hu, hidx⟩ := mem_clearTypes conventions self.LabelMap v hv
    have := hregion u hu
    rw [hidx] at this
    exact this.2
  obtain ⟨u, hu, hupos, humajor⟩ := hmajor
  obtain ⟨u1, hu1, hu1idx⟩ : ∃ u1 ∈ (clearTypes conventions self.LabelMap).voxels,
      u1.index = u.index := by
    simp only [clearTypes, List.mem_map]
    refine ⟨_, ⟨u, hu, rfl⟩, ?_⟩
    split_ifs <;> rfl
  rw [← hu1idx] at hupos humajor
  obtain ⟨_, hs2, hs3⟩ := extentLoop_small (relabelFilter (clearTypes conventions self.LabelMap))
    (clearTypes conventions self.LabelMap).voxels
    ((clearTypes conventions self.LabelMap).size 0, 0, indeterminate.1, indeterminate.2) hrange
  obtain ⟨_, hl2, hl3⟩ := extentLoop_large (relabelFilter (clearTypes conventions self.LabelMap))
    (clearTypes conventions self.LabelMap).voxels
    ((clearTypes conventions self.LabelMap).size 0, 0, indeterminate.1, indeterminate.2) hrange
  obtain ⟨ws, hws, hwsm, hwsx, hwso⟩ : ∃ w ∈ (clearTypes conventions self.LabelMap).voxels,
      ((relabelFilter (clearTypes conventions self.LabelMap)).output w.index = 1 ∨
        (relabelFilter (clearTypes conventions self.LabelMap)).output w.index = 2) ∧
      w.index 0 = ((extentLoop (relabelFilter (clearTypes conventions self.LabelMap))
        (clearTypes conventions self.LabelMap).voxels
        ((clearTypes conventions self.LabelMap).size 0, 0, indeterminate.1,
          indeterminate.2)).1 : Int) ∧
      (relabelFilter (clearTypes conventions self.LabelMap)).output w.index =
        (extentLoop (relabelFilter (clearTypes conventions self.LabelMap))
          (clearTypes conventions self.LabelMap).voxels
          ((clearTypes conventions self.LabelMap).size 0, 0, indeterminate.1,
            indeterminate.2)).2.2.1 := by
    rcases hs3 with ⟨h3a, _⟩ | h
    · have h1 := hs2 u1 hu1 humajor
      have h2 := hin u1 hu1
      simp only at h3a
      rw [h3a] at h1
      omega
    · exact h
  obtain ⟨wl, hwl, hwlm, hwlx, hwlo⟩ : ∃ w ∈ (clearTypes conventions self.LabelMap).voxels,
      ((relabelFilter (clearTypes conventions self.LabelMap)).output w.index = 1 ∨
        (relabelFilter (clearTypes conventions self.LabelMap)).output w.index = 2) ∧
      w.index 0 = ((extentLoop (relabelFilter (clearTypes conventions self.LabelMap))
        (clearTypes conventions self.LabelMap).voxels
        ((clearTypes conventions self.LabelMap).size 0, 0, indeterminate.1,
          indeterminate.2)).2.1 : Int) ∧
      (relabelFilter (clearTypes conventions self.LabelMap)).output w.index =
        (extentLoop (relabelFilter (clearTypes conventions self.LabelMap))
          (clearTypes conventions self.LabelMap).voxels
          ((clearTypes conventions self.LabelMap).size 0, 0, indeterminate.1,
            indeterminate.2)).2.2.2 := by
    rcases hl3 with ⟨h3a, _⟩ | h
    · have h1 := hl2 u1 hu1 humajor
      simp only at h3a
      rw [h3a] at h1
      simp only [Nat.cast_zero] at h1
      omega
    · exact h
  refine ⟨ws, wl, hws, hwl, hwsm, hwlm, ?_, ?_⟩
  · intro v hv hm
    rw [hwsx, hwlx]
    exact ⟨hs2 v hv hm, hl2 v hv hm⟩
  · rw [hwso, hwlo]
    unfold LabelLeftLungRightLung at htrue ⊢
    simp only [hHeadFirst, hSupine, Bool.and_self, Bool.true_or, if_true] at htrue ⊢
    split_ifs at htrue ⊢ with h1 h2
    simp only
    refine List.map_congr_left (fun v _ => ?_)
    split_ifs <;> rfl

end LeftRightClaim

end CIP

namespace CIP

section LeftRightEvaluations

/-- Claim C18, as stated, fails: on the head-first, supine scan of `scenarioSeparatedLungs`
the call returns true, and the major component that contains the voxel of smallest x-index
(component 1, at x-index 0) is labelled RIGHTLUNG, not LEFTLUNG; the other one (component 2,
at x-index 2) is labelled LEFTLUNG. -/
theorem LabelLeftLungRightLung_smallest_x_right :
    scenarioSeparatedLungs.HeadFirst = true ∧ scenarioSeparatedLungs.Supine = true ∧
    (LabelLeftLungRightLung scenarioConventions scenarioSeparatedRelabel (0, 0)
      scenarioSeparatedLungs).1 = true ∧
    (LabelLeftLungRightLung scenarioConventions scenarioSeparatedRelabel (0, 0)
        scenarioSeparatedLungs).2.LabelMap.voxels.map
        (fun v => (v.index 0,
          (scenarioSeparatedRelabel (clearTypes scenarioConventions
            scenarioSeparatedLungs.LabelMap)).output v.index, v.value)) =
      [(0, 1, scenarioConventions.RIGHTLUNG), (1, 0, 0), (2, 2, scenarioConventions.LEFTLUNG)] ∧
    scenarioConventions.RIGHTLUNG ≠ scenarioConventions.LEFTLUNG := by
  refine ⟨rfl, rfl, ?_, ?_, by decide⟩
  · norm_num [LabelLeftLungRightLung, clearTypes, scenarioSeparatedLungs,
      scenarioSeparatedRelabel, scenarioConventions, ACILAssistantBase.create,
      RelabelComponent.GetNumberOfObjects, toUnsignedInt]
  · norm_num [LabelLeftLungRightLung, clearTypes, scenarioSeparatedLungs,
      scenarioSeparatedRelabel, scenarioConventions, ACILAssistantBase.create,
      RelabelComponent.GetNumberOfObjects, toUnsignedInt, extentLoop, indexToUnsignedInt]

/-- Claim C18 (amended) on `scenarioSeparatedLungs`. -/
theorem LabelLeftLungRightLung_head_first_supine_witness :
    scenarioSeparatedLungs.HeadFirst = true ∧ scenarioSeparatedLungs.Supine = true ∧
    scenarioSeparatedLungs.LabelMap.size 0 ≤ 4294967295 ∧
    (∀ v ∈ scenarioSeparatedLungs.LabelMap.voxels,
      0 ≤ v.index 0 ∧ v.index 0 < (scenarioSeparatedLungs.LabelMap.size 0 : Int)) ∧
    (∃ v ∈ scenarioSeparatedLungs.LabelMap.voxels, 0 < v.index 0 ∧
      ((scenarioSeparatedRelabel (clearTypes scenarioConventions
          scenarioSeparatedLungs.LabelMap)).output v.index = 1 ∨
        (scenarioSeparatedRelabel (clearTypes scenarioConventions
          scenarioSeparatedLungs.LabelMap)).output v.index = 2)) ∧
    (LabelLeftLungRightLung scenarioConventions scenarioSeparatedRelabel (0, 0)
      scenarioSeparatedLungs).1 = true ∧
    ∃ smallest largest : Voxel,
      smallest ∈ (clearTypes scenarioConventions scenarioSeparatedLungs.LabelMap).voxels ∧
      largest ∈ (clearTypes scenarioConventions scenarioSeparatedLungs.LabelMap).voxels ∧
      ((scenarioSeparatedRelabel (clearTypes scenarioConventions
          scenarioSeparatedLungs.LabelMap)).output smallest.index = 1 ∨
        (scenarioSeparatedRelabel (clearTypes scenarioConventions
          scenarioSeparatedLungs.LabelMap)).output smallest.index = 2) ∧
      ((scenarioSeparatedRelabel (clearTypes scenarioConventions
          scenarioSeparatedLungs.LabelMap)).output largest.index = 1 ∨
        (scenarioSeparatedRelabel (clearTypes scenarioConventions
          scenarioSeparatedLungs.LabelMap)).output largest.index = 2) ∧
      (∀ v ∈ (clearTypes scenarioConventions scenarioSeparatedLungs.LabelMap).voxels,
        (scenarioSeparatedRelabel (clearTypes scenarioConventions
            scenarioSeparatedLungs.LabelMap)).output v.index = 1 ∨
          (scenarioSeparatedRelabel (clearTypes scenarioConventions
            scenarioSeparatedLungs.LabelMap)).output v.index = 2 →
        smallest.index 0 ≤ v.index 0 ∧ v.index 0 ≤ largest.index 0) ∧
      (LabelLeftLungRightLung scenarioConventions scenarioSeparatedRelabel (0, 0)
          scenarioSeparatedLungs).2.LabelMap.voxels =
        (clearTypes scenarioConventions scenarioSeparatedLungs.LabelMap).voxels.map (fun v =>
          if (scenarioSeparatedRelabel (clearTypes scenarioConventions
              scenarioSeparatedLungs.LabelMap)).output v.index =
              (scenarioSeparatedRelabel (clearTypes scenarioConventions
                scenarioSeparatedLungs.LabelMap)).output smallest.index then
            { v with value := scenarioConventions.RIGHTLUNG }
          else if (scenarioSeparatedRelabel (clearTypes scenarioConventions
              scenarioSeparatedLungs.LabelMap)).output v.index =
              (scenarioSeparatedRelabel (clearTypes scenarioConventions
                scenarioSeparatedLungs.LabelMap)).output largest.index then
            { v with value := scenarioConventions.LEFTLUNG }
          else v) := by
  have hsize : scenarioSeparatedLungs.LabelMap.size 0 ≤ 4294967295 := by
    simp [scenarioSeparatedLungs]
  have hregion : ∀ v ∈ scenarioSeparatedLungs.LabelMap.voxels,
      0 ≤ v.index 0 ∧ v.index 0 < (scenarioSeparatedLungs.LabelMap.size 0 : Int) := by
    simp [scenarioSeparatedLungs]
  have hmajor : ∃ v ∈ scenarioSeparatedLungs.LabelMap.voxels, 0 < v.index 0 ∧
      ((scenarioSeparatedRelabel (clearTypes scenarioConventions
          scenarioSeparatedLungs.LabelMap)).output v.index = 1 ∨
        (scenarioSeparatedRelabel (clearTypes scenarioConventions
          scenarioSeparatedLungs.LabelMap)).output v.index = 2) :=
    ⟨⟨![2, 0, 0], 1⟩, by simp [scenarioSeparatedLungs], by simp,
      by simp [scenarioSeparatedRelabel]⟩
  have htrue : (LabelLeftLungRightLung scenarioConventions scenarioSeparatedRelabel (0, 0)
      scenarioSeparatedLungs).1 = true := by
    norm_num [LabelLeftLungRightLung, clearTypes, scenarioSeparatedLungs,
      scenarioSeparatedRelabel, scenarioConventions, ACILAssistantBase.create,
      RelabelComponent.GetNumberOfObjects, toUnsignedInt]
  exact ⟨rfl, rfl, hsize, hregion, hmajor, htrue,
    LabelLeftLungRightLung_head_first_supine scenarioConventions scenarioSeparatedRelabel (0, 0)
      scenarioSeparatedLungs rfl rfl hsize hregion hmajor htrue⟩

end LeftRightEvaluations

end CIP

namespace CIP

section AssistantEvaluations

/-- Claim C20 at three non-zero voxels: the total is 3, a multiple of 3, yet no voxel is
put in the lower third, one in the middle third and two in the upper third. -/
theorem LabelLungThirds_three_voxels :
    countLoop scenarioThreeVoxels.LabelMap.voxels 0 = 3 ∧
    (LabelLungThirds scenarioConventions scenarioThreeVoxels).2.LabelMap.voxels.map
        (fun v => v.value) =
      [scenarioConventions.LEFTMIDDLETHIRD, scenarioConventions.LEFTUPPERTHIRD,
        scenarioConventions.LEFTUPPERTHIRD] := by
  have hcount : countLoop scenarioThreeVoxels.LabelMap.voxels 0 = 3 := by
    simp [countLoop, scenarioThreeVoxels, toUnsignedInt]
  refine ⟨hcount, ?_⟩
  simp only [LabelLungThirds, hcount]
  norm_num [thirdsLoop, scenarioThreeVoxels, scenarioConventions, toUnsignedInt]

end AssistantEvaluations

end CIP

/-! ## The pipeline: monotonicity, sign of the score, partition of the outputs -/

namespace CIP

section ThresholdLemmas

variable {α : Type} [LinearOrderedField α]

theorem Dbl.gt_threshold_mono (p : Dbl α) (t t' : α) (hle : t' ≤ t)
    (h : Dbl.gt p (Dbl.num t) = true) : Dbl.gt p (Dbl.num t') = true := by
  cases p with
  | nan => simp [Dbl.gt] at h
  | num x =>
    simp only [Dbl.gt, decide_eq_true_eq] at h ⊢
    exact lt_of_le_of_lt hle h

/-- Lowering the threshold keeps a fissure decision. -/
theorem decideType_threshold (p : List (Dbl α)) (t t' : α) (hle : t' ≤ t) (L1 : ChestType)
    (h : decideType p (Dbl.num t) = some L1) :
    ∃ L2, decideType p (Dbl.num t') = some L2 ∧ (L1 ≠ ChestType.UNDEFINEDTYPE → L2 = L1) := by
  match p, h with
  | [], h => simp [decideType] at h
  | [p0], h =>
    simp only [decideType, List.length_singleton, if_true] at h ⊢
    by_cases hg : Dbl.gt p0 (Dbl.num t) = true
    · rw [if_pos hg] at h
      rw [if_pos (Dbl.gt_threshold_mono p0 t t' hle hg)]
      exact ⟨_, rfl, fun _ => by cases h; rfl⟩
    · rw [if_neg hg] at h
      cases h
      split_ifs <;> exact ⟨_, rfl, fun hne => absurd rfl hne⟩
  | p0 :: p1 :: rest, h =>
    have hlen : ¬ ((p0 :: p1 :: rest).length = 1) := by simp
    simp only [decideType, if_neg hlen] at h ⊢
    by_cases hge : Dbl.ge p0 p1 = true
    · simp only [if_pos hge] at h ⊢
      by_cases hg : Dbl.gt p0 (Dbl.num t) = true
      · rw [if_pos hg] at h
        rw [if_pos (Dbl.gt_threshold_mono p0 t t' hle hg)]
        exact ⟨_, rfl, fun _ => by cases h; rfl⟩
      · rw [if_neg hg] at h
        cases h
        split_ifs <;> exact ⟨_, rfl, fun hne => absurd rfl hne⟩
    · simp only [if_neg hge] at h ⊢
      by_cases hg : Dbl.gt p1 (Dbl.num t) = true
      · rw [if_pos hg] at h
        rw [if_pos (Dbl.gt_threshold_mono p1 t t' hle hg)]
        exact ⟨_, rfl, fun _ => by cases h; rfl⟩
      · rw [if_neg hg] at h
        cases h
        split_ifs <;> exact ⟨_, rfl, fun hne => absurd rfl hne⟩

/-- Lowering the threshold keeps the fissure label of a classified entry. -/
theorem classifyEntry_threshold (info i1 : PARTICLEINFO α) (dW aW : Dbl α) (t t' : α)
    (hle : t' ≤ t) (h : classifyEntry info dW aW (Dbl.num t) = some i1) :
    ∃ i2 L1 L2, classifyEntry info dW aW (Dbl.num t') = some i2 ∧ i1.cipType = some L1 ∧
      i2.cipType = some L2 ∧ (L1 ≠ ChestType.UNDEFINEDTYPE → L2 = L1) := by
  unfold classifyEntry at h ⊢
  cases hp : projectionOf dW aW info.distance info.angle with
  | none => simp [hp] at h
  | some p =>
    simp only [hp] at h ⊢
    cases hd : decideType p (Dbl.num t) with
    | none => simp [hd] at h
    | some L1 =>
      simp only [hd, Option.some.injEq] at h
      obtain ⟨L2, hL2, hrel⟩ := decideType_threshold p t t' hle L1 hd
      simp only [hL2]
      exact ⟨_, L1, L2, rfl, by rw [← h], rfl, hrel⟩

end ThresholdLemmas

end CIP

namespace CIP

section ThresholdClaim

variable {α : Type} [LinearOrderedField α]

/-- Claim C27 (threshold monotonicity).  For fixed weights and a map whose entries can all be
indexed as the code does (one or two pairs in particular), `ClassifyParticles` returns a map
at the threshold `t` and at every threshold `t' ≤ t`; a particle that gets a fissure label
`L1` (Oblique or Horizontal) at `t` gets the same label at `t'`, so the label at the higher
threshold is the label at the lower one or Undefined. -/
theorem ClassifyParticles_threshold_monotone {S : Type} (m : InfoMap α) (tpsVec : List S)
    (dW aW : Dbl α) (t t' : α)
    (hwf : ∀ e ∈ m, 1 ≤ e.2.distance.length ∧ e.2.distance.length ≤ e.2.angle.length)
    (hle : t' ≤ t) :
    ∃ m1 m2, ClassifyParticles m tpsVec dW aW (Dbl.num t) = some m1 ∧
      ClassifyParticles m tpsVec dW aW (Dbl.num t') = some m2 ∧
      ∀ k info, m.lookup k = some info →
        ∃ L1 L2, (m1.lookup k).bind (fun x => x.cipType) = some L1 ∧
          (m2.lookup k).bind (fun x => x.cipType) = some L2 ∧
          (L1 ≠ ChestType.UNDEFINEDTYPE → L2 = L1) ∧
          (L1 = L2 ∨ L1 = ChestType.UNDEFINEDTYPE) := by
  obtain ⟨m1, hm1, hl1⟩ := ClassifyParticles_lookup tpsVec dW aW (Dbl.num t) m
    (fun e he => classifyEntry_isSome e.2 dW aW _ (hwf e he).1 (hwf e he).2)
  obtain ⟨m2, hm2, hl2⟩ := ClassifyParticles_lookup tpsVec dW aW (Dbl.num t') m
    (fun e he => classifyEntry_isSome e.2 dW aW _ (hwf e he).1 (hwf e he).2)
  refine ⟨m1, m2, hm1, hm2, ?_⟩
  intro k info hk
  obtain ⟨i1, hc1, hk1⟩ := hl1 k info hk
  obtain ⟨i2, hc2, hk2⟩ := hl2 k info hk
  obtain ⟨i2', L1, L2, hc2', hL1, hL2, hrel⟩ := classifyEntry_threshold info i1 dW aW t t' hle hc1
  rw [hc2] at hc2'
  cases hc2'
  refine ⟨L1, L2, by simp [hk1, hL1], by simp [hk2, hL2], hrel, ?_⟩
  by_cases hu : L1 = ChestType.UNDEFINEDTYPE
  · exact Or.inr hu
  · exact Or.inl (hrel hu).symm

/-- Claim C27 on the left-lung scenario, at the thresholds -30 and -40. -/
theorem ClassifyParticles_threshold_monotone_witness :
    ∃ m1 m2, ClassifyParticles scenarioLeft ([] : List Unit) (Dbl.num (-0.4677))
        (Dbl.num (-0.8839)) (Dbl.num (-30)) = some m1 ∧
      ClassifyParticles scenarioLeft ([] : List Unit) (Dbl.num (-0.4677))
        (Dbl.num (-0.8839)) (Dbl.num (-40)) = some m2 ∧
      ∀ k info, scenarioLeft.lookup k = some info →
        ∃ L1 L2, (m1.lookup k).bind (fun x => x.cipType) = some L1 ∧
          (m2.lookup k).bind (fun x => x.cipType) = some L2 ∧
          (L1 ≠ ChestType.UNDEFINEDTYPE → L2 = L1) ∧
          (L1 = L2 ∨ L1 = ChestType.UNDEFINEDTYPE) :=
  ClassifyParticles_threshold_monotone scenarioLeft [] _ _ (-30) (-40)
    (by simp [scenarioLeft]) (by norm_num)

end ThresholdClaim

end CIP

namespace CIP

section SignLemmas

variable {α : Type} [LinearOrderedField α]

end SignLemmas

end CIP

namespace CIP

section SignClaim

variable {α : Type} [LinearOrderedField α]

end SignClaim

end CIP

namespace CIP

section SignClaim2

variable {α : Type} [LinearOrderedField α]

end SignClaim2

end CIP

/-! ## The pipeline: indexing -/

namespace CIP

section IndexingLemmas

/-- A loop that completes has completed every one of its bodies. -/
theorem tallyLoop_body_isSome (body : Nat → Option (PARTICLEINFO ℝ)) :
    ∀ (is : List Nat) (m m1 : InfoMap ℝ), tallyLoop body is m = some m1 →
      ∀ i ∈ is, ∃ pInfo, body i = some pInfo
  | [], _, _, _ => by simp
  | j :: is, m, m1, h => by
    simp only [tallyLoop] at h
    cases hb : body j with
    | none => simp [hb] at h
    | some pInfo =>
      simp only [hb] at h
      intro i hi
      rcases List.mem_cons.mp hi with hij | hi'
      · exact ⟨pInfo, by rw [hij, hb]⟩
      · exact tallyLoop_body_isSome body is _ m1 h i hi'

/-- With one or two surfaces `TallyParticleInfo` is one loop over the point indices whose
body builds a record with as many angles as distances, one or two, and exactly one with a
single surface. -/
theorem TallyParticleInfo_body (libm : MathLibrary)
    (newtonOptimizer : cipNewtonOptimizer) (particles : PolyData ℝ)
    (tpsVec : List cipThinPlateSplineSurface) (hlen : tpsVec.length = 1 ∨ tpsVec.length = 2) :
    ∃ body : Nat → Option (PARTICLEINFO ℝ),
      (∀ m, TallyParticleInfo libm newtonOptimizer particles tpsVec m =
        tallyLoop body (List.range particles.GetNumberOfPoints) m) ∧
      (∀ i pInfo, body i = some pInfo →
        pInfo.distance.length = pInfo.angle.length ∧
          (pInfo.distance.length = 1 ∨ pInfo.distance.length = 2)) ∧
      (tpsVec.length = 1 → ∀ i pInfo, body i = some pInfo → pInfo.distance.length = 1) := by
  rcases hlen with h1 | h2
  · match tpsVec, h1 with
    | [tps], _ =>
      refine ⟨tallyLeft libm newtonOptimizer particles tps, fun m => by simp [TallyParticleInfo],
        tallyLeft_shape libm newtonOptimizer particles tps, ?_⟩
      intro _ i pInfo h
      unfold tallyLeft at h
      cases hg : GetParticleDistanceAndAngle libm newtonOptimizer particles i tps with
      | none => simp [hg] at h
      | some da =>
        simp only [hg, Option.some.injEq] at h
        subst h
        rfl
  · match tpsVec, h2 with
    | [ro, rh], _ =>
      exact ⟨tallyRight libm newtonOptimizer particles [ro, rh],
        fun m => by simp [TallyParticleInfo],
        tallyRight_shape libm newtonOptimizer particles [ro, rh], fun h => by simp at h⟩

/-- What a completed tally from the empty map holds: a record for every point index, each
with as many angles as distances, one or two, and exactly one with a single surface. -/
theorem TallyParticleInfo_of_some (libm : MathLibrary)
    (newtonOptimizer : cipNewtonOptimizer)
    (particles : PolyData ℝ) (tpsVec : List cipThinPlateSplineSurface)
    (hlen : tpsVec.length = 1 ∨ tpsVec.length = 2) (m0 : InfoMap ℝ)
    (h : TallyParticleInfo libm newtonOptimizer particles tpsVec [] = some m0) :
    (∀ i, i < particles.GetNumberOfPoints → ∃ info, m0.lookup i = some info ∧
      (tpsVec.length = 1 → info.distance.length = 1 ∧ info.angle.length = 1)) ∧
    ∀ e ∈ m0, e.2.distance.length = e.2.angle.length ∧
      (e.2.distance.length = 1 ∨ e.2.distance.length = 2) := by
  obtain ⟨body, hbody, hshape, hone⟩ := TallyParticleInfo_body libm newtonOptimizer particles tpsVec
    hlen
  rw [hbody] at h
  have hsome := tallyLoop_body_isSome body _ _ _ h
  obtain ⟨m1, hm1, hin, _⟩ := tallyLoop_lookup body _ [] hsome
  rw [h] at hm1
  cases hm1
  refine ⟨?_, tallyLoop_forall body _ hshape _ [] m0 (by simp) h⟩
  intro i hi
  obtain ⟨pInfo, hp⟩ := hsome i (List.mem_range.mpr hi)
  refine ⟨pInfo, by rw [hin i (List.mem_range.mpr hi), hp], ?_⟩
  intro h1
  have hd := hone h1 i pInfo hp
  exact ⟨hd, by rw [← (hshape i pInfo hp).1, hd]⟩

end IndexingLemmas

end CIP

namespace CIP

section IndexingClaim

/-- Claim C26 (indexing safety of the pipeline).  For every particle set and every list of one
or two surfaces: the tally from the empty map completes when the particles carry
orientations; each record of a completed tally has distance and angle lists of equal length,
1 or 2; so for all weights and threshold the projections of every record can be computed
(`distance[i]`, `angle[i]` in range) and are 1 or 2 in number (`projection[0]`,
`projection[1]` in range), `ClassifyParticles` returns a map, and every index below the
number of points is present in that map with an assigned label, which is what
`WriteParticlesToFile` looks up. -/
theorem pipeline_indexing_safe (libm : MathLibrary)
    (newtonOptimizer : cipNewtonOptimizer) (particles : PolyData ℝ)
    (tpsVec : List cipThinPlateSplineSurface) (dW aW thr : Dbl ℝ)
    (hlen : tpsVec.length = 1 ∨ tpsVec.length = 2) :
    (HasOrientations particles →
      ∃ m0, TallyParticleInfo libm newtonOptimizer particles tpsVec [] = some m0) ∧
    ∀ m0, TallyParticleInfo libm newtonOptimizer particles tpsVec [] = some m0 →
      (∀ e ∈ m0, e.2.distance.length = e.2.angle.length ∧
        (e.2.distance.length = 1 ∨ e.2.distance.length = 2)) ∧
      (∀ e ∈ m0, ∃ p, projectionOf dW aW e.2.distance e.2.angle = some p ∧
        (p.length = 1 ∨ p.length = 2) ∧ ∃ t, decideType p thr = some t) ∧
      ∃ m1, ClassifyParticles m0 tpsVec dW aW thr = some m1 ∧
        ∀ i, i < particles.GetNumberOfPoints →
          ∃ info t, m1.lookup i = some info ∧ info.cipType = some t := by
  refine ⟨fun hwf => ?_, fun m0 h => ?_⟩
  · obtain ⟨m0, hm0, _⟩ := TallyParticleInfo_ok libm newtonOptimizer particles tpsVec hlen hwf
    exact ⟨m0, hm0⟩
  · obtain ⟨hall, hshape⟩ := TallyParticleInfo_of_some libm newtonOptimizer particles tpsVec hlen
      m0 h
    refine ⟨hshape, ?_, ?_⟩
    · intro e he
      obtain ⟨p, hp, hl⟩ := projectionOf_length dW aW e.2.distance e.2.angle
        (le_of_eq (hshape e he).1)
      have h12 : p.length = 1 ∨ p.length = 2 := by
        rw [hl]
        exact (hshape e he).2
      exact ⟨p, hp, h12, decideType_isSome p thr (by rcases h12 with h | h <;> omega)⟩
    · obtain ⟨m1, hm1, hl⟩ := ClassifyParticles_lookup tpsVec dW aW thr m0
        (fun e he => classifyEntry_isSome e.2 _ _ _
          (by rcases (hshape e he).2 with h | h <;> omega) (le_of_eq (hshape e he).1))
      refine ⟨m1, hm1, ?_⟩
      intro i hi
      obtain ⟨info, hinfo, _⟩ := hall i hi
      obtain ⟨info1, hc, hlk⟩ := hl i info hinfo
      obtain ⟨_, _, t, ht⟩ := classifyEntry_frame info info1 _ _ _ hc
      exact ⟨info1, t, hlk, ht⟩

/-- Claim C26 on the two scenario particles, one horizontal plane and the default
parameters. -/
theorem pipeline_indexing_safe_witness :
    (HasOrientations scenarioParticles →
      ∃ m0, TallyParticleInfo referenceLibrary planeOptimizer scenarioParticles [planeSurface 0] [] = some m0) ∧
    ∀ m0, TallyParticleInfo referenceLibrary planeOptimizer scenarioParticles [planeSurface 0] [] = some m0 →
      (∀ e ∈ m0, e.2.distance.length = e.2.angle.length ∧
        (e.2.distance.length = 1 ∨ e.2.distance.length = 2)) ∧
      (∀ e ∈ m0, ∃ p, projectionOf (Dbl.num (-0.4677)) (Dbl.num (-0.8839)) e.2.distance
          e.2.angle = some p ∧
        (p.length = 1 ∨ p.length = 2) ∧ ∃ t, decideType p (Dbl.num (-30)) = some t) ∧
      ∃ m1, ClassifyParticles m0 [planeSurface 0] (Dbl.num (-0.4677)) (Dbl.num (-0.8839))
          (Dbl.num (-30)) = some m1 ∧
        ∀ i, i < scenarioParticles.GetNumberOfPoints →
          ∃ info t, m1.lookup i = some info ∧ info.cipType = some t :=
  pipeline_indexing_safe referenceLibrary planeOptimizer scenarioParticles [planeSurface 0] _ _ _ (Or.inl rfl)

end IndexingClaim

end CIP

/-! ## The pipeline: the outputs -/

namespace CIP

section PartitionLemmas

/-- A record with a single pair is never labelled Horizontal. -/
theorem classifyEntry_single_not_horizontal {α : Type} [LinearOrderedField α]
    (info info1 : PARTICLEINFO α) (dW aW thr : Dbl α)
    (hd : info.distance.length = 1) (ha : info.angle.length = 1)
    (h : classifyEntry info dW aW thr = some info1) :
    info1.cipType ≠ some ChestType.HORIZONTALFISSURE := by
  obtain ⟨distance, angle, c⟩ := info
  match distance, angle, hd, ha with
  | [d], [a], _, _ =>
    rw [classifyEntry_one] at h
    cases h
    simp only [ne_eq, Option.some.injEq]
    split_ifs <;> simp

theorem mem_matchingIndices {V α : Type} (particles : PolyData V) (m : InfoMap α)
    (L : ChestType) (i : Nat) :
    i ∈ matchingIndices particles m L ↔
      i < particles.GetNumberOfPoints ∧
        (m.lookup i).bind (fun info => info.cipType) = some L := by
  simp [matchingIndices, List.mem_filter]

/-- The files written by the three write blocks of `main`, in order. -/
theorem writeClassified_three (particles : PolyData ℝ) (m : InfoMap ℝ) (lo ro rh : String)
    (calls : List Call)
    (hlab : ∀ i, i < particles.GetNumberOfPoints →
      ∃ t, (m.lookup i).bind (fun info => info.cipType) = some t)
    (harr : HasAllTuples particles) :
    ∃ o1 o2 o3,
      writeClassified particles m lo ChestType.OBLIQUEFISSURE (calls, []) = some o1 ∧
      writeClassified particles m ro ChestType.OBLIQUEFISSURE o1 = some o2 ∧
      writeClassified particles m rh ChestType.HORIZONTALFISSURE o2 = some o3 ∧
      o3.2 =
        (if lo ≠ "NA" then
          [(lo, (OutputPartition_spec particles m ChestType.OBLIQUEFISSURE).narrowed)] else []) ++
        (if ro ≠ "NA" then
          [(ro, (OutputPartition_spec particles m ChestType.OBLIQUEFISSURE).narrowed)] else []) ++
        (if rh ≠ "NA" then
          [(rh, (OutputPartition_spec particles m ChestType.HORIZONTALFISSURE).narrowed)] else []) := by
  refine ⟨_, _, _, writeClassified_eq particles m lo _ _ hlab harr,
    writeClassified_eq particles m ro _ _ hlab harr,
    writeClassified_eq particles m rh _ _ hlab harr, ?_⟩
  by_cases h1 : lo = "NA" <;> by_cases h2 : ro = "NA" <;> by_cases h3 : rh = "NA" <;>
    simp [h1, h2, h3]

end PartitionLemmas

end CIP

namespace CIP

section PartitionClaim

/-- Claim C29 (the outputs partition the classified set).  On particles that carry
orientations and a tuple in every array, with one or two surfaces, the pipeline of `main`
completes, and with `m1` the classified map: every particle has one label; the files written
are, in order and for the names that are not `"NA"`, the Oblique partition under the
left-oblique name, the same Oblique partition under the right-oblique name, and the
Horizontal partition; every such file is the partition of its label; no index is both in
the Oblique and in the Horizontal partition; the indices in neither are exactly those
labelled Undefined; and with a single surface (left-lung mode) the Horizontal partition has
no index, no point and no tuple. -/
theorem outputs_partition (c : Collaborators) (particles : PolyData ℝ)
    (tpsVec : List cipThinPlateSplineSurface) (lo ro rh : String) (dW aW thr : ℝ)
    (hlen : tpsVec.length = 1 ∨ tpsVec.length = 2)
    (hwf : HasOrientations particles) (harr : HasAllTuples particles) :
    ∃ m0 m1 r, TallyParticleInfo c.mathLibrary c.newtonOptimizer particles tpsVec [] = some m0 ∧
      ClassifyParticles m0 tpsVec (Dbl.num dW) (Dbl.num aW) (Dbl.num thr) = some m1 ∧
      mainPipeline c particles tpsVec lo ro rh dW aW thr = some r ∧
      r.written =
        (if lo ≠ "NA" then
          [(lo, (OutputPartition_spec particles m1 ChestType.OBLIQUEFISSURE).narrowed)] else []) ++
        (if ro ≠ "NA" then
          [(ro, (OutputPartition_spec particles m1 ChestType.OBLIQUEFISSURE).narrowed)] else []) ++
        (if rh ≠ "NA" then
          [(rh, (OutputPartition_spec particles m1 ChestType.HORIZONTALFISSURE).narrowed)] else []) ∧
      (∀ (fileName : String) (L : ChestType),
        WriteParticlesToFile particles m1 fileName L =
          some (fileName, (OutputPartition_spec particles m1 L).narrowed)) ∧
      (∀ i, i < particles.GetNumberOfPoints →
        ∃ t, (m1.lookup i).bind (fun info => info.cipType) = some t) ∧
      (∀ i, ¬ (i ∈ matchingIndices particles m1 ChestType.OBLIQUEFISSURE ∧
        i ∈ matchingIndices particles m1 ChestType.HORIZONTALFISSURE)) ∧
      (∀ i, i < particles.GetNumberOfPoints →
        ((i ∉ matchingIndices particles m1 ChestType.OBLIQUEFISSURE ∧
          i ∉ matchingIndices particles m1 ChestType.HORIZONTALFISSURE) ↔
          (m1.lookup i).bind (fun info => info.cipType) = some ChestType.UNDEFINEDTYPE)) ∧
      (tpsVec.length = 1 →
        matchingIndices particles m1 ChestType.HORIZONTALFISSURE = [] ∧
        (OutputPartition_spec particles m1 ChestType.HORIZONTALFISSURE).narrowed.points = [] ∧
        ∀ a ∈ (OutputPartition_spec particles m1 ChestType.HORIZONTALFISSURE).narrowed.fieldData,
          a.tuples = []) := by
  obtain ⟨m0, hm0, _, _⟩ := TallyParticleInfo_ok c.mathLibrary c.newtonOptimizer particles tpsVec hlen hwf
  obtain ⟨hall, hshape⟩ := TallyParticleInfo_of_some c.mathLibrary c.newtonOptimizer particles tpsVec hlen
    m0 hm0
  obtain ⟨m1, hm1, hl⟩ := ClassifyParticles_lookup tpsVec (Dbl.num dW) (Dbl.num aW)
    (Dbl.num thr) m0
    (fun e he => classifyEntry_isSome e.2 _ _ _
      (by rcases (hshape e he).2 with h | h <;> omega) (le_of_eq (hshape e he).1))
  have hlab : ∀ i, i < particles.GetNumberOfPoints →
      ∃ t, (m1.lookup i).bind (fun info => info.cipType) = some t := by
    intro i hi
    obtain ⟨info, hinfo, _⟩ := hall i hi
    obtain ⟨info1, hc, hlk⟩ := hl i info hinfo
    obtain ⟨_, _, t, ht⟩ := classifyEntry_frame info info1 _ _ _ hc
    exact ⟨t, by simp [hlk, ht]⟩
  obtain ⟨o1, o2, o3, ho1, ho2, ho3, hw⟩ := writeClassified_three particles m1 lo ro rh
    [Call.TallyParticleInfo tpsVec.length,
      Call.ClassifyParticles (Dbl.num dW) (Dbl.num aW) (Dbl.num thr)] hlab harr
  refine ⟨m0, m1, ⟨0, o3.1, o3.2⟩, hm0, hm1,
    by simp only [mainPipeline, hm0, hm1, ho1, ho2, ho3], hw,
    fun fileName L => WriteParticlesToFile_eq particles m1 fileName L hlab harr, hlab,
    ?_, ?_, ?_⟩
  · intro i h
    rw [mem_matchingIndices, mem_matchingIndices] at h
    have h2 := h.1.2.symm.trans h.2.2
    cases h2
  · intro i hi
    rw [mem_matchingIndices, mem_matchingIndices]
    obtain ⟨t, ht⟩ := hlab i hi
    rw [ht]
    cases t <;> simp [hi]
  · intro h1
    have hnil : matchingIndices particles m1 ChestType.HORIZONTALFISSURE = [] := by
      rw [List.eq_nil_iff_forall_not_mem]
      intro i hmem
      rw [mem_matchingIndices] at hmem
      obtain ⟨info, hinfo, hone⟩ := hall i hmem.1
      obtain ⟨info1, hc, hlk⟩ := hl i info hinfo
      have hne := classifyEntry_single_not_horizontal info info1 _ _ _ (hone h1).1 (hone h1).2
        hc
      rw [hlk] at hmem
      exact hne hmem.2
    refine ⟨hnil, by simp [OutputPartition_spec, PolyData.narrowed, hnil], ?_⟩
    intro a ha
    simp only [OutputPartition_spec, PolyData.narrowed, hnil, List.filterMap_nil, List.mem_map,
      List.map_map] at ha
    obtain ⟨_, _, rfl⟩ := ha
    rfl

/-- Claim C29 on the two scenario particles, one horizontal plane (left-lung mode), three
output names and the default parameters. -/
theorem outputs_partition_witness :
    ∃ m0 m1 r,
      TallyParticleInfo scenarioCollaborators.mathLibrary scenarioCollaborators.newtonOptimizer scenarioParticles
        [planeSurface 0] [] = some m0 ∧
      ClassifyParticles m0 [planeSurface 0] (Dbl.num (-0.4677)) (Dbl.num (-0.8839))
        (Dbl.num (-30)) = some m1 ∧
      mainPipeline scenarioCollaborators scenarioParticles [planeSurface 0] "lo.vtk" "ro.vtk"
        "rh.vtk" (-0.4677) (-0.8839) (-30) = some r ∧
      r.written =
        (if "lo.vtk" ≠ "NA" then
          [("lo.vtk", (OutputPartition_spec scenarioParticles m1 ChestType.OBLIQUEFISSURE).narrowed)]
          else []) ++
        (if "ro.vtk" ≠ "NA" then
          [("ro.vtk", (OutputPartition_spec scenarioParticles m1 ChestType.OBLIQUEFISSURE).narrowed)]
          else []) ++
        (if "rh.vtk" ≠ "NA" then
          [("rh.vtk", (OutputPartition_spec scenarioParticles m1 ChestType.HORIZONTALFISSURE).narrowed)]
          else []) ∧
      (∀ (fileName : String) (L : ChestType),
        WriteParticlesToFile scenarioParticles m1 fileName L =
          some (fileName, (OutputPartition_spec scenarioParticles m1 L).narrowed)) ∧
      (∀ i, i < scenarioParticles.GetNumberOfPoints →
        ∃ t, (m1.lookup i).bind (fun info => info.cipType) = some t) ∧
      (∀ i, ¬ (i ∈ matchingIndices scenarioParticles m1 ChestType.OBLIQUEFISSURE ∧
        i ∈ matchingIndices scenarioParticles m1 ChestType.HORIZONTALFISSURE)) ∧
      (∀ i, i < scenarioParticles.GetNumberOfPoints →
        ((i ∉ matchingIndices scenarioParticles m1 ChestType.OBLIQUEFISSURE ∧
          i ∉ matchingIndices scenarioParticles m1 ChestType.HORIZONTALFISSURE) ↔
          (m1.lookup i).bind (fun info => info.cipType) = some ChestType.UNDEFINEDTYPE)) ∧
      ([planeSurface 0].length = 1 →
        matchingIndices scenarioParticles m1 ChestType.HORIZONTALFISSURE = [] ∧
        (OutputPartition_spec scenarioParticles m1 ChestType.HORIZONTALFISSURE).narrowed.points = [] ∧
        ∀ a ∈ (OutputPartition_spec scenarioParticles m1
            ChestType.HORIZONTALFISSURE).narrowed.fieldData,
          a.tuples = []) :=
  outputs_partition scenarioCollaborators scenarioParticles [planeSurface 0] "lo.vtk" "ro.vtk"
    "rh.vtk" (-0.4677) (-0.8839) (-30) (Or.inl rfl) scenarioParticles_hasOrientations
    scenarioParticles_hasAllTuples

end PartitionClaim

end CIP

namespace CIP

section DiscriminantClaim

/-- The pipeline of `main`, on particles that carry orientations and a tuple in every array:
the tally and the classification return, the calls are the tally, the classification with
the weights and the threshold given and then only writes, and the files written are the
partitions of the map that this classification returns. -/
theorem mainPipeline_written (c : Collaborators) (particles : PolyData ℝ)
    (tpsVec : List cipThinPlateSplineSurface) (lo ro rh : String) (dW aW thr : ℝ)
    (hlen : tpsVec.length = 1 ∨ tpsVec.length = 2)
    (hwf : HasOrientations particles) (harr : HasAllTuples particles) :
    ∃ m0 m1 r rest,
      TallyParticleInfo c.mathLibrary c.newtonOptimizer particles tpsVec [] = some m0 ∧
      ClassifyParticles m0 tpsVec (Dbl.num dW) (Dbl.num aW) (Dbl.num thr) = some m1 ∧
      mainPipeline c particles tpsVec lo ro rh dW aW thr = some r ∧
      r.calls = [Call.TallyParticleInfo tpsVec.length,
        Call.ClassifyParticles (Dbl.num dW) (Dbl.num aW) (Dbl.num thr)] ++ rest ∧
      (∀ x ∈ rest, ∃ f t, x = Call.WriteParticlesToFile f t) ∧
      r.written =
        (if lo ≠ "NA" then
          [(lo, (OutputPartition_spec particles m1 ChestType.OBLIQUEFISSURE).narrowed)]
          else []) ++
        (if ro ≠ "NA" then
          [(ro, (OutputPartition_spec particles m1 ChestType.OBLIQUEFISSURE).narrowed)]
          else []) ++
        (if rh ≠ "NA" then
          [(rh, (OutputPartition_spec particles m1 ChestType.HORIZONTALFISSURE).narrowed)]
          else []) := by
  obtain ⟨m0, hm0, _, _⟩ := TallyParticleInfo_ok c.mathLibrary c.newtonOptimizer particles
    tpsVec hlen hwf
  obtain ⟨hall, hshape⟩ := TallyParticleInfo_of_some c.mathLibrary c.newtonOptimizer particles
    tpsVec hlen m0 hm0
  obtain ⟨m1, hm1, hl⟩ := ClassifyParticles_lookup tpsVec (Dbl.num dW) (Dbl.num aW)
    (Dbl.num thr) m0
    (fun e he => classifyEntry_isSome e.2 _ _ _
      (by rcases (hshape e he).2 with h | h <;> omega) (le_of_eq (hshape e he).1))
  have hlab : ∀ i, i < particles.GetNumberOfPoints →
      ∃ t, (m1.lookup i).bind (fun info => info.cipType) = some t := by
    intro i hi
    obtain ⟨info, hinfo, _⟩ := hall i hi
    obtain ⟨info1, hc, hlk⟩ := hl i info hinfo
    obtain ⟨_, _, t, ht⟩ := classifyEntry_frame info info1 _ _ _ hc
    exact ⟨t, by simp [hlk, ht]⟩
  obtain ⟨o1, o2, o3, ho1, ho2, ho3, hw⟩ := writeClassified_three particles m1 lo ro rh
    [Call.TallyParticleInfo tpsVec.length,
      Call.ClassifyParticles (Dbl.num dW) (Dbl.num aW) (Dbl.num thr)] hlab harr
  have hr : mainPipeline c particles tpsVec lo ro rh dW aW thr = some ⟨0, o3.1, o3.2⟩ := by
    simp only [mainPipeline, hm0, hm1, ho1, ho2, ho3]
  obtain ⟨r1, rest, hr1, _, hc, hrest, _⟩ := mainPipeline_ok c particles tpsVec lo ro rh dW aW
    thr hlen hwf harr
  rw [hr] at hr1
  cases hr1
  exact ⟨m0, m1, _, rest, hm0, hm1, hr, hc, hrest, hw⟩

/-- Claim C17.  On particles that carry orientations and a tuple in every array, `main`
proceeds exactly when the model arguments are accepted, and a run that proceeds classifies
with, for each of the distance weight, the angle weight and the threshold, the value given
on the command line, or -0.4677, -0.8839 and -30.0 respectively when it is not given: this is
the one call to `ClassifyParticles`, no call has other values, and the files written are the
partitions of the map that `ClassifyParticles` returns for these values on the tally of the
particles read. -/
theorem main_discriminant_parameters (c : Collaborators) (ARGUMENTPARSINGERROR : Int)
    (cl : CommandLine) (hwf : HasOrientations (c.readParticles cl.particles))
    (harr : HasAllTuples (c.readParticles cl.particles)) :
    ∃ r, main c ARGUMENTPARSINGERROR (some cl) = some r ∧
      (r.proceeded →
        Call.ClassifyParticles (Dbl.num (cl.dist.getD (-0.4677)))
          (Dbl.num (cl.angle.getD (-0.8839))) (Dbl.num (cl.thresh.getD (-30.0))) ∈ r.calls) ∧
      (∀ dW aW thr, Call.ClassifyParticles dW aW thr ∈ r.calls →
        dW = Dbl.num (cl.dist.getD (-0.4677)) ∧ aW = Dbl.num (cl.angle.getD (-0.8839)) ∧
          thr = Dbl.num (cl.thresh.getD (-30.0))) ∧
      (r.proceeded ↔ (supplied cl.roModel ∧ supplied cl.rhModel) ∨
        (supplied cl.loModel ∧ ¬ supplied cl.roModel ∧ ¬ supplied cl.rhModel)) ∧
      (r.proceeded →
        ∃ m0 m1,
          TallyParticleInfo c.mathLibrary c.newtonOptimizer (c.readParticles cl.particles)
            (if supplied cl.roModel then
              [c.readShapeModel (getValue "NA" cl.roModel),
                c.readShapeModel (getValue "NA" cl.rhModel)]
              else [c.readShapeModel (getValue "NA" cl.loModel)]) [] = some m0 ∧
          ClassifyParticles m0
            (if supplied cl.roModel then
              [c.readShapeModel (getValue "NA" cl.roModel),
                c.readShapeModel (getValue "NA" cl.rhModel)]
              else [c.readShapeModel (getValue "NA" cl.loModel)])
            (Dbl.num (cl.dist.getD (-0.4677))) (Dbl.num (cl.angle.getD (-0.8839)))
            (Dbl.num (cl.thresh.getD (-30.0))) = some m1 ∧
          r.written =
            (if getValue "NA" cl.loClassified ≠ "NA" then
              [(getValue "NA" cl.loClassified, (OutputPartition_spec
                (c.readParticles cl.particles) m1 ChestType.OBLIQUEFISSURE).narrowed)]
              else []) ++
            (if getValue "NA" cl.roClassified ≠ "NA" then
              [(getValue "NA" cl.roClassified, (OutputPartition_spec
                (c.readParticles cl.particles) m1 ChestType.OBLIQUEFISSURE).narrowed)]
              else []) ++
            (if getValue "NA" cl.rhClassified ≠ "NA" then
              [(getValue "NA" cl.rhClassified, (OutputPartition_spec
                (c.readParticles cl.particles) m1 ChestType.HORIZONTALFISSURE).narrowed)]
              else [])) := by
  have hpipe : ∀ tpsVec : List cipThinPlateSplineSurface,
      tpsVec.length = 1 ∨ tpsVec.length = 2 →
      ∃ r, mainPipeline c (c.readParticles cl.particles) tpsVec
          (getValue "NA" cl.loClassified) (getValue "NA" cl.roClassified)
          (getValue "NA" cl.rhClassified) (getValue (-0.4677) cl.dist)
          (getValue (-0.8839) cl.angle) (getValue (-30.0) cl.thresh) = some r ∧
        r.proceeded ∧
        Call.ClassifyParticles (Dbl.num (cl.dist.getD (-0.4677)))
            (Dbl.num (cl.angle.getD (-0.8839))) (Dbl.num (cl.thresh.getD (-30.0))) ∈ r.calls ∧
        (∀ dW aW thr, Call.ClassifyParticles dW aW thr ∈ r.calls →
          dW = Dbl.num (cl.dist.getD (-0.4677)) ∧ aW = Dbl.num (cl.angle.getD (-0.8839)) ∧
            thr = Dbl.num (cl.thresh.getD (-30.0))) ∧
        ∃ m0 m1,
          TallyParticleInfo c.mathLibrary c.newtonOptimizer (c.readParticles cl.particles)
            tpsVec [] = some m0 ∧
          ClassifyParticles m0 tpsVec
            (Dbl.num (cl.dist.getD (-0.4677))) (Dbl.num (cl.angle.getD (-0.8839)))
            (Dbl.num (cl.thresh.getD (-30.0))) = some m1 ∧
          r.written =
            (if getValue "NA" cl.loClassified ≠ "NA" then
              [(getValue "NA" cl.loClassified, (OutputPartition_spec
                (c.readParticles cl.particles) m1 ChestType.OBLIQUEFISSURE).narrowed)]
              else []) ++
            (if getValue "NA" cl.roClassified ≠ "NA" then
              [(getValue "NA" cl.roClassified, (OutputPartition_spec
                (c.readParticles cl.particles) m1 ChestType.OBLIQUEFISSURE).narrowed)]
              else []) ++
            (if getValue "NA" cl.rhClassified ≠ "NA" then
              [(getValue "NA" cl.rhClassified, (OutputPartition_spec
                (c.readParticles cl.particles) m1 ChestType.HORIZONTALFISSURE).narrowed)]
              else []) := by
    intro tpsVec hlen
    obtain ⟨m0, m1, r, rest, hm0, hm1, hr, hc, hrest, hw⟩ := mainPipeline_written c
      (c.readParticles cl.particles) tpsVec (getValue "NA" cl.loClassified)
      (getValue "NA" cl.roClassified) (getValue "NA" cl.rhClassified)
      (getValue (-0.4677) cl.dist) (getValue (-0.8839) cl.angle) (getValue (-30.0) cl.thresh)
      hlen hwf harr
    refine ⟨r, hr, proceeded_of_calls r _ _ _ _ rest hc, ?_, fun dW aW thr hmem => ?_,
      m0, m1, hm0, hm1, hw⟩
    · rw [hc]
      exact List.mem_append_left _ (List.mem_cons_of_mem _ (List.mem_cons_self _ _))
    · exact classify_call_unique r.calls rest _ _ _ _ dW aW thr hc hrest hmem
  have hnone : ∀ s : Int, ¬ (MainResult.mk s [] []).proceeded :=
    fun s => not_proceeded_of_no_calls s []
  rw [main_eq]
  by_cases hx : (supplied cl.roModel ∧ ¬ supplied cl.rhModel) ∨
      (¬ supplied cl.roModel ∧ supplied cl.rhModel)
  · rw [if_pos hx]
    refine ⟨_, rfl, fun h => absurd h (hnone _), fun dW aW thr h => by simp at h,
      ⟨fun h => absurd h (hnone _), ?_⟩, fun h => absurd h (hnone _)⟩
    rintro (⟨hro, hrh⟩ | ⟨_, hro, hrh⟩)
    · rcases hx with hx | hx
      · exact absurd hrh hx.2
      · exact absurd hro hx.1
    · rcases hx with hx | hx
      · exact absurd hx.1 hro
      · exact absurd hx.2 hrh
  · rw [if_neg hx]
    by_cases hro : supplied cl.roModel
    · have hrh : supplied cl.rhModel := by
        by_contra hrh
        exact hx (Or.inl ⟨hro, hrh⟩)
      rw [if_pos hro]
      obtain ⟨r, hr, hp, hmem, huniq, hfiles⟩ := hpipe
        [c.readShapeModel (getValue "NA" cl.roModel),
          c.readShapeModel (getValue "NA" cl.rhModel)] (Or.inr rfl)
      refine ⟨r, hr, fun _ => hmem, huniq, ⟨fun _ => Or.inl ⟨hro, hrh⟩, fun _ => hp⟩,
        fun _ => ?_⟩
      rw [if_pos hro]
      exact hfiles
    · have hrh : ¬ supplied cl.rhModel := fun hrh => hx (Or.inr ⟨hro, hrh⟩)
      rw [if_neg hro]
      by_cases hlo : supplied cl.loModel
      · rw [if_pos hlo]
        obtain ⟨r, hr, hp, hmem, huniq, hfiles⟩ := hpipe
          [c.readShapeModel (getValue "NA" cl.loModel)] (Or.inl rfl)
        refine ⟨r, hr, fun _ => hmem, huniq, ⟨fun _ => Or.inr ⟨hlo, hro, hrh⟩, fun _ => hp⟩,
          fun _ => ?_⟩
        rw [if_neg hro]
        exact hfiles
      · rw [if_neg hlo]
        refine ⟨_, rfl, fun h => absurd h (hnone _), fun dW aW thr h => by simp at h,
          ⟨fun h => absurd h (hnone _), ?_⟩, fun h => absurd h (hnone _)⟩
        rintro (⟨h1, _⟩ | ⟨h1, _, _⟩)
        · exact absurd h1 hro
        · exact absurd h1 hlo

/-- Claim C17 on a command line that gives the left model, the output name `lo.vtk`, the
weights -1, -2 and the threshold -40: the run proceeds, classifies with -1, -2 and -40, and
writes one file, the Oblique partition of the map classified with these values. -/
theorem main_discriminant_parameters_witness :
    HasOrientations (scenarioCollaborators.readParticles scenarioLeftModel.particles) ∧
    HasAllTuples (scenarioCollaborators.readParticles scenarioLeftModel.particles) ∧
    ∃ r, main scenarioCollaborators 10 (some scenarioLeftModel) = some r ∧
      r.proceeded ∧
      Call.ClassifyParticles (Dbl.num (-1)) (Dbl.num (-2)) (Dbl.num (-40)) ∈ r.calls ∧
      (∀ dW aW thr, Call.ClassifyParticles dW aW thr ∈ r.calls →
        dW = Dbl.num (-1) ∧ aW = Dbl.num (-2) ∧ thr = Dbl.num (-40)) ∧
      ∃ m0 m1,
        TallyParticleInfo referenceLibrary planeOptimizer scenarioParticles [planeSurface 0]
          [] = some m0 ∧
        ClassifyParticles m0 [planeSurface 0] (Dbl.num (-1)) (Dbl.num (-2)) (Dbl.num (-40)) =
          some m1 ∧
        r.written = [("lo.vtk",
          (OutputPartition_spec scenarioParticles m1 ChestType.OBLIQUEFISSURE).narrowed)] := by
  refine ⟨scenarioParticles_hasOrientations, scenarioParticles_hasAllTuples, ?_⟩
  obtain ⟨r, hr, hmem, huniq, hiff, hfiles⟩ :=
    main_discriminant_parameters scenarioCollaborators 10 scenarioLeftModel
      scenarioParticles_hasOrientations scenarioParticles_hasAllTuples
  have hlo : supplied scenarioLeftModel.loModel := by
    simp [supplied, getValue, scenarioLeftModel]
  have hro : ¬ supplied scenarioLeftModel.roModel := by
    simp [supplied, getValue, scenarioLeftModel]
  have hrh : ¬ supplied scenarioLeftModel.rhModel := by
    simp [supplied, getValue, scenarioLeftModel]
  have hp : r.proceeded := hiff.mpr (Or.inr ⟨hlo, hro, hrh⟩)
  obtain ⟨m0, m1, hm0, hm1, hw⟩ := hfiles hp
  rw [if_neg hro] at hm0 hm1
  refine ⟨r, hr, hp, hmem hp, huniq, m0, m1, hm0, hm1, ?_⟩
  rw [hw]
  simp [getValue, scenarioLeftModel, scenarioCollaborators]

end DiscriminantClaim

end CIP

/-! ## The assistant: a failed lung separation -/

namespace CIP

section FailureClaim

/-- A failed call leaves the label map with the types cleared. -/
theorem LabelLeftLungRightLung_of_false (conventions : ChestConventions)
    (relabelFilter : LabelMapType → RelabelComponent) (indeterminate : Nat × Nat)
    (self : ACILAssistantBase)
    (hfalse : (LabelLeftLungRightLung conventions relabelFilter indeterminate self).1 = false) :
    (LabelLeftLungRightLung conventions relabelFilter indeterminate self).2 =
      { self with LabelMap := clearTypes conventions self.LabelMap } := by
  obtain ⟨labelled, hcases⟩ := LabelLeftLungRightLung_cases conventions relabelFilter
    indeterminate self
  rw [hcases] at hfalse ⊢
  split_ifs at hfalse ⊢ with h1 h2
  · rfl
  · rfl

theorem eq_of_map_eq_self {X : Type} (f : X → X) :
    ∀ (l : List X), l.map f = l → ∀ x ∈ l, f x = x
  | [], _, x, hx => by simp at hx
  | y :: l, h, x, hx => by
    simp only [List.map_cons, List.cons.injEq] at h
    rcases List.mem_cons.mp hx with hxy | hxl
    · rw [hxy]
      exact h.1
    · exact eq_of_map_eq_self f l h.2 x hxl

/-- Claim C30 (no roll-back on failure).  `LabelLeftLungRightLung` first rewrites every
non-zero voxel to the value of (its own chest region, UNDEFINEDTYPE), and a call that returns
false leaves exactly this rewritten label map behind.  With conversions that give back the
region and the type UNDEFINEDTYPE of such a value, and the type UNDEFINEDTYPE for the value
0: after a false return every voxel is at its place with its original region and the type
UNDEFINEDTYPE, a zero voxel is still zero; and the label map can equal the input only if no
voxel of the input carried a type. -/
theorem LabelLeftLungRightLung_failure_keeps_rewrite (conventions : ChestConventions)
    (relabelFilter : LabelMapType → RelabelComponent) (indeterminate : Nat × Nat)
    (self : ACILAssistantBase)
    (hregion : ∀ v, conventions.GetChestRegionFromValue
      (conventions.GetValueFromChestRegionAndType (conventions.GetChestRegionFromValue v)
        conventions.UNDEFINEDTYPE) = conventions.GetChestRegionFromValue v)
    (htype : ∀ v, conventions.GetChestTypeFromValue
      (conventions.GetValueFromChestRegionAndType (conventions.GetChestRegionFromValue v)
        conventions.UNDEFINEDTYPE) = conventions.UNDEFINEDTYPE)
    (hzero : conventions.GetChestTypeFromValue 0 = conventions.UNDEFINEDTYPE)
    (hfalse : (LabelLeftLungRightLung conventions relabelFilter indeterminate self).1 = false) :
    (LabelLeftLungRightLung conventions relabelFilter indeterminate self).2 =
      { self with LabelMap := clearTypes conventions self.LabelMap } ∧
    (LabelLeftLungRightLung conventions relabelFilter indeterminate self).2.LabelMap.voxels.length
      = self.LabelMap.voxels.length ∧
    (∀ (k : Nat) (v : Voxel), self.LabelMap.voxels[k]? = some v →
      ∃ v1, (LabelLeftLungRightLung conventions relabelFilter indeterminate
          self).2.LabelMap.voxels[k]? = some v1 ∧
        v1.index = v.index ∧
        (v.value ≠ 0 → v1.value = conventions.GetValueFromChestRegionAndType
          (conventions.GetChestRegionFromValue v.value) conventions.UNDEFINEDTYPE) ∧
        (v.value = 0 → v1.value = 0) ∧
        conventions.GetChestRegionFromValue v1.value =
          conventions.GetChestRegionFromValue v.value ∧
        conventions.GetChestTypeFromValue v1.value = conventions.UNDEFINEDTYPE) ∧
    ((LabelLeftLungRightLung conventions relabelFilter indeterminate self).2.LabelMap =
        self.LabelMap →
      ∀ v ∈ self.LabelMap.voxels,
        conventions.GetChestTypeFromValue v.value = conventions.UNDEFINEDTYPE) := by
  have hout := LabelLeftLungRightLung_of_false conventions relabelFilter indeterminate self
    hfalse
  rw [hout]
  refine ⟨rfl, by simp [clearTypes], ?_, ?_⟩
  · intro k v hk
    by_cases hv : v.value = 0
    · refine ⟨v, by simp [clearTypes, hk, hv], rfl, fun h => absurd hv h, fun _ => hv, rfl, ?_⟩
      rw [hv]
      exact hzero
    · exact ⟨{ v with
          value := conventions.GetValueFromChestRegionAndType
            (conventions.GetChestRegionFromValue v.value) conventions.UNDEFINEDTYPE },
        by simp only [clearTypes, List.getElem?_map, hk, Option.map_some', ne_eq, hv,
          not_false_eq_true, if_true],
        rfl, fun _ => rfl, fun h => absurd h hv, hregion v.value, htype v.value⟩
  · intro heq v hv
    have hmap : self.LabelMap.voxels.map (fun v =>
        if v.value ≠ 0 then
          { v with
            value := conventions.GetValueFromChestRegionAndType
              (conventions.GetChestRegionFromValue v.value) conventions.UNDEFINEDTYPE }
        else v) = self.LabelMap.voxels := by
      have := congrArg LabelMapType.voxels heq
      simpa [clearTypes] using this
    have hfix := eq_of_map_eq_self _ _ hmap v hv
    by_cases hv0 : v.value = 0
    · rw [hv0]
      exact hzero
    · rw [if_pos hv0] at hfix
      have hval := congrArg Voxel.value hfix
      simp only at hval
      rw [← hval]
      exact htype v.value

/-- Claim C30 on the two typed voxels of `scenarioPainting` with a relabelling that finds a
single object, so that the call returns false. -/
theorem LabelLeftLungRightLung_failure_keeps_rewrite_witness :
    (LabelLeftLungRightLung scenarioConventions scenarioOneObject (0, 0) scenarioPainting).2 =
      { scenarioPainting with
        LabelMap := clearTypes scenarioConventions scenarioPainting.LabelMap } ∧
    (LabelLeftLungRightLung scenarioConventions scenarioOneObject (0, 0)
        scenarioPainting).2.LabelMap.voxels.length
      = scenarioPainting.LabelMap.voxels.length ∧
    (∀ (k : Nat) (v : Voxel), scenarioPainting.LabelMap.voxels[k]? = some v →
      ∃ v1, (LabelLeftLungRightLung scenarioConventions scenarioOneObject (0, 0)
          scenarioPainting).2.LabelMap.voxels[k]? = some v1 ∧
        v1.index = v.index ∧
        (v.value ≠ 0 → v1.value = scenarioConventions.GetValueFromChestRegionAndType
          (scenarioConventions.GetChestRegionFromValue v.value)
          scenarioConventions.UNDEFINEDTYPE) ∧
        (v.value = 0 → v1.value = 0) ∧
        scenarioConventions.GetChestRegionFromValue v1.value =
          scenarioConventions.GetChestRegionFromValue v.value ∧
        scenarioConventions.GetChestTypeFromValue v1.value =
          scenarioConventions.UNDEFINEDTYPE) ∧
    ((LabelLeftLungRightLung scenarioConventions scenarioOneObject (0, 0)
        scenarioPainting).2.LabelMap = scenarioPainting.LabelMap →
      ∀ v ∈ scenarioPainting.LabelMap.voxels,
        scenarioConventions.GetChestTypeFromValue v.value =
          scenarioConventions.UNDEFINEDTYPE) :=
  LabelLeftLungRightLung_failure_keeps_rewrite scenarioConventions scenarioOneObject (0, 0)
    scenarioPainting
    (fun v => by
      show (256 * 0 + v % 256) % 256 = v % 256
      omega)
    (fun v => by
      show (256 * 0 + v % 256) / 256 = 0
      omega)
    rfl
    (by
      simp [LabelLeftLungRightLung, scenarioOneObject, RelabelComponent.GetNumberOfObjects])

end FailureClaim

end CIP

/-! ## The assistant: painting and erasing -/

namespace CIP

section WindowLemmas

theorem toInt_of_range (x : Int) (h1 : -2147483648 ≤ x) (h2 : x ≤ 2147483647) :
    toInt x = x := by
  unfold toInt
  omega

/-- Below overflow the loop of the source runs over the window of the specification. -/
theorem sliceRange_eq (c : Int) (radius : Nat) (h1 : -2147483648 ≤ c - radius)
    (h2 : c + radius < 2147483647) : sliceRange c radius = some (windowRange c radius) := by
  have hc : toInt c = c := toInt_of_range c (by omega) (by omega)
  have hr : toInt (radius : Int) = radius := toInt_of_range _ (by omega) (by omega)
  have hn : ((c + (radius : Int) + 1 - (c - (radius : Int))).toNat) = 2 * radius + 1 := by
    omega
  simp only [sliceRange, hc, hr, checkedInt]
  rw [if_pos ⟨h1, by omega⟩, if_pos ⟨by omega, by omega⟩]
  simp only [forInt, if_pos h2, hn, windowRange]

theorem mem_windowRange (c : Int) (radius : Nat) (x : Int) :
    x ∈ windowRange c radius ↔ |x - c| ≤ (radius : Int) := by
  simp only [windowRange, List.mem_map, List.mem_range, abs_le]
  constructor
  · rintro ⟨k, hk, rfl⟩
    constructor <;> omega
  · rintro ⟨h1, h2⟩
    exact ⟨(x - (c - (radius : Int))).toNat, by omega, by omega⟩

theorem nodup_windowRange (c : Int) (radius : Nat) : (windowRange c radius).Nodup := by
  unfold windowRange
  refine List.Nodup.map ?_ (List.nodup_range _)
  intro a b h
  simp only at h
  omega

end WindowLemmas

end CIP

namespace CIP

section WindowLemmas2

/-- For an orientation 0, 1 or 2 and below overflow, the double loop of the source visits
the window of the specification, in its order. -/
theorem sliceIndices_eq (index : Fin 3 → Int) (radius : Nat) (orientation : Nat)
    (ho : orientation ≤ 2)
    (hb : ∀ d : Fin 3, (d : Nat) ≠ orientation →
      -2147483648 ≤ index d - radius ∧ index d + radius < 2147483647) :
    sliceIndices index radius orientation = some (windowIndices index radius orientation) := by
  have h0 := hb 0
  have h1 := hb 1
  have h2 := hb 2
  interval_cases orientation
  · simp only [sliceIndices, windowIndices, if_true,
      sliceRange_eq _ _ (h1 (by decide)).1 (h1 (by decide)).2,
      sliceRange_eq _ _ (h2 (by decide)).1 (h2 (by decide)).2]
  · simp only [sliceIndices, windowIndices, if_true, one_ne_zero, if_false,
      sliceRange_eq _ _ (h0 (by decide)).1 (h0 (by decide)).2,
      sliceRange_eq _ _ (h2 (by decide)).1 (h2 (by decide)).2]
  · simp only [sliceIndices, windowIndices, if_true, OfNat.ofNat_ne_zero, OfNat.ofNat_ne_one,
      if_false,
      sliceRange_eq _ _ (h0 (by decide)).1 (h0 (by decide)).2,
      sliceRange_eq _ _ (h1 (by decide)).1 (h1 (by decide)).2]

/-- The window holds exactly the indices of the slice through `index` that are at most
`radius` away from it along both in-plane axes. -/
theorem mem_windowIndices (index : Fin 3 → Int) (radius : Nat) (orientation : Nat)
    (ho : orientation ≤ 2) (voxelIndex : Fin 3 → Int) :
    voxelIndex ∈ windowIndices index radius orientation ↔
      (∀ d : Fin 3, (d : Nat) = orientation → voxelIndex d = index d) ∧
      (∀ d : Fin 3, (d : Nat) ≠ orientation → |voxelIndex d - index d| ≤ (radius : Int)) := by
  interval_cases orientation
  · simp only [windowIndices, if_true, List.mem_flatMap, List.mem_map, mem_windowRange,
      Fin.forall_fin_succ, Fin.forall_fin_two]
    constructor
    · rintro ⟨x, hx, y, hy, rfl⟩
      simpa using ⟨hx, hy⟩
    · intro h
      refine ⟨voxelIndex 1, by simpa using h.2.2.1, voxelIndex 2, by simpa using h.2.2.2, ?_⟩
      have h00 : voxelIndex 0 = index 0 := by simpa using h.1.1
      funext d
      fin_cases d <;> simp [h00]
  · simp only [windowIndices, if_true, one_ne_zero, if_false, List.mem_flatMap, List.mem_map,
      mem_windowRange, Fin.forall_fin_succ, Fin.forall_fin_two]
    constructor
    · rintro ⟨x, hx, y, hy, rfl⟩
      simpa using ⟨hx, hy⟩
    · intro h
      refine ⟨voxelIndex 0, by simpa using h.2.1, voxelIndex 2, by simpa using h.2.2.2, ?_⟩
      have h11 : voxelIndex 1 = index 1 := by simpa using h.1.2.1
      funext d
      fin_cases d <;> simp [h11]
  · simp only [windowIndices, if_true, OfNat.ofNat_ne_zero, OfNat.ofNat_ne_one, if_false,
      List.mem_flatMap, List.mem_map, mem_windowRange, Fin.forall_fin_succ,
      Fin.forall_fin_two]
    constructor
    · rintro ⟨x, hx, y, hy, rfl⟩
      simpa using ⟨hx, hy⟩
    · intro h
      refine ⟨voxelIndex 0, by simpa using h.2.1, voxelIndex 1, by simpa using h.2.2.1, ?_⟩
      have h22 : voxelIndex 2 = index 2 := by simpa using h.1.2.2
      funext d
      fin_cases d <;> simp [h22]

end WindowLemmas2

end CIP

namespace CIP

section WindowLemmas3

theorem nodup_flatMap_map (xs ys : List Int) (mk : Int → Int → (Fin 3 → Int))
    (hx : xs.Nodup) (hy : ys.Nodup)
    (hmk : ∀ x y x1 y1, mk x y = mk x1 y1 → x = x1 ∧ y = y1) :
    (xs.flatMap (fun x => ys.map (fun y => mk x y))).Nodup := by
  rw [List.nodup_flatMap]
  refine ⟨fun x _ => hy.map (fun y y1 h => (hmk x y x y1 h).2), hx.pairwise_of_forall_ne ?_⟩
  intro a _ b _ hab
  simp only [Function.onFun]
  intro z hz1 hz2
  obtain ⟨y, _, rfl⟩ := List.mem_map.mp hz1
  obtain ⟨y1, _, h⟩ := List.mem_map.mp hz2
  exact hab (hmk _ _ _ _ h).1.symm

/-- No index is visited twice. -/
theorem nodup_windowIndices (index : Fin 3 → Int) (radius : Nat) (orientation : Nat) :
    (windowIndices index radius orientation).Nodup := by
  unfold windowIndices
  split_ifs
  · refine nodup_flatMap_map _ _ (fun x y => ![index 0, x, y]) (nodup_windowRange _ _)
      (nodup_windowRange _ _) ?_
    intro x y x1 y1 h
    exact ⟨by simpa using congrFun h 1, by simpa using congrFun h 2⟩
  · refine nodup_flatMap_map _ _ (fun x y => ![x, index 1, y]) (nodup_windowRange _ _)
      (nodup_windowRange _ _) ?_
    intro x y x1 y1 h
    exact ⟨by simpa using congrFun h 0, by simpa using congrFun h 2⟩
  · refine nodup_flatMap_map _ _ (fun x y => ![x, y, index 2]) (nodup_windowRange _ _)
      (nodup_windowRange _ _) ?_
    intro x y x1 y1 h
    exact ⟨by simpa using congrFun h 0, by simpa using congrFun h 1⟩

end WindowLemmas3

end CIP

namespace CIP

section PaintLemmas

/-- The loop of `PaintLabelMapSlice` over any list of indices: the voxels at the indices that
pass the two tests get the new label, and these indices are appended in order. -/
theorem paintLoop_eq (conventions : ChestConventions) (gray : GrayscaleImageType)
    (cipType cipRegion : Nat) (lower upper : Int) (size : Fin 3 → Nat)
    (hg : ∀ idx, IsInside size idx = true → IsInside gray.size idx = true) :
    ∀ (L : List (Fin 3 → Int)) (voxels : List Voxel) (painted : List (Fin 3 → Int)),
      paintLoop conventions gray cipType cipRegion lower upper L (⟨size, voxels⟩, painted) =
        some (⟨size, voxels.map (fun v =>
            if v.index ∈ L.filter (passesTests size gray lower upper) then
              { v with value := conventions.GetValueFromChestRegionAndType cipRegion cipType }
            else v)⟩,
          painted ++ L.filter (passesTests size gray lower upper))
  | [], voxels, painted => by simp [paintLoop]
  | t :: rest, voxels, painted => by
    by_cases hin : IsInside size t = true
    · have hgp : gray.GetPixel t = some (gray.pixel t) := by
        simp [GrayscaleImageType.GetPixel, hg t hin]
      by_cases hthr : gray.pixel t ≥ lower ∧ gray.pixel t ≤ upper
      · have hpass : passesTests size gray lower upper t = true := by
          simp only [passesTests, hin, Bool.true_and, decide_eq_true_eq]
          exact hthr
        simp only [paintLoop, hin, if_true, hgp, hthr, and_self, LabelMapType.SetPixel]
        rw [paintLoop_eq conventions gray cipType cipRegion lower upper size hg rest]
        simp only [List.filter_cons, hpass, if_true, List.map_map, List.append_assoc,
          List.singleton_append, Option.some.injEq, Prod.mk.injEq, LabelMapType.mk.injEq,
          true_and, and_true]
        refine List.map_congr_left ?_
        intro v _
        by_cases hv : v.index = t
        · simp [hv]
        · simp [hv]
      · have hpass : passesTests size gray lower upper t = false := by
          simp only [passesTests, hin, Bool.true_and, decide_eq_false_iff_not]
          exact hthr
        simp only [paintLoop, hin, if_true, hgp, hthr, if_false]
        rw [paintLoop_eq conventions gray cipType cipRegion lower upper size hg rest]
        simp [List.filter_cons, hpass]
    · have hpass : passesTests size gray lower upper t = false := by
        simp [passesTests, hin]
      simp only [paintLoop, hin, Bool.false_eq_true, if_false]
      rw [paintLoop_eq conventions gray cipType cipRegion lower upper size hg rest]
      simp [List.filter_cons, hpass]

end PaintLemmas

end CIP

namespace CIP

section PaintClaim

/-- The indices of the window that pass the two tests are those of the specification. -/
theorem mem_filter_windowIndices (self : ACILAssistantBase) (index : Fin 3 → Int)
    (radius : Nat) (lower upper : Int) (orientation : Nat) (ho : orientation ≤ 2)
    (voxelIndex : Fin 3 → Int) :
    voxelIndex ∈ (windowIndices index radius orientation).filter
        (passesTests self.LabelMap.size self.GrayscaleImage lower upper) ↔
      InSliceWindow_spec self index radius lower upper orientation voxelIndex := by
  rw [List.mem_filter, mem_windowIndices index radius orientation ho]
  simp only [passesTests, Bool.and_eq_true, decide_eq_true_eq, InSliceWindow_spec, ge_iff_le,
    and_assoc]

/-- Claim C21 (paint window).  For an orientation 0 (sagittal), 1 (coronal) or 2 (axial), a
window whose bounds fit in an `int`, and a grayscale image that covers the region of the
label map, `PaintLabelMapSlice` returns; with `painted` the indices that lie in the slice
through `index` along the fixed axis, differ from `index` by at most `radius` along each of
the two in-plane axes, are inside the buffered region and have a grayscale value in
[`lowerThreshold`, `upperThreshold`]: exactly the voxels at these indices are set to
`GetValueFromChestRegionAndType(cipRegion, cipType)`, every other voxel and every other field
is unchanged, and `painted` is appended to `PaintedIndices` in loop order (outer loop over
the first in-plane axis, inner loop over the second), each index once. -/
theorem PaintLabelMapSlice_window (conventions : ChestConventions) (self : ACILAssistantBase)
    (index : Fin 3 → Int) (cipType cipRegion radius : Nat) (lowerThreshold upperThreshold : Int)
    (orientation : Nat) (ho : orientation ≤ 2)
    (hb : ∀ d : Fin 3, (d : Nat) ≠ orientation →
      -2147483648 ≤ index d - radius ∧ index d + radius < 2147483647)
    (hg : ∀ idx, IsInside self.LabelMap.size idx = true →
      IsInside self.GrayscaleImage.size idx = true) :
    ∃ painted : List (Fin 3 → Int),
      PaintLabelMapSlice conventions self index cipType cipRegion radius lowerThreshold
          upperThreshold orientation =
        some { self with
          LabelMap := ⟨self.LabelMap.size, self.LabelMap.voxels.map (fun v =>
            if v.index ∈ painted then
              { v with value := conventions.GetValueFromChestRegionAndType cipRegion cipType }
            else v)⟩,
          PaintedIndices := self.PaintedIndices ++ painted } ∧
      (∀ voxelIndex, voxelIndex ∈ painted ↔
        InSliceWindow_spec self index radius lowerThreshold upperThreshold orientation
          voxelIndex) ∧
      painted = (windowIndices index radius orientation).filter
        (passesTests self.LabelMap.size self.GrayscaleImage lowerThreshold upperThreshold) ∧
      painted.Nodup := by
  refine ⟨(windowIndices index radius orientation).filter
    (passesTests self.LabelMap.size self.GrayscaleImage lowerThreshold upperThreshold), ?_,
    fun voxelIndex => mem_filter_windowIndices self index radius lowerThreshold upperThreshold
      orientation ho voxelIndex,
    rfl, (nodup_windowIndices index radius orientation).filter _⟩
  have h := paintLoop_eq conventions self.GrayscaleImage cipType cipRegion lowerThreshold
    upperThreshold self.LabelMap.size hg (windowIndices index radius orientation)
    self.LabelMap.voxels self.PaintedIndices
  change paintLoop conventions self.GrayscaleImage cipType cipRegion lowerThreshold
    upperThreshold (windowIndices index radius orientation)
    (self.LabelMap, self.PaintedIndices) = _ at h
  simp only [PaintLabelMapSlice, sliceIndices_eq index radius orientation ho hb, h]

/-- Claim C21 on `scenarioPainting`: an axial paint of radius 1 around the voxel (0, 0, 0)
with the thresholds 50 and 150. -/
theorem PaintLabelMapSlice_window_witness :
    ∃ painted : List (Fin 3 → Int),
      PaintLabelMapSlice scenarioConventions scenarioPainting ![0, 0, 0] 1 2 1 50 150 2 =
        some { scenarioPainting with
          LabelMap := ⟨scenarioPainting.LabelMap.size, scenarioPainting.LabelMap.voxels.map
            (fun v =>
              if v.index ∈ painted then
                { v with value := scenarioConventions.GetValueFromChestRegionAndType 2 1 }
              else v)⟩,
          PaintedIndices := scenarioPainting.PaintedIndices ++ painted } ∧
      (∀ voxelIndex, voxelIndex ∈ painted ↔
        InSliceWindow_spec scenarioPainting ![0, 0, 0] 1 50 150 2 voxelIndex) ∧
      painted = (windowIndices ![0, 0, 0] 1 2).filter
        (passesTests scenarioPainting.LabelMap.size scenarioPainting.GrayscaleImage 50 150) ∧
      painted.Nodup :=
  PaintLabelMapSlice_window scenarioConventions scenarioPainting ![0, 0, 0] 1 2 1 50 150 2
    (le_refl 2)
    (fun d _ => by fin_cases d <;> simp)
    (fun _ h => h)

end PaintClaim

end CIP

namespace CIP

section EraseLemmas

/-- In a buffer without repeated indices, `GetPixel` at the index of a voxel gives the value
of that voxel. -/
theorem GetPixel_of_mem (size : Fin 3 → Nat) (voxels : List Voxel)
    (hnd : (voxels.map (fun v => v.index)).Nodup) (v : Voxel) (hv : v ∈ voxels) :
    (⟨size, voxels⟩ : LabelMapType).GetPixel v.index = some v.value := by
  unfold LabelMapType.GetPixel
  cases hf : voxels.find? (fun w => decide (w.index = v.index)) with
  | none =>
    have := List.find?_eq_none.mp hf v hv
    simp at this
  | some w =>
    have hw : w.index = v.index := by simpa using List.find?_some hf
    have hmem : w ∈ voxels := List.mem_of_find?_eq_some hf
    have hwv : w = v := List.inj_on_of_nodup_map hnd hmem hv hw
    simp [hwv]

/-- What one round of the loop of `EraseLabelMapSlice` does to a voxel it acts on. -/
theorem erase_index_preserved (conventions : ChestConventions) (cipRegion cipType : Nat)
    (eraseSelected : Bool) (P : Voxel → Prop) [DecidablePred P] (voxels : List Voxel) :
    (voxels.map (fun v =>
      if P v then
        (if v.value ≠ 0 then
          { v with value := erasedLabel conventions cipRegion cipType eraseSelected v.value }
        else v)
      else v)).map (fun v => v.index) = voxels.map (fun v => v.index) := by
  rw [List.map_map]
  refine List.map_congr_left ?_
  intro v _
  simp only [Function.comp]
  split_ifs <;> rfl

/-- One round of the loop of `EraseLabelMapSlice` at an index that passes the two tests. -/
theorem eraseLoop_cons_pass (conventions : ChestConventions) (gray : GrayscaleImageType)
    (cipRegion cipType : Nat) (lower upper : Int) (eraseSelected : Bool) (size : Fin 3 → Nat)
    (hg : ∀ idx, IsInside size idx = true → IsInside gray.size idx = true)
    (t : Fin 3 → Int) (rest : List (Fin 3 → Int)) (voxels : List Voxel)
    (hnd : (voxels.map (fun v => v.index)).Nodup)
    (hcov : ∀ idx, IsInside size idx = true → idx ∈ voxels.map (fun v => v.index))
    (hpass : passesTests size gray lower upper t = true) :
    eraseLoop conventions gray cipRegion cipType lower upper eraseSelected (t :: rest)
        ⟨size, voxels⟩ =
      eraseLoop conventions gray cipRegion cipType lower upper eraseSelected rest
        ⟨size, voxels.map (fun v =>
          if v.index = t then
            (if v.value ≠ 0 then
              { v with
                value := erasedLabel conventions cipRegion cipType eraseSelected v.value }
            else v)
          else v)⟩ := by
  simp only [passesTests, Bool.and_eq_true, decide_eq_true_eq] at hpass
  obtain ⟨hin, hthr⟩ := hpass
  have hgp : gray.GetPixel t = some (gray.pixel t) := by
    simp [GrayscaleImageType.GetPixel, hg t hin]
  obtain ⟨v0, hv0, hv0t⟩ := List.mem_map.mp (hcov t hin)
  have hget : (⟨size, voxels⟩ : LabelMapType).GetPixel t = some v0.value := by
    rw [← hv0t]
    exact GetPixel_of_mem size voxels hnd v0 hv0
  have huniq : ∀ v ∈ voxels, v.index = t → v = v0 := fun v hv hvt =>
    List.inj_on_of_nodup_map hnd hv hv0 (hvt.trans hv0t.symm)
  simp only [eraseLoop, hin, if_true, hgp, hthr, and_self, hget]
  by_cases hz : v0.value = 0
  · simp only [hz, ne_eq, not_true_eq_false, if_false]
    congr 2
    symm
    conv_rhs => rw [← List.map_id voxels]
    refine List.map_congr_left ?_
    intro v hv
    by_cases hvt : v.index = t
    · have := huniq v hv hvt
      subst this
      simp [hz]
    · simp [hvt]
  · simp only [ne_eq, hz, not_false_eq_true, if_true, LabelMapType.SetPixel]
    congr 2
    refine List.map_congr_left ?_
    intro v hv
    by_cases hvt : v.index = t
    · have := huniq v hv hvt
      subst this
      simp [hvt, hz]
    · simp [hvt]

end EraseLemmas

end CIP

namespace CIP

section EraseLemmas2

/-- Updating the elements found at `t` and then those found at the places `S`, none of which
is `t`, is updating those found at `t :: S`, when the update keeps the place. -/
theorem map_update_cons {X I : Type} [DecidableEq I] (idx : X → I) (g : X → X)
    (hg : ∀ x, idx (g x) = idx x) (t : I) (S : List I) (ht : t ∉ S) (l : List X) :
    (l.map (fun x => if idx x = t then g x else x)).map
        (fun x => if idx x ∈ S then g x else x) =
      l.map (fun x => if idx x ∈ t :: S then g x else x) := by
  rw [List.map_map]
  refine List.map_congr_left ?_
  intro x _
  simp only [Function.comp]
  by_cases hxt : idx x = t
  · rw [if_pos hxt, if_neg (by rw [hg, hxt]; exact ht), if_pos (by rw [hxt]; simp)]
  · rw [if_neg hxt]
    by_cases hxs : idx x ∈ S
    · rw [if_pos hxs, if_pos (List.mem_cons_of_mem _ hxs)]
    · rw [if_neg hxs, if_neg (by simp [hxt, hxs])]

/-- One round of the loop of `EraseLabelMapSlice` at an index that fails one of the tests. -/
theorem eraseLoop_cons_fail (conventions : ChestConventions) (gray : GrayscaleImageType)
    (cipRegion cipType : Nat) (lower upper : Int) (eraseSelected : Bool)
    (labelMap : LabelMapType)
    (hg : ∀ idx, IsInside labelMap.size idx = true → IsInside gray.size idx = true)
    (t : Fin 3 → Int) (rest : List (Fin 3 → Int))
    (hpass : passesTests labelMap.size gray lower upper t = false) :
    eraseLoop conventions gray cipRegion cipType lower upper eraseSelected (t :: rest)
        labelMap =
      eraseLoop conventions gray cipRegion cipType lower upper eraseSelected rest labelMap := by
  by_cases hin : IsInside labelMap.size t = true
  · have hgp : gray.GetPixel t = some (gray.pixel t) := by
      simp [GrayscaleImageType.GetPixel, hg t hin]
    have hthr : ¬ (gray.pixel t ≥ lower ∧ gray.pixel t ≤ upper) := by
      simpa [passesTests, hin] using hpass
    simp only [eraseLoop, hin, if_true, hgp, hthr, if_false]
  · simp only [eraseLoop, hin, Bool.false_eq_true, if_false]

/-- The loop of `EraseLabelMapSlice` over a list of distinct indices, on a well-formed
buffer: the non-zero voxels at the indices that pass the two tests get the erased label. -/
theorem eraseLoop_eq (conventions : ChestConventions) (gray : GrayscaleImageType)
    (cipRegion cipType : Nat) (lower upper : Int) (eraseSelected : Bool) (size : Fin 3 → Nat)
    (hg : ∀ idx, IsInside size idx = true → IsInside gray.size idx = true) :
    ∀ (L : List (Fin 3 → Int)) (voxels : List Voxel), L.Nodup →
      (voxels.map (fun v => v.index)).Nodup →
      (∀ idx, IsInside size idx = true → idx ∈ voxels.map (fun v => v.index)) →
      eraseLoop conventions gray cipRegion cipType lower upper eraseSelected L
          ⟨size, voxels⟩ =
        some ⟨size, voxels.map (fun v =>
          if v.index ∈ L.filter (passesTests size gray lower upper) then
            (if v.value ≠ 0 then
              { v with
                value := erasedLabel conventions cipRegion cipType eraseSelected v.value }
            else v)
          else v)⟩
  | [], voxels, _, _, _ => by simp [eraseLoop]
  | t :: rest, voxels, hL, hnd, hcov => by
    have htrest : t ∉ rest := (List.nodup_cons.mp hL).1
    have hrest : rest.Nodup := (List.nodup_cons.mp hL).2
    by_cases hpass : passesTests size gray lower upper t = true
    · rw [eraseLoop_cons_pass conventions gray cipRegion cipType lower upper eraseSelected
        size hg t rest voxels hnd hcov hpass]
      have hidx := erase_index_preserved conventions cipRegion cipType eraseSelected
        (fun v => v.index = t) voxels
      rw [eraseLoop_eq conventions gray cipRegion cipType lower upper eraseSelected size hg
        rest _ hrest (by rw [hidx]; exact hnd) (by rw [hidx]; exact hcov)]
      have htf : t ∉ rest.filter (passesTests size gray lower upper) :=
        fun h => htrest (List.mem_filter.mp h).1
      have hfil : (t :: rest).filter (passesTests size gray lower upper) =
          t :: rest.filter (passesTests size gray lower upper) := by
        simp [List.filter_cons, hpass]
      rw [hfil]
      exact congrArg (fun vs => some (LabelMapType.mk size vs))
        (map_update_cons (fun v : Voxel => v.index)
          (fun v => if v.value ≠ 0 then
            { v with
              value := erasedLabel conventions cipRegion cipType eraseSelected v.value }
            else v)
          (fun v => by simp only; split_ifs <;> rfl) t _ htf voxels)
    · have hpass1 : passesTests size gray lower upper t = false := by
        simpa using hpass
      rw [eraseLoop_cons_fail conventions gray cipRegion cipType lower upper eraseSelected
        ⟨size, voxels⟩ hg t rest hpass1]
      rw [eraseLoop_eq conventions gray cipRegion cipType lower upper eraseSelected size hg
        rest voxels hrest hnd hcov]
      simp [List.filter_cons, hpass1]

end EraseLemmas2

end CIP

namespace CIP

section EraseClaim

theorem scenarioPainting_wellFormed : scenarioPainting.LabelMap.WellFormed := by
  constructor
  · simp only [scenarioPainting, List.map_cons, List.map_nil, List.nodup_cons,
      List.mem_singleton, List.not_mem_nil, not_false_eq_true, List.nodup_nil, and_true]
    intro h
    have := congrFun h 0
    simp at this
  · intro index h
    simp only [scenarioPainting, IsInside, decide_eq_true_eq] at h
    obtain ⟨⟨h0, h0'⟩, ⟨h1, h1'⟩, ⟨h2, h2'⟩⟩ := h
    simp only [Matrix.cons_val_zero, Matrix.cons_val_one, Matrix.head_cons, Matrix.cons_val_two,
      Matrix.tail_cons, Nat.cast_ofNat, Nat.cast_one] at h0' h1' h2'
    have e1 : index 1 = 0 := by omega
    have e2 : index 2 = 0 := by omega
    have e0 : index 0 = 0 ∨ index 0 = 1 := by omega
    rcases e0 with e0 | e0
    · refine ⟨⟨![0, 0, 0], 258⟩, by simp [scenarioPainting], ?_⟩
      funext d
      fin_cases d <;> simp [e0, e1, e2]
    · refine ⟨⟨![1, 0, 0], 515⟩, by simp [scenarioPainting], ?_⟩
      funext d
      fin_cases d <;> simp [e0, e1, e2]

/-- Claim C22 (erase window).  For an orientation 0, 1 or 2, a window whose bounds fit in an
`int`, a grayscale image that covers the region of the label map and a well-formed label
map, `EraseLabelMapSlice` returns; with `touched` the indices of the slice through `index`
that lie in the (2*radius+1)-square in-plane window, inside the buffered region and with a
grayscale value in [`lowerThreshold`, `upperThreshold`]: only the non-zero voxels at these
indices change.  With `eraseSelected` false each becomes 0; with `eraseSelected` true it
becomes the value of (region, type) where the region is replaced by 0 exactly when it equals
`cipRegion` and the type by 0 exactly when it equals `cipType`, the other component being
kept.  A voxel that is 0 before the call is 0 after it, and `PaintedIndices` and every other
field are unchanged. -/
theorem EraseLabelMapSlice_window (conventions : ChestConventions) (self : ACILAssistantBase)
    (index : Fin 3 → Int) (cipRegion cipType radius : Nat) (lowerThreshold upperThreshold : Int)
    (eraseSelected : Bool) (orientation : Nat) (ho : orientation ≤ 2)
    (hb : ∀ d : Fin 3, (d : Nat) ≠ orientation →
      -2147483648 ≤ index d - radius ∧ index d + radius < 2147483647)
    (hg : ∀ idx, IsInside self.LabelMap.size idx = true →
      IsInside self.GrayscaleImage.size idx = true)
    (hwf : self.LabelMap.WellFormed) :
    ∃ (touched : List (Fin 3 → Int)) (self1 : ACILAssistantBase),
      EraseLabelMapSlice conventions self index cipRegion cipType radius lowerThreshold
          upperThreshold eraseSelected orientation = some self1 ∧
      self1 = { self with
          LabelMap := ⟨self.LabelMap.size, self.LabelMap.voxels.map (fun v =>
            if v.index ∈ touched ∧ v.value ≠ 0 then
              { v with
                value :=
                  if eraseSelected = true then
                    conventions.GetValueFromChestRegionAndType
                      (if conventions.GetChestRegionFromValue v.value = cipRegion then 0
                        else conventions.GetChestRegionFromValue v.value)
                      (if conventions.GetChestTypeFromValue v.value = cipType then 0
                        else conventions.GetChestTypeFromValue v.value)
                  else 0 }
            else v)⟩ } ∧
      (∀ voxelIndex, voxelIndex ∈ touched ↔
        InSliceWindow_spec self index radius lowerThreshold upperThreshold orientation
          voxelIndex) ∧
      self1.PaintedIndices = self.PaintedIndices ∧
      (∀ (k : Nat) (v : Voxel), self.LabelMap.voxels[k]? = some v → v.value = 0 →
        self1.LabelMap.voxels[k]? = some v) := by
  have h := eraseLoop_eq conventions self.GrayscaleImage cipRegion cipType lowerThreshold
    upperThreshold eraseSelected self.LabelMap.size hg (windowIndices index radius orientation)
    self.LabelMap.voxels (nodup_windowIndices index radius orientation) hwf.1
    (fun idx hidx => by
      obtain ⟨v, hv, hvi⟩ := hwf.2 idx hidx
      exact List.mem_map.mpr ⟨v, hv, hvi⟩)
  change eraseLoop conventions self.GrayscaleImage cipRegion cipType lowerThreshold
    upperThreshold eraseSelected (windowIndices index radius orientation) self.LabelMap = _ at h
  have hmap : self.LabelMap.voxels.map (fun v =>
      if v.index ∈ (windowIndices index radius orientation).filter
          (passesTests self.LabelMap.size self.GrayscaleImage lowerThreshold upperThreshold)
      then
        (if v.value ≠ 0 then
          { v with value := erasedLabel conventions cipRegion cipType eraseSelected v.value }
        else v)
      else v) =
    self.LabelMap.voxels.map (fun v =>
      if v.index ∈ (windowIndices index radius orientation).filter
          (passesTests self.LabelMap.size self.GrayscaleImage lowerThreshold upperThreshold) ∧
          v.value ≠ 0 then
        { v with
          value :=
            if eraseSelected = true then
              conventions.GetValueFromChestRegionAndType
                (if conventions.GetChestRegionFromValue v.value = cipRegion then 0
                  else conventions.GetChestRegionFromValue v.value)
                (if conventions.GetChestTypeFromValue v.value = cipType then 0
                  else conventions.GetChestTypeFromValue v.value)
            else 0 }
      else v) := by
    refine List.map_congr_left ?_
    intro v _
    by_cases h1 : v.index ∈ (windowIndices index radius orientation).filter
        (passesTests self.LabelMap.size self.GrayscaleImage lowerThreshold upperThreshold)
    · by_cases h2 : v.value ≠ 0
      · rw [if_pos h1, if_pos h2, if_pos ⟨h1, h2⟩]
        rfl
      · rw [if_pos h1, if_neg h2, if_neg (fun hc => h2 hc.2)]
    · rw [if_neg h1, if_neg (fun hc => h1 hc.1)]
  rw [hmap] at h
  refine ⟨(windowIndices index radius orientation).filter
    (passesTests self.LabelMap.size self.GrayscaleImage lowerThreshold upperThreshold), _,
    by simp only [EraseLabelMapSlice, sliceIndices_eq index radius orientation ho hb, h],
    rfl,
    fun voxelIndex => mem_filter_windowIndices self index radius lowerThreshold upperThreshold
      orientation ho voxelIndex,
    rfl, ?_⟩
  intro k v hk hv
  simp only [List.getElem?_map, hk, Option.map_some', hv, ne_eq, not_true_eq_false, and_false,
    if_false]

/-- Claim C22 on `scenarioPainting`: a selective axial erase of region 2 and type 2 with
radius 1 around the voxel (0, 0, 0) and the thresholds 0 and 150. -/
theorem EraseLabelMapSlice_window_witness :
    ∃ (touched : List (Fin 3 → Int)) (self1 : ACILAssistantBase),
      EraseLabelMapSlice scenarioConventions scenarioPainting ![0, 0, 0] 2 2 1 0 150 true 2 =
        some self1 ∧
      self1 = { scenarioPainting with
          LabelMap := ⟨scenarioPainting.LabelMap.size, scenarioPainting.LabelMap.voxels.map
            (fun v =>
              if v.index ∈ touched ∧ v.value ≠ 0 then
                { v with
                  value :=
                    if true = true then
                      scenarioConventions.GetValueFromChestRegionAndType
                        (if scenarioConventions.GetChestRegionFromValue v.value = 2 then 0
                          else scenarioConventions.GetChestRegionFromValue v.value)
                        (if scenarioConventions.GetChestTypeFromValue v.value = 2 then 0
                          else scenarioConventions.GetChestTypeFromValue v.value)
                    else 0 }
              else v)⟩ } ∧
      (∀ voxelIndex, voxelIndex ∈ touched ↔
        InSliceWindow_spec scenarioPainting ![0, 0, 0] 1 0 150 2 voxelIndex) ∧
      self1.PaintedIndices = scenarioPainting.PaintedIndices ∧
      (∀ (k : Nat) (v : Voxel), scenarioPainting.LabelMap.voxels[k]? = some v → v.value = 0 →
        self1.LabelMap.voxels[k]? = some v) :=
  EraseLabelMapSlice_window scenarioConventions scenarioPainting ![0, 0, 0] 2 2 1 0 150 true 2
    (le_refl 2)
    (fun d _ => by fin_cases d <;> simp)
    (fun _ h => h)
    scenarioPainting_wellFormed

end EraseClaim

end CIP

/-! ## The editor: the arrays `ChestRegion` and `ChestType` -/

namespace CIP

section AssertLemmas

/-- Appending a tuple, by name, to an array that follows arrays of other names. -/
theorem insertTupleByName_append_hit {V : Type} (name : String) (i : Nat) (tuple : List V)
    (a : FieldArray V) (l2 : List (FieldArray V)) (ha : a.name = name)
    (hi : i = a.tuples.length) :
    ∀ l1 : List (FieldArray V), (∀ b ∈ l1, b.name ≠ name) →
      insertTupleByName name i tuple (l1 ++ a :: l2) =
        some (l1 ++ { a with tuples := a.tuples ++ [tuple] } :: l2)
  | [], _ => by
    simp [insertTupleByName, ha, FieldArray.InsertTuple, hi]
  | b :: l1, h => by
    have hb : b.name ≠ name := h b (by simp)
    have ih := insertTupleByName_append_hit name i tuple a l2 ha hi l1
      (fun c hc => h c (by simp [hc]))
    show insertTupleByName name i tuple (b :: (l1 ++ a :: l2)) = _
    rw [insertTupleByName, if_neg hb, ih]
    rfl

theorem GetArray_isSome_eq_any {V : Type} (particles : PolyData V) (name : String) :
    (particles.GetArray name).isSome = particles.fieldData.any (fun a => a.name = name) := by
  rw [Bool.eq_iff_iff]
  simp [PolyData.GetArray, List.find?_isSome, List.any_eq_true]

/-- The loop of `AssertChestRegionChestTypeArrayExistence`, started after `s` rounds: each
round appends a tuple to the arrays that were created. -/
theorem assertLoop_eq (foundR foundT : Bool) (r t : ℚ) (old : List (FieldArray ℚ))
    (hR : foundR = false → ∀ a ∈ old, a.name ≠ "ChestRegion")
    (hT : foundT = false → ∀ a ∈ old, a.name ≠ "ChestType") :
    ∀ (n s : Nat),
      assertLoop foundR foundT r t (List.range' s n)
          (old ++ (if foundR then [] else [⟨"ChestRegion", 1, List.replicate s [r]⟩]) ++
            (if foundT then [] else [⟨"ChestType", 1, List.replicate s [t]⟩])) =
        some (old ++
          (if foundR then [] else [⟨"ChestRegion", 1, List.replicate (s + n) [r]⟩]) ++
          (if foundT then [] else [⟨"ChestType", 1, List.replicate (s + n) [t]⟩]))
  | 0, s => by simp [assertLoop]
  | n + 1, s => by
    have ih := assertLoop_eq foundR foundT r t old hR hT n (s + 1)
    have hs : s + 1 + n = s + (n + 1) := by omega
    rw [hs] at ih
    have hRT : ("ChestRegion" : String) ≠ "ChestType" := by decide
    cases foundR <;> cases foundT
    · simp only [Bool.false_eq_true, if_false, List.append_assoc, List.singleton_append] at ih ⊢
      have h1 := insertTupleByName_append_hit "ChestRegion" s [r]
        ⟨"ChestRegion", 1, List.replicate s [r]⟩ [⟨"ChestType", 1, List.replicate s [t]⟩]
        rfl (by simp) old (hR rfl)
      have h2 := insertTupleByName_append_hit "ChestType" s [t]
        ⟨"ChestType", 1, List.replicate s [t]⟩ [] rfl (by simp)
        (old ++ [⟨"ChestRegion", 1, List.replicate (s + 1) [r]⟩])
        (by
          intro b hb
          rcases List.mem_append.mp hb with hb | hb
          · exact hT rfl b hb
          · rw [List.mem_singleton.mp hb]
            exact hRT)
      simp only [← List.replicate_succ', List.append_assoc, List.singleton_append] at h1 h2
      simp only [List.range'_succ, assertLoop, Bool.not_false, if_true, h1, h2, ih]
    · simp only [Bool.false_eq_true, if_false, if_true, List.append_nil] at ih ⊢
      have h1 := insertTupleByName_append_hit "ChestRegion" s [r]
        ⟨"ChestRegion", 1, List.replicate s [r]⟩ [] rfl (by simp) old (hR rfl)
      simp only [← List.replicate_succ'] at h1
      simp only [List.range'_succ, assertLoop, Bool.not_false, Bool.not_true, if_true,
        Bool.false_eq_true, if_false, h1, ih]
    · simp only [Bool.false_eq_true, if_false, if_true, List.append_nil] at ih ⊢
      have h2 := insertTupleByName_append_hit "ChestType" s [t]
        ⟨"ChestType", 1, List.replicate s [t]⟩ [] rfl (by simp) old (hT rfl)
      simp only [← List.replicate_succ'] at h2
      simp only [List.range'_succ, assertLoop, Bool.not_false, Bool.not_true, if_true,
        Bool.false_eq_true, if_false, h2, ih]
    · simp only [if_true, List.append_nil] at ih ⊢
      simp only [List.range'_succ, assertLoop, Bool.not_true, Bool.false_eq_true, if_false, ih]

end AssertLemmas

end CIP

namespace CIP

section AssertClaim

/-- The particle set that `AssertChestRegionChestTypeArrayExistence` leaves. -/
theorem AssertChestRegionChestTypeArrayExistence_eq (conventions : ChestConventions)
    (particles : PolyData ℚ) :
    AssertChestRegionChestTypeArrayExistence conventions particles =
      some ⟨particles.points, particles.fieldData ++
        (if particles.fieldData.any (fun a => a.name = "ChestRegion") then []
          else [⟨"ChestRegion", 1, List.replicate particles.GetNumberOfPoints
            [(conventions.UNDEFINEDREGION : ℚ)]⟩]) ++
        (if particles.fieldData.any (fun a => a.name = "ChestType") then []
          else [⟨"ChestType", 1, List.replicate particles.GetNumberOfPoints
            [(conventions.UNDEFINEDTYPE : ℚ)]⟩])⟩ := by
  have hloop := assertLoop_eq
    (particles.fieldData.any (fun a => a.name = "ChestRegion"))
    (particles.fieldData.any (fun a => a.name = "ChestType"))
    (conventions.UNDEFINEDREGION : ℚ) (conventions.UNDEFINEDTYPE : ℚ) particles.fieldData
    (fun h => by simpa [List.any_eq_false] using h)
    (fun h => by simpa [List.any_eq_false] using h) particles.GetNumberOfPoints 0
  rw [← List.range_eq_range'] at hloop
  simp only [List.replicate_zero, Nat.zero_add] at hloop
  unfold AssertChestRegionChestTypeArrayExistence
  cases hfR : particles.fieldData.any (fun a => a.name = "ChestRegion") <;>
    cases hfT : particles.fieldData.any (fun a => a.name = "ChestType")
  · simp only [hfR, hfT, Bool.false_eq_true, if_false] at hloop
    simp only [Bool.not_false, if_true, Bool.or_self, hloop, Bool.false_eq_true, if_false]
  · simp only [hfR, hfT, Bool.false_eq_true, if_false, if_true, List.append_nil] at hloop
    simp only [Bool.not_false, Bool.not_true, if_true, Bool.false_eq_true, if_false,
      Bool.or_false, hloop, List.append_nil]
  · simp only [hfR, hfT, Bool.false_eq_true, if_false, if_true, List.append_nil] at hloop
    simp only [Bool.not_false, Bool.not_true, if_true, Bool.false_eq_true, if_false,
      Bool.or_true, hloop, List.append_nil]
  · simp only [Bool.not_true, Bool.false_eq_true, if_false, Bool.or_self, if_true,
      List.append_nil]

/-- Claim C24 (`AssertChestRegionChestTypeArrayExistence`).  For every particle set the call
returns; the points are unchanged, and the arrays after the call are the arrays before it,
unchanged and in place, followed by a new array `ChestRegion` if there was none and by a new
array `ChestType` if there was none, each new array with one component and one entry per
particle, every entry equal to UNDEFINEDREGION (resp. UNDEFINEDTYPE).  So both arrays exist
after the call, and a second call changes nothing. -/
theorem AssertChestRegionChestTypeArrayExistence_spec (conventions : ChestConventions)
    (particles : PolyData ℚ) :
    ∃ particles1, AssertChestRegionChestTypeArrayExistence conventions particles =
        some particles1 ∧
      particles1.points = particles.points ∧
      particles1.fieldData = particles.fieldData ++
        (if (particles.GetArray "ChestRegion").isSome then []
          else [⟨"ChestRegion", 1, List.replicate particles.GetNumberOfPoints
            [(conventions.UNDEFINEDREGION : ℚ)]⟩]) ++
        (if (particles.GetArray "ChestType").isSome then []
          else [⟨"ChestType", 1, List.replicate particles.GetNumberOfPoints
            [(conventions.UNDEFINEDTYPE : ℚ)]⟩]) ∧
      (particles1.GetArray "ChestRegion").isSome = true ∧
      (particles1.GetArray "ChestType").isSome = true ∧
      AssertChestRegionChestTypeArrayExistence conventions particles1 = some particles1 := by
  have h := AssertChestRegionChestTypeArrayExistence_eq conventions particles
  have hanyR : (particles.fieldData ++
      (if particles.fieldData.any (fun a => a.name = "ChestRegion") then []
        else [(⟨"ChestRegion", 1, List.replicate particles.GetNumberOfPoints
          [(conventions.UNDEFINEDREGION : ℚ)]⟩ : FieldArray ℚ)]) ++
      (if particles.fieldData.any (fun a => a.name = "ChestType") then []
        else [(⟨"ChestType", 1, List.replicate particles.GetNumberOfPoints
          [(conventions.UNDEFINEDTYPE : ℚ)]⟩ : FieldArray ℚ)])).any (fun a => a.name = "ChestRegion") = true := by
    cases hfR : particles.fieldData.any (fun a => a.name = "ChestRegion")
    · simp
    · simp [hfR]
  have hanyT : (particles.fieldData ++
      (if particles.fieldData.any (fun a => a.name = "ChestRegion") then []
        else [(⟨"ChestRegion", 1, List.replicate particles.GetNumberOfPoints
          [(conventions.UNDEFINEDREGION : ℚ)]⟩ : FieldArray ℚ)]) ++
      (if particles.fieldData.any (fun a => a.name = "ChestType") then []
        else [(⟨"ChestType", 1, List.replicate particles.GetNumberOfPoints
          [(conventions.UNDEFINEDTYPE : ℚ)]⟩ : FieldArray ℚ)])).any (fun a => a.name = "ChestType") = true := by
    cases hfT : particles.fieldData.any (fun a => a.name = "ChestType")
    · simp
    · simp [hfT]
  refine ⟨_, h, rfl, ?_, ?_, ?_, ?_⟩
  · simp only [GetArray_isSome_eq_any]
  · rw [GetArray_isSome_eq_any]
    exact hanyR
  · rw [GetArray_isSome_eq_any]
    exact hanyT
  · rw [AssertChestRegionChestTypeArrayExistence_eq]
    simp only [hanyR, hanyT, if_true, List.append_nil]

end AssertClaim

end CIP

/-! ## The editor: argument validation -/

namespace CIP

section ValidationLemmas

variable {I Image : Type}

/-- With vectors of equal length the loop of `AddRegionTypePointsAsSpheresToInteractor`
never indexes out of range. -/
theorem spheresLoop_isSome (interactorClass : cipAirwayDataInteractor I Image)
    (conventions : ChestConventions) (regionTypeOutput : Nat → Nat → PolyData ℚ)
    (regions types : List Nat) (red green blue scale opacity : List ℚ)
    (ht : types.length = regions.length) (hr : red.length = regions.length)
    (hg : green.length = regions.length) (hb : blue.length = regions.length)
    (hs : scale.length = regions.length) (ho : opacity.length = regions.length) :
    ∀ (is : List Nat) (interactor : I), (∀ i ∈ is, i < regions.length) →
      ∃ interactor1, spheresLoop interactorClass conventions regionTypeOutput regions types red
        green blue scale opacity is interactor = some interactor1
  | [], interactor, _ => ⟨interactor, rfl⟩
  | i :: is, interactor, h => by
    have hi : i < regions.length := h i (by simp)
    simp only [spheresLoop, List.getElem?_eq_getElem hi,
      List.getElem?_eq_getElem (ht ▸ hi : i < types.length),
      List.getElem?_eq_getElem (hr ▸ hi : i < red.length),
      List.getElem?_eq_getElem (hg ▸ hi : i < green.length),
      List.getElem?_eq_getElem (hb ▸ hi : i < blue.length),
      List.getElem?_eq_getElem (hs ▸ hi : i < scale.length),
      List.getElem?_eq_getElem (ho ▸ hi : i < opacity.length)]
    exact spheresLoop_isSome interactorClass conventions regionTypeOutput regions types red green
      blue scale opacity ht hr hg hb hs ho is _ (fun j hj => h j (by simp [hj]))

theorem EqualCounts_spec_iff (cl : EditCommandLine) :
    EqualCounts_spec cl ↔
      (cl.rtpRegion.length = cl.rtpType.length ∧
          cl.rtpRegion.length = cl.rtpRed.length ∧
          cl.rtpRegion.length = cl.rtpGreen.length ∧
          cl.rtpRegion.length = cl.rtpBlue.length ∧
          cl.rtpRegion.length = cl.rtpSc.length ∧
          cl.rtpRegion.length = cl.rtpOp.length ∧
          cl.rtpRegion.length > 0) := by
  unfold EqualCounts_spec
  constructor
  · rintro ⟨h1, h2, h3, h4, h5, h6, h7⟩
    exact ⟨h1.symm, h2.symm, h3.symm, h4.symm, h6.symm, h5.symm, h7⟩
  · rintro ⟨h1, h2, h3, h4, h5, h6, h7⟩
    exact ⟨h1.symm, h2.symm, h3.symm, h4.symm, h6.symm, h5.symm, h7⟩

/-- With a region-type points file and lists that do not all have the same positive length,
parsing ends with the argument-parsing error status. -/
theorem parseArguments_error (ARGUMENTPARSINGERROR : Int) (cl : EditCommandLine)
    (hrtp : supplied cl.rtp) (hc : ¬ EqualCounts_spec cl) :
    parseArguments ARGUMENTPARSINGERROR (some cl) = Except.error ARGUMENTPARSINGERROR := by
  have hname : getValue "NA" cl.rtp ≠ "NA" := hrtp
  simp only [parseArguments]
  rw [if_pos ⟨hname, fun h => hc ((EqualCounts_spec_iff cl).mpr h)⟩]

/-- With lists that all have the same positive length, parsing succeeds and hands the lists
on, regions and types cast to `unsigned char`. -/
theorem parseArguments_ok (ARGUMENTPARSINGERROR : Int) (cl : EditCommandLine)
    (hc : EqualCounts_spec cl) :
    ∃ args, parseArguments ARGUMENTPARSINGERROR (some cl) = Except.ok args ∧
      args.regionTypePointsFileName = getValue "NA" cl.rtp ∧
      args.regionTypePointsRegions = cl.rtpRegion.map (fun r => r % 256) ∧
      args.regionTypePointsTypes = cl.rtpType.map (fun t => t % 256) ∧
      args.regionTypePointsRed = cl.rtpRed ∧ args.regionTypePointsGreen = cl.rtpGreen ∧
      args.regionTypePointsBlue = cl.rtpBlue ∧ args.regionTypePointsOpacity = cl.rtpOp ∧
      args.regionTypePointsScale = cl.rtpSc := by
  simp only [parseArguments]
  rw [if_neg (fun h => h.2 ((EqualCounts_spec_iff cl).mp hc))]
  exact ⟨_, rfl, rfl, rfl, rfl, rfl, rfl, rfl, rfl, rfl⟩

end ValidationLemmas

end CIP

namespace CIP

section ValidationClaim

variable {I Image : Type}

/-- Claim C23 (argument validation of `EditAirwayParticles`).  When a region-type points file
name is given (a name other than `"NA"`) and `cl.parse` does not throw: parsing succeeds if
and only if the lists given for `--rtpRegion`, `--rtpType`, `--rtpRed`, `--rtpGreen`,
`--rtpBlue`, `--rtpOp` and `--rtpSc` all have the same length and that length is at least 1;
otherwise `main` returns the argument-parsing error status and has read no file.  After a
successful parse every position of the region list has a type, a colour, an opacity and a
scale, and `AddRegionTypePointsAsSpheresToInteractor` runs through the lists without
indexing out of range. -/
theorem EditAirwayParticles_argument_validation (c : EditCollaborators I Image)
    (conventions : ChestConventions) (ARGUMENTPARSINGERROR NRRDREADFAILURE EXITSUCCESS : Int)
    (cl : EditCommandLine) (hrtp : supplied cl.rtp) :
    ((∃ args, parseArguments ARGUMENTPARSINGERROR (some cl) = Except.ok args) ↔
      EqualCounts_spec cl) ∧
    (¬ EqualCounts_spec cl →
      parseArguments ARGUMENTPARSINGERROR (some cl) = Except.error ARGUMENTPARSINGERROR ∧
      EditAirwayParticles.main c conventions ARGUMENTPARSINGERROR NRRDREADFAILURE EXITSUCCESS
        (some cl) = some ⟨ARGUMENTPARSINGERROR, [], none⟩) ∧
    (EqualCounts_spec cl →
      ∃ args, parseArguments ARGUMENTPARSINGERROR (some cl) = Except.ok args ∧
        (∀ i, i < args.regionTypePointsRegions.length →
          ∃ cipType red green blue opacity scale,
            args.regionTypePointsTypes[i]? = some cipType ∧
            args.regionTypePointsRed[i]? = some red ∧
            args.regionTypePointsGreen[i]? = some green ∧
            args.regionTypePointsBlue[i]? = some blue ∧
            args.regionTypePointsOpacity[i]? = some opacity ∧
            args.regionTypePointsScale[i]? = some scale) ∧
        ∀ interactor : I, ∃ interactor1,
          AddRegionTypePointsAsSpheresToInteractor c.interactorClass conventions interactor
            (c.readRegionTypePoints args.regionTypePointsFileName)
            args.regionTypePointsRegions args.regionTypePointsTypes args.regionTypePointsRed
            args.regionTypePointsGreen args.regionTypePointsBlue args.regionTypePointsScale
            args.regionTypePointsOpacity = some interactor1) := by
  have herr : ¬ EqualCounts_spec cl →
      parseArguments ARGUMENTPARSINGERROR (some cl) = Except.error ARGUMENTPARSINGERROR :=
    parseArguments_error ARGUMENTPARSINGERROR cl hrtp
  refine ⟨⟨?_, fun hc => ?_⟩, fun hc => ⟨herr hc, ?_⟩, fun hc => ?_⟩
  · rintro ⟨args, hargs⟩
    by_contra hc
    rw [herr hc] at hargs
    cases hargs
  · obtain ⟨args, hargs, _⟩ := parseArguments_ok ARGUMENTPARSINGERROR cl hc
    exact ⟨args, hargs⟩
  · simp only [EditAirwayParticles.main, herr hc]
  · obtain ⟨args, hargs, _, hR, hT, hred, hgreen, hblue, hop, hsc⟩ :=
      parseArguments_ok ARGUMENTPARSINGERROR cl hc
    obtain ⟨h1, h2, h3, h4, h5, h6, _⟩ := hc
    have hlen : args.regionTypePointsRegions.length = cl.rtpRegion.length := by simp [hR]
    have ht : args.regionTypePointsTypes.length = args.regionTypePointsRegions.length := by
      simp [hR, hT, h1]
    have hr : args.regionTypePointsRed.length = args.regionTypePointsRegions.length := by
      simp [hR, hred, h2]
    have hg : args.regionTypePointsGreen.length = args.regionTypePointsRegions.length := by
      simp [hR, hgreen, h3]
    have hb : args.regionTypePointsBlue.length = args.regionTypePointsRegions.length := by
      simp [hR, hblue, h4]
    have ho : args.regionTypePointsOpacity.length = args.regionTypePointsRegions.length := by
      simp [hR, hop, h5]
    have hs : args.regionTypePointsScale.length = args.regionTypePointsRegions.length := by
      simp [hR, hsc, h6]
    refine ⟨args, hargs, ?_, ?_⟩
    · intro i hi
      exact ⟨_, _, _, _, _, _, List.getElem?_eq_getElem (ht ▸ hi),
        List.getElem?_eq_getElem (hr ▸ hi), List.getElem?_eq_getElem (hg ▸ hi),
        List.getElem?_eq_getElem (hb ▸ hi), List.getElem?_eq_getElem (ho ▸ hi),
        List.getElem?_eq_getElem (hs ▸ hi)⟩
    · intro interactor
      exact spheresLoop_isSome c.interactorClass conventions _ _ _ _ _ _ _ _ ht hr hg hb hs ho
        _ interactor (fun i hi => List.mem_range.mp hi)

/-- Claim C23 on a command line that gives a region-type points file and one value for each
of the seven lists. -/
theorem EditAirwayParticles_argument_validation_witness :
    ((∃ args, parseArguments 2 (some scenarioRegionTypePoints) = Except.ok args) ↔
      EqualCounts_spec scenarioRegionTypePoints) ∧
    (¬ EqualCounts_spec scenarioRegionTypePoints →
      parseArguments 2 (some scenarioRegionTypePoints) = Except.error 2 ∧
      EditAirwayParticles.main scenarioEditCollaborators scenarioConventions 2 3 0
        (some scenarioRegionTypePoints) = some ⟨2, [], none⟩) ∧
    (EqualCounts_spec scenarioRegionTypePoints →
      ∃ args, parseArguments 2 (some scenarioRegionTypePoints) = Except.ok args ∧
        (∀ i, i < args.regionTypePointsRegions.length →
          ∃ cipType red green blue opacity scale,
            args.regionTypePointsTypes[i]? = some cipType ∧
            args.regionTypePointsRed[i]? = some red ∧
            args.regionTypePointsGreen[i]? = some green ∧
            args.regionTypePointsBlue[i]? = some blue ∧
            args.regionTypePointsOpacity[i]? = some opacity ∧
            args.regionTypePointsScale[i]? = some scale) ∧
        ∀ interactor : List (String × (Fin 3 → ℚ)), ∃ interactor1,
          AddRegionTypePointsAsSpheresToInteractor scenarioEditCollaborators.interactorClass
            scenarioConventions interactor
            (scenarioEditCollaborators.readRegionTypePoints args.regionTypePointsFileName)
            args.regionTypePointsRegions args.regionTypePointsTypes args.regionTypePointsRed
            args.regionTypePointsGreen args.regionTypePointsBlue args.regionTypePointsScale
            args.regionTypePointsOpacity = some interactor1) :=
  EditAirwayParticles_argument_validation scenarioEditCollaborators scenarioConventions 2 3 0
    scenarioRegionTypePoints (by simp [supplied, getValue, scenarioRegionTypePoints])

end ValidationClaim

end CIP

/-! ## The editor: labelled particles -/

namespace CIP

section LabelLemmas

variable {I Image : Type}

end LabelLemmas

end CIP

namespace CIP

section LabelLemmas2

variable {I Image : Type}

end LabelLemmas2

end CIP

namespace CIP

section LabelLemmas3

variable {I Image : Type}

end LabelLemmas3

end CIP

namespace CIP

section LabelLemmas4

variable {I Image : Type}

end LabelLemmas4

end CIP

namespace CIP

section LabelLemmas5

variable {I Image : Type}

end LabelLemmas5

end CIP

/-! ## The editor: components and their names -/

namespace CIP

section ComponentLemmas

variable {I Image : Type}

end ComponentLemmas

end CIP

namespace CIP

section NameLemmas

variable {I Image : Type}

end NameLemmas

end CIP

namespace CIP

section AddLemmas

variable {I Image : Type}

end AddLemmas

end CIP

namespace CIP

section LabelClaim

variable {I Image : Type}

end LabelClaim

end CIP
